import Mathlib

/-!
# YUView playlist items: overlay composition and HEVC leaf items

A shallow embedding of `source/playlistItemOverlay.cpp` and
`source/playlistItemHEVCNextGenFile.cpp`.

Conventions of the embedding.

* C++ `int` values are `Int`, and `/` on `int` is the truncating `Int.tdiv`.
  The embedding describes the runs in which no `int` computation overflows
  (`frameIdx + 1`, the rectangle arithmetic); signed overflow is undefined in
  C++ and is given no meaning here.
* Member functions become functions from the object state to the new state,
  together with the list of calls and signals they produce, in program order.
* A virtual call on a child item goes through a record of functions
  (`PlaylistItemOps`), one field per virtual method used by the overlay.
* `getChildPlaylistItem(i)` may return `nullptr`; a child is an `Option`.
  Dereferencing a null child, or a failed `assert`, ends the run: the
  embedding returns `none`.
-/

namespace YUView

/-! ## Shared types -/

/-- The enumeration `itemLoadingState`, the answer of `needsLoading`. -/
inductive ItemLoadingState
  | LoadingNeeded
  | LoadingNotNeeded
  | LoadingNeededDoubleBuffer
  deriving DecidableEq, Repr

/-- The enumeration `recacheIndicator`; the sources name only `RECACHE_NONE`,
the remaining enumerators are kept as one alternative. -/
inductive RecacheIndicator
  | RECACHE_NONE
  | otherIndicator
  deriving DecidableEq, Repr

/-- Qt point: integer coordinates. -/
structure QPoint where
  x : Int
  y : Int
  deriving DecidableEq, Repr

/-- Qt size: integer width and height. -/
structure QSize where
  width : Int
  height : Int
  deriving DecidableEq, Repr

/-- Qt rectangle, stored as in Qt by its first and last column and row
(`x1`, `y1`, `x2`, `y2`, all inclusive). -/
structure QRect where
  x1 : Int
  y1 : Int
  x2 : Int
  y2 : Int
  deriving DecidableEq, Repr

/-- One labelled set of pixel values: a title and a list of name/value pairs
(`ValuePairListSets` is a list of these). -/
abbrev ValuePairListSets := List (String × List (String × String))

/-- The virtual methods of `playlistItem` the overlay calls on a child whose
state has type `σ`.  `needsLoading` and `getSize` are queries; `loadFrame`
returns the child after the call; `updateLayout` is what
`dynamic_cast<playlistItemOverlay*>(child)` followed by `updateLayout()` does
to the child (nothing for a child that is no overlay), `none` when that run
ends abnormally. -/
structure PlaylistItemOps (σ : Type) where
  needsLoading : σ → Int → Bool → ItemLoadingState
  loadFrame : σ → Int → Bool → Bool → Bool → σ
  getSize : σ → QSize
  getPixelValues : σ → QPoint → Int → ValuePairListSets
  updateLayout : σ → Option σ

/-! ## Qt rectangles (`QRect`), after the Qt headers -/

namespace QRect

/-- The default constructed rectangle `QRect()`, a null rectangle. -/
def null : QRect := ⟨0, 0, -1, -1⟩

/-- The accessor `QRect::left`. -/
def left (r : QRect) : Int := r.x1

/-- The accessor `QRect::top`. -/
def top (r : QRect) : Int := r.y1

/-- The accessor `QRect::right`. -/
def right (r : QRect) : Int := r.x2

/-- The accessor `QRect::bottom`. -/
def bottom (r : QRect) : Int := r.y2

/-- The accessor `QRect::width`. -/
def width (r : QRect) : Int := r.x2 - r.x1 + 1

/-- The accessor `QRect::height`. -/
def height (r : QRect) : Int := r.y2 - r.y1 + 1

/-- The accessor `QRect::size`. -/
def size (r : QRect) : QSize := ⟨r.width, r.height⟩

/-- The predicate `QRect::isNull`. -/
def isNull (r : QRect) : Bool := decide (r.x2 = r.x1 - 1 ∧ r.y2 = r.y1 - 1)

/-- The accessor `QRect::topLeft`. -/
def topLeft (r : QRect) : QPoint := ⟨r.x1, r.y1⟩

/-- The accessor `QRect::topRight`. -/
def topRight (r : QRect) : QPoint := ⟨r.x2, r.y1⟩

/-- The accessor `QRect::bottomLeft`. -/
def bottomLeft (r : QRect) : QPoint := ⟨r.x1, r.y2⟩

/-- The accessor `QRect::bottomRight`. -/
def bottomRight (r : QRect) : QPoint := ⟨r.x2, r.y2⟩

/-- The accessor `QRect::center`; the C++ division truncates. -/
def center (r : QRect) : QPoint := ⟨Int.tdiv (r.x1 + r.x2) 2, Int.tdiv (r.y1 + r.y2) 2⟩

/-- The function `QRect::setSize`: the top left corner stays. -/
def setSize (r : QRect) (s : QSize) : QRect :=
  { r with x2 := s.width + r.x1 - 1, y2 := s.height + r.y1 - 1 }

/-- The function `QRect::moveLeft`. -/
def moveLeft (r : QRect) (pos : Int) : QRect := { r with x2 := r.x2 + (pos - r.x1), x1 := pos }

/-- The function `QRect::moveTop`. -/
def moveTop (r : QRect) (pos : Int) : QRect := { r with y2 := r.y2 + (pos - r.y1), y1 := pos }

/-- The function `QRect::moveRight`. -/
def moveRight (r : QRect) (pos : Int) : QRect := { r with x1 := r.x1 + (pos - r.x2), x2 := pos }

/-- The function `QRect::moveBottom`. -/
def moveBottom (r : QRect) (pos : Int) : QRect := { r with y1 := r.y1 + (pos - r.y2), y2 := pos }

/-- The function `QRect::moveTopLeft`. -/
def moveTopLeft (r : QRect) (p : QPoint) : QRect := (r.moveLeft p.x).moveTop p.y

/-- The function `QRect::moveTopRight`. -/
def moveTopRight (r : QRect) (p : QPoint) : QRect := (r.moveRight p.x).moveTop p.y

/-- The function `QRect::moveBottomLeft`. -/
def moveBottomLeft (r : QRect) (p : QPoint) : QRect := (r.moveLeft p.x).moveBottom p.y

/-- The function `QRect::moveBottomRight`. -/
def moveBottomRight (r : QRect) (p : QPoint) : QRect := (r.moveRight p.x).moveBottom p.y

/-- The function `QRect::moveCenter`; the C++ divisions truncate. -/
def moveCenter (r : QRect) (p : QPoint) : QRect :=
  let w := r.x2 - r.x1
  let h := r.y2 - r.y1
  let x1 := p.x - Int.tdiv w 2
  let y1 := p.y - Int.tdiv h 2
  ⟨x1, y1, x1 + w, y1 + h⟩

/-- The function `QRect::translate`. -/
def translate (r : QRect) (p : QPoint) : QRect := ⟨r.x1 + p.x, r.y1 + p.y, r.x2 + p.x, r.y2 + p.y⟩

/-- The function `QRect::united` (the operator `|`): the bounding rectangle of
the two; a null rectangle is neutral, a rectangle with its edges swapped is
normalised first. -/
def united (a b : QRect) : QRect :=
  if a.isNull then b
  else if b.isNull then a
  else
    let l1 := if a.x2 - a.x1 + 1 < 0 then a.x2 else a.x1
    let r1 := if a.x2 - a.x1 + 1 < 0 then a.x1 else a.x2
    let l2 := if b.x2 - b.x1 + 1 < 0 then b.x2 else b.x1
    let r2 := if b.x2 - b.x1 + 1 < 0 then b.x1 else b.x2
    let t1 := if a.y2 - a.y1 + 1 < 0 then a.y2 else a.y1
    let b1 := if a.y2 - a.y1 + 1 < 0 then a.y1 else a.y2
    let t2 := if b.y2 - b.y1 + 1 < 0 then b.y2 else b.y1
    let b2 := if b.y2 - b.y1 + 1 < 0 then b.y1 else b.y2
    ⟨min l1 l2, min t1 t2, max r1 r2, max b1 b2⟩

/-- The function `QRect::contains(const QPoint &)` with `proper = false`: the
edges belong to the rectangle. -/
def contains (r : QRect) (p : QPoint) : Bool :=
  let l := if r.x2 < r.x1 - 1 then r.x2 else r.x1
  let rr := if r.x2 < r.x1 - 1 then r.x1 else r.x2
  if p.x < l ∨ p.x > rr then false
  else
    let t := if r.y2 < r.y1 - 1 then r.y2 else r.y1
    let b := if r.y2 < r.y1 - 1 then r.y1 else r.y2
    if p.y < t ∨ p.y > b then false else true

/-- The function `QRect::contains(const QRect &)` with `proper = false`: a null
rectangle neither contains a rectangle nor is contained in one; the edges of
the outer rectangle belong to it. -/
def containsRect (a r : QRect) : Bool :=
  if a.isNull ∨ r.isNull then false
  else
    let l1 := if a.x2 - a.x1 + 1 < 0 then a.x2 else a.x1
    let r1 := if a.x2 - a.x1 + 1 < 0 then a.x1 else a.x2
    let l2 := if r.x2 - r.x1 + 1 < 0 then r.x2 else r.x1
    let r2 := if r.x2 - r.x1 + 1 < 0 then r.x1 else r.x2
    if l2 < l1 ∨ r2 > r1 then false
    else
      let t1 := if a.y2 - a.y1 + 1 < 0 then a.y2 else a.y1
      let b1 := if a.y2 - a.y1 + 1 < 0 then a.y1 else a.y2
      let t2 := if r.y2 - r.y1 + 1 < 0 then r.y2 else r.y1
      let b2 := if r.y2 - r.y1 + 1 < 0 then r.y1 else r.y2
      if t2 < t1 ∨ b2 > b1 then false else true

end QRect

/-! ## `playlistItemOverlay` -/

/-- The members of `playlistItemOverlay` used by the functions below.
`children` is the child list seen through `getChildPlaylistItem` (so
`childCount()` is its length); `comboBoxAlignment` is `none` while
`propertiesWidget` is null and otherwise holds
`ui.comboBoxAlignment->currentIndex()`. -/
structure PlaylistItemOverlay (σ : Type) where
  children : List (Option σ)
  childItems : List QRect
  boundingRect : QRect
  alignmentMode : Int
  manualAlignment : QPoint
  comboBoxAlignment : Option Int

/-- A call or signal observed while an overlay member function runs. -/
inductive OverlayEvent
  | childLoadFrame (i : Nat) (frameIdx : Int) (playing loadRawData emitSignals : Bool)
  | signalItemChanged (redraw : Bool) (recache : RecacheIndicator)
  | signalItemDoubleBufferLoaded
  deriving DecidableEq, Repr

/-- Is the event a `loadFrame` call on a child? -/
def OverlayEvent.isChildLoadFrame : OverlayEvent → Bool
  | .childLoadFrame _ _ _ _ _ => true
  | _ => false

namespace PlaylistItemOverlay

variable {σ : Type}

/-- The number of children, `childCount()`. -/
def childCount (ov : PlaylistItemOverlay σ) : Nat := ov.children.length

/-- One `for` loop of `needsLoading`: scan the children in order and stop with
`true` at the first one whose `needsLoading` equals `target`.  A null child
that is reached is dereferenced (`none`). -/
def needsLoadingScan (ops : PlaylistItemOps σ) (target : ItemLoadingState)
    (frameIdx : Int) (loadRawdata : Bool) : List (Option σ) → Option Bool
  | [] => some false
  | none :: _ => none
  | some c :: rest =>
    if ops.needsLoading c frameIdx loadRawdata = target then some true
    else needsLoadingScan ops target frameIdx loadRawdata rest

/-- The function `playlistItemOverlay::needsLoading`: a first pass looking for
`LoadingNeeded`, then a second pass looking for `LoadingNeededDoubleBuffer`. -/
def needsLoading (ops : PlaylistItemOps σ) (ov : PlaylistItemOverlay σ)
    (frameIdx : Int) (loadRawdata : Bool) : Option ItemLoadingState :=
  match needsLoadingScan ops .LoadingNeeded frameIdx loadRawdata ov.children with
  | none => none
  | some true => some .LoadingNeeded
  | some false =>
    match needsLoadingScan ops .LoadingNeededDoubleBuffer frameIdx loadRawdata ov.children with
    | none => none
    | some true => some .LoadingNeededDoubleBuffer
    | some false => some .LoadingNotNeeded

/-- The local variables and effects of the loop of `loadFrame` after it has
run: the children as the loop left them, the calls made, and the two flags. -/
structure LoadLoopResult (σ : Type) where
  children : List (Option σ)
  events : List OverlayEvent
  itemLoaded : Bool
  itemLoadedDoubleBuffer : Bool

/-- The `for` loop of `playlistItemOverlay::loadFrame`, started at child index
`i` with the remaining children and the current values of the two flags. -/
def loadFrameLoop (ops : PlaylistItemOps σ) (frameIdx : Int) (playing loadRawData : Bool) :
    Nat → List (Option σ) → Bool → Bool → Option (LoadLoopResult σ)
  | _, [], itemLoaded, itemLoadedDoubleBuffer =>
    some ⟨[], [], itemLoaded, itemLoadedDoubleBuffer⟩
  | _, none :: _, _, _ => none
  | i, some item :: rest, itemLoaded, itemLoadedDoubleBuffer =>
    let state := ops.needsLoading item frameIdx loadRawData
    let item' :=
      if state ≠ .LoadingNotNeeded then ops.loadFrame item frameIdx playing loadRawData false
      else item
    let calls : List OverlayEvent :=
      if state ≠ .LoadingNotNeeded then [.childLoadFrame i frameIdx playing loadRawData false]
      else []
    let itemLoaded' := if state = .LoadingNeeded then true else itemLoaded
    let itemLoadedDoubleBuffer' :=
      if playing && (state = .LoadingNeeded || state = .LoadingNeededDoubleBuffer) then true
      else itemLoadedDoubleBuffer
    match loadFrameLoop ops frameIdx playing loadRawData (i + 1) rest itemLoaded'
        itemLoadedDoubleBuffer' with
    | none => none
    | some r => some ⟨some item' :: r.children, calls ++ r.events, r.itemLoaded,
        r.itemLoadedDoubleBuffer⟩

/-- The function `playlistItemOverlay::loadFrame`: the overlay after the call
and the calls and signals it made, in order. -/
def loadFrame (ops : PlaylistItemOps σ) (ov : PlaylistItemOverlay σ) (frameIdx : Int)
    (playing loadRawData emitSignals : Bool) :
    Option (PlaylistItemOverlay σ × List OverlayEvent) :=
  match loadFrameLoop ops frameIdx playing loadRawData 0 ov.children false false with
  | none => none
  | some r =>
    let s1 : List OverlayEvent :=
      if emitSignals && r.itemLoaded then [.signalItemChanged true .RECACHE_NONE] else []
    let s2 : List OverlayEvent :=
      if emitSignals && r.itemLoadedDoubleBuffer then [.signalItemDoubleBufferLoaded] else []
    some ({ ov with children := r.children }, r.events ++ s1 ++ s2)

/-- The loop of `updateLayout` over the children that are overlays themselves:
each child gets its own `updateLayout()`; a null child is skipped. -/
def updateChildOverlays (ops : PlaylistItemOps σ) : List (Option σ) → Option (List (Option σ))
  | [] => some []
  | none :: rest =>
    match updateChildOverlays ops rest with
    | none => none
    | some rest' => some (none :: rest')
  | some c :: rest =>
    match ops.updateLayout c with
    | none => none
    | some c' =>
      match updateChildOverlays ops rest with
      | none => none
      | some rest' => some (some c' :: rest')

/-- The chain of `if`s of `updateLayout` that aligns `targetRect` with
`firstItemRect`; for a mode outside 0..8 the final `assert` fails (`none`). -/
def alignRect (alignmentMode : Int) (firstItemRect targetRect : QRect) : Option QRect :=
  if alignmentMode = 0 then some (targetRect.moveTopLeft firstItemRect.topLeft)
  else if alignmentMode = 1 then some (targetRect.moveTop firstItemRect.top)
  else if alignmentMode = 2 then some (targetRect.moveTopRight firstItemRect.topRight)
  else if alignmentMode = 3 then some (targetRect.moveLeft firstItemRect.left)
  else if alignmentMode = 5 then some (targetRect.moveRight firstItemRect.right)
  else if alignmentMode = 6 then some (targetRect.moveBottomLeft firstItemRect.bottomLeft)
  else if alignmentMode = 7 then some (targetRect.moveBottom firstItemRect.bottom)
  else if alignmentMode = 8 then some (targetRect.moveBottomRight firstItemRect.bottomRight)
  else if alignmentMode = 4 then some targetRect
  else none

/-- The last loop of `updateLayout`, started at child index `i` with the
remaining children: place each non-null child and grow the bounding rectangle.
Returns the placement list and the bounding rectangle. -/
def alignLoop (ops : PlaylistItemOps σ) (alignmentMode : Int) (manualAlignment : QPoint)
    (firstItemRect : QRect) :
    Nat → List (Option σ) → List QRect → QRect → Option (List QRect × QRect)
  | _, [], childItems, boundingRect => some (childItems, boundingRect)
  | i, none :: rest, childItems, boundingRect =>
    alignLoop ops alignmentMode manualAlignment firstItemRect (i + 1) rest childItems boundingRect
  | i, some childItem :: rest, childItems, boundingRect =>
    let childSize := ops.getSize childItem
    let targetRect := (QRect.null.setSize childSize).moveCenter ⟨0, 0⟩
    match alignRect alignmentMode firstItemRect targetRect with
    | none => none
    | some aligned =>
      let targetRect := aligned.translate manualAlignment
      alignLoop ops alignmentMode manualAlignment firstItemRect (i + 1) rest
        (childItems.set i targetRect) (boundingRect.united targetRect)

/-- The function `playlistItemOverlay::updateLayout(checkNumber)`.  The local
variable `alignmentMode` hides the member of the same name: it is 0 unless the
properties widget exists, and then the current index of the combo box. -/
def updateLayout (ops : PlaylistItemOps σ) (ov : PlaylistItemOverlay σ) (checkNumber : Bool) :
    Option (PlaylistItemOverlay σ) :=
  if ov.childCount = 0 then some { ov with childItems := [], boundingRect := QRect.null }
  else if checkNumber = true ∧ ov.childCount = ov.childItems.length then some ov
  else
    let childItems0 :=
      if ov.childItems.length ≠ ov.childCount then List.replicate ov.childCount QRect.null
      else ov.childItems
    match updateChildOverlays ops ov.children with
    | none => none
    | some children =>
      match children with
      | some firstItem :: rest =>
        let boundingRect := (ov.boundingRect.setSize (ops.getSize firstItem)).moveCenter ⟨0, 0⟩
        let firstItemRect := (QRect.null.setSize (ops.getSize firstItem)).moveCenter ⟨0, 0⟩
        let childItems1 := childItems0.set 0 firstItemRect
        let alignmentMode : Int :=
          match ov.comboBoxAlignment with
          | none => 0
          | some currentIndex => currentIndex
        match alignLoop ops alignmentMode ov.manualAlignment firstItemRect 1 rest childItems1
            boundingRect with
        | none => none
        | some r => some { ov with children := children, childItems := r.1, boundingRect := r.2 }
      | _ => none

/-- The function `playlistItemOverlay::getSize`; `containerSize` is what
`playlistItemContainer::getSize()` answers for an overlay without children. -/
def getSize (containerSize : QSize) (ov : PlaylistItemOverlay σ) : QSize :=
  if ov.childCount = 0 then containerSize else ov.boundingRect.size

/-- The inner loop of `getPixelValues`: every set of the child gets the title
`Item i - title`. -/
def labelSets (i : Nat) (childSets : ValuePairListSets) : ValuePairListSets :=
  childSets.map fun s => ("Item " ++ toString i ++ " - " ++ s.1, s.2)

/-- The loop of `playlistItemOverlay::getPixelValues`, started at child index
`i` with the remaining children.  Reading `childItems[i]` beyond the end of the
list ends the run (`none`). -/
def getPixelValuesLoop (ops : PlaylistItemOps σ) (childItems : List QRect) (relPoint : QPoint)
    (frameIdx : Int) : Nat → List (Option σ) → Option ValuePairListSets
  | _, [] => some []
  | i, none :: rest => getPixelValuesLoop ops childItems relPoint frameIdx (i + 1) rest
  | i, some childItem :: rest =>
    match childItems[i]? with
    | none => none
    | some rect =>
      let here : ValuePairListSets :=
        if rect.contains relPoint then
          let childPixelPos : QPoint := ⟨relPoint.x - rect.topLeft.x, relPoint.y - rect.topLeft.y⟩
          labelSets i (ops.getPixelValues childItem childPixelPos frameIdx)
        else []
      match getPixelValuesLoop ops childItems relPoint frameIdx (i + 1) rest with
      | none => none
      | some more => some (here ++ more)

/-- The function `playlistItemOverlay::getPixelValues`. -/
def getPixelValues (ops : PlaylistItemOps σ) (ov : PlaylistItemOverlay σ) (pixelPos : QPoint)
    (frameIdx : Int) : Option ValuePairListSets :=
  let relPoint : QPoint :=
    ⟨ov.boundingRect.topLeft.x + pixelPos.x, ov.boundingRect.topLeft.y + pixelPos.y⟩
  getPixelValuesLoop ops ov.childItems relPoint frameIdx 0 ov.children

/-- The calls `childItem->getPixelValues(childPixelPos, frameIdx)` the loop of
`getPixelValues` makes, as pairs of the child index and `childPixelPos`: the
same loop as `getPixelValuesLoop`, keeping the arguments of the calls instead
of their results. -/
def getPixelValuesCallsLoop (childItems : List QRect) (relPoint : QPoint) :
    Nat → List (Option σ) → Option (List (Nat × QPoint))
  | _, [] => some []
  | i, none :: rest => getPixelValuesCallsLoop childItems relPoint (i + 1) rest
  | i, some _ :: rest =>
    match childItems[i]? with
    | none => none
    | some rect =>
      let here : List (Nat × QPoint) :=
        if rect.contains relPoint then
          [(i, ⟨relPoint.x - rect.topLeft.x, relPoint.y - rect.topLeft.y⟩)]
        else []
      match getPixelValuesCallsLoop childItems relPoint (i + 1) rest with
      | none => none
      | some more => some (here ++ more)

/-- The calls on children made by `playlistItemOverlay::getPixelValues`. -/
def getPixelValuesCalls (ov : PlaylistItemOverlay σ) (pixelPos : QPoint) :
    Option (List (Nat × QPoint)) :=
  let relPoint : QPoint :=
    ⟨ov.boundingRect.topLeft.x + pixelPos.x, ov.boundingRect.topLeft.y + pixelPos.y⟩
  getPixelValuesCallsLoop ov.childItems relPoint 0 ov.children

/-- The rectangle `QRect r; r.setSize(size); r.moveCenter(QPoint(0,0))` that
`updateLayout` builds for the first item (`firstItemRect`) and for every
further child (`targetRect`, before it is aligned). -/
def originRect (size : QSize) : QRect := (QRect.null.setSize size).moveCenter ⟨0, 0⟩

/-- The constructor `playlistItemOverlay()`: no children, nothing laid out,
`alignmentMode = 0`, `manualAlignment = QPoint(0,0)`, no properties widget. -/
def construct : PlaylistItemOverlay σ :=
  { children := []
    childItems := []
    boundingRect := QRect.null
    alignmentMode := 0
    manualAlignment := ⟨0, 0⟩
    comboBoxAlignment := none }

/-- The function `playlistItemOverlay::newPlaylistItemOverlay`; the three
arguments are the values of `alignmentMode`, `manualAlignmentX` and
`manualAlignmentY` read from the playlist entry. -/
def newPlaylistItemOverlay (alignment manualAlignmentX manualAlignmentY : Int) :
    PlaylistItemOverlay σ :=
  { (construct : PlaylistItemOverlay σ) with
    alignmentMode := alignment
    manualAlignment := ⟨manualAlignmentX, manualAlignmentY⟩ }

end PlaylistItemOverlay

/-! ## `playlistItemHEVCNextGenFile` -/

/-- The member `fileState` of the HEVC item. -/
inductive HevcFileState
  | hevcFileNoError
  | hevcFileOnlyParsing
  | hevcFileError
  deriving DecidableEq, Repr

/-- Qt byte array, as the list of its bytes; `isEmpty` is `List.isEmpty`. -/
abbrev QByteArray := List Nat

/-- The types of the collaborators whose code is outside the two source files:
the decoder class `hevcNextGenDecoderJEM`, the part of `videoHandlerYUV` and of
`statisticHandler` the item never names, the pixel format and the statistics
data of one type. -/
structure ExternalTypes where
  Decoder : Type
  VideoInternals : Type
  StatInternals : Type
  PixelFormat : Type
  StatisticsData : Type

/-- The object `videoHandlerYUV` behind `video`: the members the item reads or
writes by name, and the rest (image buffers, double buffer, cache). -/
structure VideoHandlerYUV (T : ExternalTypes) where
  frameSize : QSize
  srcPixelFormat : T.PixelFormat
  rawYUVData : QByteArray
  rawYUVData_frameIdx : Int
  showPixelValuesAsDiff : Bool
  internals : T.VideoInternals

/-- The object `statisticHandler` behind `statSource`: `statFrameSize`,
`statsCache` (indexed by the statistics type), and the rest. -/
structure StatisticHandler (T : ExternalTypes) where
  statFrameSize : QSize
  statsCache : Int → Option T.StatisticsData
  internals : T.StatInternals

/-- The four collaborator objects an HEVC item owns. -/
structure Parts (T : ExternalTypes) where
  loadingDecoder : T.Decoder
  cachingDecoder : T.Decoder
  video : VideoHandlerYUV T
  statSource : StatisticHandler T

/-- The state of a `playlistItemHEVCNextGenFile`: its collaborators and its own
members (`startEndFrame` is the pair `(first, second)` of an `indexRange`). -/
structure PlaylistItemHEVCNextGenFile (T : ExternalTypes) extends Parts T where
  cachingEnabled : Bool
  startEndFrame : Int × Int
  isFrameLoading : Bool
  isFrameLoadingDoubleBuffer : Bool
  fileState : HevcFileState
  displaySignal : Int

/-- The member functions of the decoder class. -/
inductive DecoderCall
  | wrapperNrSignalsSupported
  | openFile
  | errorInDecoder
  | errorParsingBitstream
  | getFrameSize
  | getYUVPixelFormat
  | getNumberPOCs
  | loadYUVFrameData (frameIdx : Int)
  | wrapperInternalsSupported
  | statisticsEnabled
  | fillStatisticList
  | getStatisticsData (frameIdx typeIdx : Int)
  | setDecodeSignal (idx : Int)
  | reloadItemSource
  deriving DecidableEq, Repr

/-- A call on a collaborator or an emitted signal, as observed while a member
function of the HEVC item runs.  The painter and the zoom factor of the drawing
calls are left out. -/
inductive HEVCEvent
  | loadingDecoder (call : DecoderCall)
  | cachingDecoder (call : DecoderCall)
  | videoNeedsLoading (frameIdx : Int) (loadRawData : Bool)
  | videoLoadFrame (frameIdx : Int) (loadToDoubleBuffer : Bool)
  | videoCacheFrame (idx : Int) (testMode : Bool)
  | videoDrawFrame (frameIdx : Int) (drawRawData : Bool)
  | videoSetFrameSize
  | videoSetYUVPixelFormat
  | videoInvalidateAllBuffers
  | statNeedsLoading (frameIdx : Int)
  | statLoadStatistics (frameIdx : Int)
  | statPaintStatistics (frameIdx : Int)
  | cachingMutexLock
  | cachingMutexUnlock
  | signalItemChanged (redraw recache : Bool)
  | signalItemDoubleBufferLoaded
  deriving DecidableEq, Repr

/-- The behaviour of the collaborators, taken as a parameter: the decoder
class, the member functions of `videoHandlerYUV` and `statisticHandler` the
item calls, the function `getStartEndFrameLimits` of the item's header, and the
values the members have before the constructor body runs.  The flag of
`newDecoder` is the second constructor argument of the decoder, passed as
`true` for the caching decoder only.  A call that can
reach back into the item through a connected signal (`video->loadFrame`,
`video->cacheFrame`, `video->drawFrame`, `statSource.loadStatistics`,
`statSource.paintStatistics`) reads the whole item and returns the collaborator
objects after the call. -/
structure External (T : ExternalTypes) where
  newDecoder : Int → Bool → T.Decoder
  wrapperNrSignalsSupported : T.Decoder → Int
  openFile : T.Decoder → String → Bool × T.Decoder
  openFileShared : T.Decoder → String → T.Decoder → Bool × T.Decoder
  errorInDecoder : T.Decoder → Bool
  errorParsingBitstream : T.Decoder → Bool
  getFrameSize : T.Decoder → QSize
  getYUVPixelFormat : T.Decoder → T.PixelFormat
  getNumberPOCs : T.Decoder → Int
  loadYUVFrameData : T.Decoder → Int → QByteArray × T.Decoder
  wrapperInternalsSupported : T.Decoder → Bool
  statisticsEnabled : T.Decoder → Bool
  fillStatisticList : T.Decoder → StatisticHandler T → StatisticHandler T
  getStatisticsData : T.Decoder → Int → Int → T.StatisticsData × T.Decoder
  setDecodeSignal : T.Decoder → Int → T.Decoder
  reloadItemSource : T.Decoder → T.Decoder
  newVideo : VideoHandlerYUV T
  newStatSource : StatisticHandler T
  initialFileState : HevcFileState
  initialStartEndFrame : Int × Int
  getStartEndFrameLimits : Parts T → Int × Int
  videoNeedsLoading : VideoHandlerYUV T → Int → Bool → ItemLoadingState
  videoLoadFrame : PlaylistItemHEVCNextGenFile T → Int → Bool → Parts T
  videoCacheFrame : PlaylistItemHEVCNextGenFile T → Int → Bool → Parts T
  videoDrawFrame : PlaylistItemHEVCNextGenFile T → Int → Bool → Parts T
  videoInvalidateAllBuffers : VideoHandlerYUV T → VideoHandlerYUV T
  statNeedsLoading : StatisticHandler T → Int → ItemLoadingState
  statLoadStatistics : PlaylistItemHEVCNextGenFile T → Int → Parts T
  statPaintStatistics : PlaylistItemHEVCNextGenFile T → Int → Parts T

namespace VideoHandlerYUV

variable {T : ExternalTypes}

/-- Modelled from the spec: `videoHandlerYUV::setFrameSize` (not in the two
source files) refreshes the frame size of the frame store from the decoder. -/
def setFrameSize (v : VideoHandlerYUV T) (size : QSize) : VideoHandlerYUV T :=
  { v with frameSize := size }

/-- Modelled from the spec: `videoHandlerYUV::setYUVPixelFormat` (not in the two
source files) refreshes the pixel format of the frame store from the decoder. -/
def setYUVPixelFormat (v : VideoHandlerYUV T) (format : T.PixelFormat) : VideoHandlerYUV T :=
  { v with srcPixelFormat := format }

end VideoHandlerYUV

namespace PlaylistItemHEVCNextGenFile

variable {T : ExternalTypes}

/-- The item with its collaborator objects replaced, its own members kept. -/
def withParts (it : PlaylistItemHEVCNextGenFile T) (p : Parts T) :
    PlaylistItemHEVCNextGenFile T :=
  { it with toParts := p }

/-- The function `playlistItemHEVCNextGenFile::needsLoading`. -/
def needsLoading (E : External T) (it : PlaylistItemHEVCNextGenFile T) (frameIdx : Int)
    (loadRawData : Bool) : ItemLoadingState :=
  let videoState := E.videoNeedsLoading it.video frameIdx loadRawData
  if videoState = .LoadingNeeded ∨ E.statNeedsLoading it.statSource frameIdx = .LoadingNeeded then
    .LoadingNeeded
  else videoState

/-- The function `playlistItemHEVCNextGenFile::drawItem`: the item after the
call and the calls made.  The conjunction is evaluated left to right, so the
decoder is asked for the number of pictures only after the first two tests. -/
def drawItem (E : External T) (it : PlaylistItemHEVCNextGenFile T) (frameIdx : Int)
    (drawRawData : Bool) : PlaylistItemHEVCNextGenFile T × List HEVCEvent :=
  if it.fileState = .hevcFileNoError ∧ frameIdx ≥ 0 then
    if frameIdx < E.getNumberPOCs it.loadingDecoder then
      let a := it.withParts (E.videoDrawFrame it frameIdx drawRawData)
      let b := a.withParts (E.statPaintStatistics a frameIdx)
      (b, [.loadingDecoder .getNumberPOCs, .videoDrawFrame frameIdx drawRawData,
           .statPaintStatistics frameIdx])
    else (it, [.loadingDecoder .getNumberPOCs])
  else (it, [])

/-- The function `playlistItemHEVCNextGenFile::loadYUVData`: the item after the
call and the calls made. -/
def loadYUVData (E : External T) (it : PlaylistItemHEVCNextGenFile T) (frameIdx : Int)
    (caching : Bool) : PlaylistItemHEVCNextGenFile T × List HEVCEvent :=
  if caching = true ∧ it.cachingEnabled = false then (it, [])
  else if caching = false ∧ it.fileState ≠ .hevcFileNoError then (it, [])
  else
    let yuvVideo := (it.video.setFrameSize (E.getFrameSize it.loadingDecoder)).setYUVPixelFormat
      (E.getYUVPixelFormat it.loadingDecoder)
    let statSource := { it.statSource with statFrameSize := E.getFrameSize it.loadingDecoder }
    let it1 := { it with video := yuvVideo, statSource := statSource }
    let ev1 : List HEVCEvent :=
      [.loadingDecoder .getFrameSize, .videoSetFrameSize, .loadingDecoder .getYUVPixelFormat,
       .videoSetYUVPixelFormat, .loadingDecoder .getFrameSize]
    if frameIdx > it1.startEndFrame.2 ∨ frameIdx < 0 then (it1, ev1)
    else
      let dec : QByteArray × PlaylistItemHEVCNextGenFile T × List HEVCEvent :=
        if caching then
          let r := E.loadYUVFrameData it1.cachingDecoder frameIdx
          (r.1, { it1 with cachingDecoder := r.2 }, [.cachingDecoder (.loadYUVFrameData frameIdx)])
        else
          let r := E.loadYUVFrameData it1.loadingDecoder frameIdx
          (r.1, { it1 with loadingDecoder := r.2 }, [.loadingDecoder (.loadYUVFrameData frameIdx)])
      let decByteArray := dec.1
      let it2 := dec.2.1
      if ¬ decByteArray.isEmpty then
        ({ it2 with video := { it2.video with rawYUVData := decByteArray,
                                                rawYUVData_frameIdx := frameIdx } },
          ev1 ++ dec.2.2)
      else (it2, ev1 ++ dec.2.2)

/-- The function `playlistItemHEVCNextGenFile::fillStatisticList`. -/
def fillStatisticList (E : External T) (it : PlaylistItemHEVCNextGenFile T) :
    PlaylistItemHEVCNextGenFile T × List HEVCEvent :=
  if E.wrapperInternalsSupported it.loadingDecoder = false then
    (it, [.loadingDecoder .wrapperInternalsSupported])
  else
    ({ it with statSource := E.fillStatisticList it.loadingDecoder it.statSource },
      [.loadingDecoder .wrapperInternalsSupported, .loadingDecoder .fillStatisticList])

/-- The function `playlistItemHEVCNextGenFile::loadStatisticToCache`. -/
def loadStatisticToCache (E : External T) (it : PlaylistItemHEVCNextGenFile T)
    (frameIdx typeIdx : Int) : PlaylistItemHEVCNextGenFile T × List HEVCEvent :=
  if E.wrapperInternalsSupported it.loadingDecoder = false then
    (it, [.loadingDecoder .wrapperInternalsSupported])
  else
    let r := E.getStatisticsData it.loadingDecoder frameIdx typeIdx
    ({ it with
        loadingDecoder := r.2,
        statSource := { it.statSource with
          statsCache := fun t => if t = typeIdx then some r.1 else it.statSource.statsCache t } },
      [.loadingDecoder .wrapperInternalsSupported,
       .loadingDecoder (.getStatisticsData frameIdx typeIdx)])

/-- The function `playlistItemHEVCNextGenFile::reloadItemSource`. -/
def reloadItemSource (E : External T) (it : PlaylistItemHEVCNextGenFile T) :
    PlaylistItemHEVCNextGenFile T × List HEVCEvent :=
  let a := { it with loadingDecoder := E.reloadItemSource it.loadingDecoder }
  let b := { a with startEndFrame := E.getStartEndFrameLimits a.toParts }
  let c := { b with video := E.videoInvalidateAllBuffers b.video }
  let r := loadYUVData E c 0 false
  (r.1, [.loadingDecoder .reloadItemSource, .videoInvalidateAllBuffers] ++ r.2)

/-- The function `playlistItemHEVCNextGenFile::cacheFrame`. -/
def cacheFrame (E : External T) (it : PlaylistItemHEVCNextGenFile T) (idx : Int)
    (testMode : Bool) : PlaylistItemHEVCNextGenFile T × List HEVCEvent :=
  if it.cachingEnabled = false then (it, [])
  else
    (it.withParts (E.videoCacheFrame it idx testMode),
      [.cachingMutexLock, .videoCacheFrame idx testMode, .cachingMutexUnlock])

/-- The first block of `playlistItemHEVCNextGenFile::loadFrame`: the current
frame and its statistics. -/
def loadFrameCurrent (E : External T) (it : PlaylistItemHEVCNextGenFile T) (frameIdx : Int)
    (emitSignals : Bool) (stateYUV stateStat : ItemLoadingState) :
    PlaylistItemHEVCNextGenFile T × List HEVCEvent :=
  if stateYUV = .LoadingNeeded ∨ stateStat = .LoadingNeeded then
    let a := { it with isFrameLoading := true }
    let b : PlaylistItemHEVCNextGenFile T × List HEVCEvent :=
      if stateYUV = .LoadingNeeded then
        (a.withParts (E.videoLoadFrame a frameIdx false), [.videoLoadFrame frameIdx false])
      else (a, [])
    let c : PlaylistItemHEVCNextGenFile T × List HEVCEvent :=
      if stateStat = .LoadingNeeded then
        (b.1.withParts (E.statLoadStatistics b.1 frameIdx), [.statLoadStatistics frameIdx])
      else (b.1, [])
    let d := { c.1 with isFrameLoading := false }
    (d, b.2 ++ c.2 ++ (if emitSignals then [.signalItemChanged true false] else []))
  else (it, [])

/-- The second block of `playlistItemHEVCNextGenFile::loadFrame`: the next
frame into the double buffer. -/
def loadFrameDoubleBuffer (E : External T) (it : PlaylistItemHEVCNextGenFile T) (frameIdx : Int)
    (playing emitSignals : Bool) (stateYUV : ItemLoadingState) :
    PlaylistItemHEVCNextGenFile T × List HEVCEvent :=
  if playing = true ∧ (stateYUV = .LoadingNeeded ∨ stateYUV = .LoadingNeededDoubleBuffer) then
    let nextFrameIdx := frameIdx + 1
    if nextFrameIdx ≤ it.startEndFrame.2 then
      let a := { it with isFrameLoadingDoubleBuffer := true }
      let b := a.withParts (E.videoLoadFrame a nextFrameIdx true)
      let c := { b with isFrameLoadingDoubleBuffer := false }
      (c, [HEVCEvent.videoLoadFrame nextFrameIdx true]
            ++ (if emitSignals then [.signalItemDoubleBufferLoaded] else []))
    else (it, [])
  else (it, [])

/-- The function `playlistItemHEVCNextGenFile::loadFrame`: the item after the
call and the calls and signals made, in order. -/
def loadFrame (E : External T) (it : PlaylistItemHEVCNextGenFile T) (frameIdx : Int)
    (playing loadRawdata emitSignals : Bool) :
    PlaylistItemHEVCNextGenFile T × List HEVCEvent :=
  let stateYUV := E.videoNeedsLoading it.video frameIdx loadRawdata
  let stateStat := E.statNeedsLoading it.statSource frameIdx
  let r1 := loadFrameCurrent E it frameIdx emitSignals stateYUV stateStat
  let r2 := loadFrameDoubleBuffer E r1.1 frameIdx playing emitSignals stateYUV
  (r2.1, [.videoNeedsLoading frameIdx loadRawdata, .statNeedsLoading frameIdx] ++ r1.2 ++ r2.2)

/-- The function `playlistItemHEVCNextGenFile::displaySignalComboBoxChanged`. -/
def displaySignalComboBoxChanged (E : External T) (it : PlaylistItemHEVCNextGenFile T)
    (idx : Int) : PlaylistItemHEVCNextGenFile T × List HEVCEvent :=
  if it.displaySignal ≠ idx then
    let a := { it with
      displaySignal := idx,
      loadingDecoder := E.setDecodeSignal it.loadingDecoder idx,
      cachingDecoder := E.setDecodeSignal it.cachingDecoder idx }
    let yuvVideo := { a.video with showPixelValuesAsDiff := decide (idx = 2 ∨ idx = 3) }
    ({ a with video := E.videoInvalidateAllBuffers yuvVideo },
      [.loadingDecoder (.setDecodeSignal idx), .cachingDecoder (.setDecodeSignal idx),
       .videoInvalidateAllBuffers, .signalItemChanged true true])
  else (it, [])

/-- The constructor, after `loadingDecoder->openFile` has failed: find out
what went wrong and switch caching off. -/
def constructOpenFailed (E : External T) (it : PlaylistItemHEVCNextGenFile T) :
    PlaylistItemHEVCNextGenFile T × List HEVCEvent :=
  let a := if E.errorInDecoder it.loadingDecoder then
    { it with fileState := .hevcFileOnlyParsing } else it
  let b := if E.errorParsingBitstream a.loadingDecoder then
    { a with fileState := .hevcFileError } else a
  ({ b with cachingEnabled := false },
    [.loadingDecoder .errorInDecoder, .loadingDecoder .errorParsingBitstream])

/-- The constructor, after `loadingDecoder->openFile` has succeeded: open the
caching decoder, fill the statistics list, set the frame limits and load
frame 0. -/
def constructOpened (E : External T) (it : PlaylistItemHEVCNextGenFile T)
    (hevcFilePath : String) : PlaylistItemHEVCNextGenFile T × List HEVCEvent :=
  let it2 := { it with fileState := .hevcFileNoError }
  let openedCaching := E.openFileShared it2.cachingDecoder hevcFilePath it2.loadingDecoder
  let it3 := { it2 with cachingDecoder := openedCaching.2 }
  let it4 := if openedCaching.1 = false then { it3 with cachingEnabled := false } else it3
  match fillStatisticList E it4 with
  | (filled, filledCalls) =>
    let it5 := { filled with startEndFrame := E.getStartEndFrameLimits filled.toParts }
    let ev2 : List HEVCEvent := [.cachingDecoder .openFile] ++ filledCalls
    if it5.startEndFrame.2 = -1 then (it5, ev2)
    else
      let r := loadYUVData E it5 0 false
      (r.1, ev2 ++ r.2)

/-- The constructor up to the call of `openFile`: the members as the member
initialisers and the first statements set them. -/
def constructMembers (E : External T) (displayComponent : Int) : PlaylistItemHEVCNextGenFile T :=
  let displaySignal0 := if displayComponent < 0 then 0 else displayComponent
  let loadingDecoder := E.newDecoder displaySignal0 false
  let cachingDecoder := E.newDecoder displaySignal0 true
  let displaySignal :=
    if displaySignal0 > E.wrapperNrSignalsSupported loadingDecoder then 0 else displaySignal0
  { loadingDecoder := loadingDecoder
    cachingDecoder := cachingDecoder
    video := { E.newVideo with
      showPixelValuesAsDiff := decide (displaySignal = 2 ∨ displaySignal = 3) }
    statSource := E.newStatSource
    cachingEnabled := true
    startEndFrame := E.initialStartEndFrame
    isFrameLoading := false
    isFrameLoadingDoubleBuffer := false
    fileState := E.initialFileState
    displaySignal := displaySignal }

/-- The constructor `playlistItemHEVCNextGenFile(hevcFilePath, displayComponent)`:
the constructed item and the calls made on the decoders and the frame store. -/
def construct (E : External T) (hevcFilePath : String) (displayComponent : Int) :
    PlaylistItemHEVCNextGenFile T × List HEVCEvent :=
  let it0 := constructMembers E displayComponent
  let opened := E.openFile it0.loadingDecoder hevcFilePath
  let it1 := { it0 with loadingDecoder := opened.2 }
  let ev1 : List HEVCEvent := [.loadingDecoder .wrapperNrSignalsSupported, .loadingDecoder .openFile]
  if opened.1 = false then
    let r := constructOpenFailed E it1
    (r.1, ev1 ++ r.2)
  else
    let r := constructOpened E it1 hevcFilePath
    (r.1, ev1 ++ r.2)

/-- One call of a member function on a constructed item. -/
inductive Operation
  | loadYUVData (frameIdx : Int) (caching : Bool)
  | loadFrame (frameIdx : Int) (playing loadRawdata emitSignals : Bool)
  | cacheFrame (idx : Int) (testMode : Bool)
  | reloadItemSource
  | displaySignalComboBoxChanged (idx : Int)
  | loadStatisticToCache (frameIdx typeIdx : Int)
  | drawItem (frameIdx : Int) (drawRawData : Bool)
  deriving DecidableEq, Repr

/-- Run one member function: the item after the call and the calls made. -/
def runOperation (E : External T) (it : PlaylistItemHEVCNextGenFile T) :
    Operation → PlaylistItemHEVCNextGenFile T × List HEVCEvent
  | .loadYUVData frameIdx caching => loadYUVData E it frameIdx caching
  | .loadFrame frameIdx playing loadRawdata emitSignals =>
    loadFrame E it frameIdx playing loadRawdata emitSignals
  | .cacheFrame idx testMode => cacheFrame E it idx testMode
  | .reloadItemSource => reloadItemSource E it
  | .displaySignalComboBoxChanged idx => displaySignalComboBoxChanged E it idx
  | .loadStatisticToCache frameIdx typeIdx => loadStatisticToCache E it frameIdx typeIdx
  | .drawItem frameIdx drawRawData => drawItem E it frameIdx drawRawData

/-- Run a sequence of member functions one after the other. -/
def runOperations (E : External T) (it : PlaylistItemHEVCNextGenFile T) :
    List Operation → PlaylistItemHEVCNextGenFile T
  | [] => it
  | op :: ops => runOperations E (runOperation E it op).1 ops

/-- The item states reachable from the constructor: the constructed item, and
every state a member function leaves behind when called in a reachable state.
Between two calls the collaborator objects (decoders, frame store, statistics
source) may be changed by code outside the item, in any way; the item's own
members change only through its member functions. -/
inductive Reachable (E : External T) : PlaylistItemHEVCNextGenFile T → Prop
  | construct (hevcFilePath : String) (displayComponent : Int) :
      Reachable E (construct E hevcFilePath displayComponent).1
  | step (it : PlaylistItemHEVCNextGenFile T) (op : Operation) :
      Reachable E it → Reachable E (runOperation E it op).1
  | collaborators (it : PlaylistItemHEVCNextGenFile T) (p : Parts T) :
      Reachable E it → Reachable E (it.withParts p)

end PlaylistItemHEVCNextGenFile

/-! ## Concrete collaborators

A small decoder and frame store on which the functions can be run: a decoder
is the number of pictures of its file (negative after a parse error), the
frame store remembers which frame is in the current buffer and which in the
double buffer, the statistics source remembers the frame it holds. -/

namespace Demo

/-- The types of the concrete collaborators. -/
def types : ExternalTypes :=
  { Decoder := Int
    VideoInternals := Int × Int
    StatInternals := Int
    PixelFormat := Nat
    StatisticsData := Nat }

/-- The concrete frame store holds `current` in its current buffer and
`doubleBuffer` in its double buffer. -/
def videoNeedsLoading (current doubleBuffer frameIdx : Int) : ItemLoadingState :=
  if current ≠ frameIdx then .LoadingNeeded
  else if doubleBuffer ≠ frameIdx + 1 then .LoadingNeededDoubleBuffer
  else .LoadingNotNeeded

/-- The concrete frame store after loading `frameIdx` into one of its two
buffers. -/
def videoLoadFrame (buffers : Int × Int) (frameIdx : Int) (loadToDoubleBuffer : Bool) :
    Int × Int :=
  if loadToDoubleBuffer then (buffers.1, frameIdx) else (frameIdx, buffers.2)

/-- The concrete collaborators.  The files `good.hevc` and `nocache.hevc` hold
three pictures; the second one cannot be opened a second time for caching;
`empty.hevc` parses and holds no picture; any other file does not parse. -/
def external : External types :=
  { newDecoder := fun _ _ => (0 : Int)
    wrapperNrSignalsSupported := fun _ => 3
    openFile := fun _ path =>
      if path = "good.hevc" ∨ path = "nocache.hevc" then (true, (3 : Int))
      else if path = "empty.hevc" then (true, (0 : Int))
      else (false, (-1 : Int))
    openFileShared := fun d path peer => if path = "good.hevc" then (true, peer) else (false, d)
    errorInDecoder := fun _ => false
    errorParsingBitstream := fun (d : Int) => decide (d < 0)
    getFrameSize := fun _ => ⟨4, 2⟩
    getYUVPixelFormat := fun _ => (420 : Nat)
    getNumberPOCs := fun (d : Int) => d
    loadYUVFrameData := fun (d : Int) frameIdx =>
      (if 0 ≤ frameIdx ∧ frameIdx < d then [frameIdx.toNat, 128] else [], d)
    wrapperInternalsSupported := fun _ => true
    statisticsEnabled := fun _ => true
    fillStatisticList := fun _ s => s
    getStatisticsData := fun d _ _ => ((0 : Nat), d)
    setDecodeSignal := fun d _ => d
    reloadItemSource := fun d => d
    newVideo :=
      { frameSize := ⟨0, 0⟩
        srcPixelFormat := (0 : Nat)
        rawYUVData := []
        rawYUVData_frameIdx := -1
        showPixelValuesAsDiff := false
        internals := ((-1 : Int), (-1 : Int)) }
    newStatSource :=
      { statFrameSize := ⟨0, 0⟩
        statsCache := fun _ => none
        internals := (-1 : Int) }
    initialFileState := .hevcFileNoError
    initialStartEndFrame := (-1, -1)
    getStartEndFrameLimits := fun p => (0, (show Int from p.loadingDecoder) - 1)
    videoNeedsLoading := fun v frameIdx _ =>
      videoNeedsLoading (show Int × Int from v.internals).1 (show Int × Int from v.internals).2
        frameIdx
    videoLoadFrame := fun it frameIdx loadToDoubleBuffer =>
      { it.toParts with
        video := { it.video with
          internals := videoLoadFrame it.video.internals frameIdx loadToDoubleBuffer } }
    videoCacheFrame := fun it _ _ => it.toParts
    videoDrawFrame := fun it _ _ => it.toParts
    videoInvalidateAllBuffers := fun v => { v with internals := ((-1 : Int), (-1 : Int)) }
    statNeedsLoading := fun s frameIdx =>
      if (show Int from s.internals) = frameIdx then .LoadingNotNeeded else .LoadingNeeded
    statLoadStatistics := fun it frameIdx =>
      { it.toParts with statSource := { it.statSource with internals := frameIdx } }
    statPaintStatistics := fun it _ => it.toParts }

/-- An item on `good.hevc` whose frame store holds frame 0 and, in the double
buffer, frame 1, while the statistics of frame 0 have not been loaded. -/
def staleStatisticsItem : PlaylistItemHEVCNextGenFile types :=
  { loadingDecoder := (3 : Int)
    cachingDecoder := (3 : Int)
    video :=
      { frameSize := ⟨4, 2⟩
        srcPixelFormat := (420 : Nat)
        rawYUVData := [0, 128]
        rawYUVData_frameIdx := 0
        showPixelValuesAsDiff := false
        internals := ((0 : Int), (1 : Int)) }
    statSource :=
      { statFrameSize := ⟨4, 2⟩
        statsCache := fun _ => none
        internals := (-1 : Int) }
    cachingEnabled := true
    startEndFrame := (0, 2)
    isFrameLoading := false
    isFrameLoadingDoubleBuffer := false
    fileState := .hevcFileNoError
    displaySignal := 0 }

/-- A leaf child of an overlay for the concrete runs: its loading state and its
size. -/
structure Child where
  state : ItemLoadingState
  size : QSize
  deriving DecidableEq, Repr

/-- The virtual methods of the concrete child: loading makes it up to date. -/
def childOps : PlaylistItemOps Child :=
  { needsLoading := fun c _ _ => c.state
    loadFrame := fun c _ _ _ _ => { c with state := .LoadingNotNeeded }
    getSize := fun c => c.size
    getPixelValues := fun _ _ _ => [("YUV", [])]
    updateLayout := fun c => some c }

/-- An overlay with the given concrete children and nothing laid out yet. -/
def overlay (cs : List Child) : PlaylistItemOverlay Child :=
  { children := cs.map some
    childItems := []
    boundingRect := QRect.null
    alignmentMode := 0
    manualAlignment := ⟨0, 0⟩
    comboBoxAlignment := none }

end Demo

/-! # Theorems -/

namespace PlaylistItemOverlay

variable {σ : Type}

/-- With no null child, one pass of `needsLoading` answers whether some child
reports `target`. -/
theorem needsLoadingScan_map_some (ops : PlaylistItemOps σ) (target : ItemLoadingState)
    (frameIdx : Int) (loadRawdata : Bool) (cs : List σ) :
    needsLoadingScan ops target frameIdx loadRawdata (cs.map some) =
      some (cs.any fun c => decide (ops.needsLoading c frameIdx loadRawdata = target)) := by
  induction cs with
  | nil => rfl
  | cons c rest ih =>
    by_cases h : ops.needsLoading c frameIdx loadRawdata = target
    · simp [needsLoadingScan, h]
    · simp only [List.map_cons, needsLoadingScan, if_neg h, ih, List.any_cons, decide_eq_false h,
        Bool.false_or]

/-- C1: for every overlay whose children are the (non-null) items `cs`, in any
order, `needsLoading` returns `LoadingNeeded` as soon as one child reports
`LoadingNeeded`; otherwise `LoadingNeededDoubleBuffer` if one child reports
that; otherwise, also for no children at all, `LoadingNotNeeded`. -/
theorem overlay_needsLoading_precedence (ops : PlaylistItemOps σ) (ov : PlaylistItemOverlay σ)
    (cs : List σ) (frameIdx : Int) (loadRawdata : Bool) :
    ((∃ c ∈ cs, ops.needsLoading c frameIdx loadRawdata = .LoadingNeeded) →
      needsLoading ops { ov with children := cs.map some } frameIdx loadRawdata
        = some .LoadingNeeded) ∧
    ((¬ ∃ c ∈ cs, ops.needsLoading c frameIdx loadRawdata = .LoadingNeeded) →
      (∃ c ∈ cs, ops.needsLoading c frameIdx loadRawdata = .LoadingNeededDoubleBuffer) →
      needsLoading ops { ov with children := cs.map some } frameIdx loadRawdata
        = some .LoadingNeededDoubleBuffer) ∧
    ((¬ ∃ c ∈ cs, ops.needsLoading c frameIdx loadRawdata = .LoadingNeeded) →
      (¬ ∃ c ∈ cs, ops.needsLoading c frameIdx loadRawdata = .LoadingNeededDoubleBuffer) →
      needsLoading ops { ov with children := cs.map some } frameIdx loadRawdata
        = some .LoadingNotNeeded) := by
  have any_iff : ∀ t : ItemLoadingState,
      (cs.any fun c => decide (ops.needsLoading c frameIdx loadRawdata = t)) = true ↔
        ∃ c ∈ cs, ops.needsLoading c frameIdx loadRawdata = t := by
    intro t
    simp [List.any_eq_true]
  refine ⟨?_, ?_, ?_⟩
  · intro h
    have h1 := (any_iff .LoadingNeeded).2 h
    simp [needsLoading, needsLoadingScan_map_some, h1]
  · intro h hd
    have h1 : (cs.any fun c => decide (ops.needsLoading c frameIdx loadRawdata
        = .LoadingNeeded)) = false := by
      rw [Bool.eq_false_iff]; exact fun hc => h ((any_iff _).1 hc)
    have h2 := (any_iff .LoadingNeededDoubleBuffer).2 hd
    simp [needsLoading, needsLoadingScan_map_some, h1, h2]
  · intro h hd
    have h1 : (cs.any fun c => decide (ops.needsLoading c frameIdx loadRawdata
        = .LoadingNeeded)) = false := by
      rw [Bool.eq_false_iff]; exact fun hc => h ((any_iff _).1 hc)
    have h2 : (cs.any fun c => decide (ops.needsLoading c frameIdx loadRawdata
        = .LoadingNeededDoubleBuffer)) = false := by
      rw [Bool.eq_false_iff]; exact fun hc => hd ((any_iff _).1 hc)
    simp [needsLoading, needsLoadingScan_map_some, h1, h2]

/-- With no null child the loop of `loadFrame` runs to its end; the result is
given in closed form. -/
theorem loadFrameLoop_map_some (ops : PlaylistItemOps σ) (frameIdx : Int)
    (playing loadRawData : Bool) (cs : List σ) (i : Nat) (a b : Bool) :
    loadFrameLoop ops frameIdx playing loadRawData i (cs.map some) a b =
      some ⟨cs.map (fun c => some
              (if ops.needsLoading c frameIdx loadRawData ≠ .LoadingNotNeeded
               then ops.loadFrame c frameIdx playing loadRawData false else c)),
            ((cs.enumFrom i).filter
              (fun p => decide (ops.needsLoading p.2 frameIdx loadRawData ≠ .LoadingNotNeeded))).map
              (fun p => OverlayEvent.childLoadFrame p.1 frameIdx playing loadRawData false),
            a || cs.any (fun c => decide (ops.needsLoading c frameIdx loadRawData = .LoadingNeeded)),
            b || (playing && cs.any
              (fun c => decide (ops.needsLoading c frameIdx loadRawData ≠ .LoadingNotNeeded)))⟩ := by
  induction cs generalizing i a b with
  | nil => simp [loadFrameLoop]
  | cons c rest ih =>
    simp only [List.map_cons, loadFrameLoop, ih, List.enumFrom_cons, List.any_cons]
    cases h : ops.needsLoading c frameIdx loadRawData <;> cases playing <;> cases a <;> cases b <;>
      simp [List.filter_cons, h]

/-- With no null child `loadFrame` returns; the result is given in closed
form. -/
theorem loadFrame_map_some (ops : PlaylistItemOps σ) (ov : PlaylistItemOverlay σ)
    (cs : List σ) (frameIdx : Int) (playing loadRawData emitSignals : Bool) :
    loadFrame ops { ov with children := cs.map some } frameIdx playing loadRawData emitSignals =
      some ({ ov with children := cs.map (fun c => some
              (if ops.needsLoading c frameIdx loadRawData ≠ .LoadingNotNeeded
               then ops.loadFrame c frameIdx playing loadRawData false else c)) },
        ((cs.enum.filter
            (fun p => decide (ops.needsLoading p.2 frameIdx loadRawData ≠ .LoadingNotNeeded))).map
            (fun p => OverlayEvent.childLoadFrame p.1 frameIdx playing loadRawData false))
          ++ (if (emitSignals && cs.any
                (fun c => decide (ops.needsLoading c frameIdx loadRawData = .LoadingNeeded))) = true
              then [OverlayEvent.signalItemChanged true .RECACHE_NONE] else [])
          ++ (if (emitSignals && (playing && cs.any
                (fun c => decide (ops.needsLoading c frameIdx loadRawData ≠ .LoadingNotNeeded))))
                = true
              then [OverlayEvent.signalItemDoubleBufferLoaded] else [])) := by
  simp only [loadFrame, loadFrameLoop_map_some, Bool.false_or, List.enum]

/-- C2: for every overlay whose children are the (non-null) items `cs`,
`loadFrame` returns, and the `loadFrame` calls it makes on children are exactly
one call for each child whose `needsLoading(frameIdx, loadRawData)` is not
`LoadingNotNeeded`, in child-index order, with the same `frameIdx`, `playing`
and `loadRawData` and with `emitSignals = false`; a child reporting
`LoadingNotNeeded` is left as it was. -/
theorem overlay_loadFrame_fanout (ops : PlaylistItemOps σ) (ov : PlaylistItemOverlay σ)
    (cs : List σ) (frameIdx : Int) (playing loadRawData emitSignals : Bool) :
    ∃ ov' trace,
      loadFrame ops { ov with children := cs.map some } frameIdx playing loadRawData emitSignals
        = some (ov', trace) ∧
      trace.filter OverlayEvent.isChildLoadFrame =
        (cs.enum.filter
          (fun p => decide (ops.needsLoading p.2 frameIdx loadRawData ≠ .LoadingNotNeeded))).map
          (fun p => OverlayEvent.childLoadFrame p.1 frameIdx playing loadRawData false) ∧
      ov'.children = cs.map (fun c => some
        (if ops.needsLoading c frameIdx loadRawData ≠ .LoadingNotNeeded
         then ops.loadFrame c frameIdx playing loadRawData false else c)) := by
  refine ⟨_, _, loadFrame_map_some ops ov cs frameIdx playing loadRawData emitSignals, ?_, ?_⟩
  · simp only [List.filter_append, List.filter_map]
    have hsig1 : ∀ c : Bool, List.filter OverlayEvent.isChildLoadFrame
        (if c then [OverlayEvent.signalItemChanged true .RECACHE_NONE] else []) = [] := by
      intro c; cases c <;> rfl
    have hsig2 : ∀ c : Bool, List.filter OverlayEvent.isChildLoadFrame
        (if c then [OverlayEvent.signalItemDoubleBufferLoaded] else []) = [] := by
      intro c; cases c <;> rfl
    rw [hsig1, hsig2, List.append_nil, List.append_nil]
    congr 1
    rw [List.filter_filter]
    apply List.filter_congr
    intro p _
    simp [Function.comp, OverlayEvent.isChildLoadFrame]
  · rfl

/-- C3: in the trace of one `loadFrame` call on an overlay whose children are
the (non-null) items `cs`, all child `loadFrame` calls come first; after them
comes `signalItemChanged(true, RECACHE_NONE)` once if `emitSignals` holds and
some child reported `LoadingNeeded` (not at all otherwise), then
`signalItemDoubleBufferLoaded` once if `emitSignals` and `playing` hold and some
child reported `LoadingNeeded` or `LoadingNeededDoubleBuffer` (not at all
otherwise); with `emitSignals = false` the overlay emits nothing. -/
theorem overlay_loadFrame_notifications (ops : PlaylistItemOps σ) (ov : PlaylistItemOverlay σ)
    (cs : List σ) (frameIdx : Int) (playing loadRawData emitSignals : Bool) :
    ∃ ov' calls,
      loadFrame ops { ov with children := cs.map some } frameIdx playing loadRawData emitSignals
        = some (ov', calls
            ++ (if emitSignals = true ∧
                  ∃ c ∈ cs, ops.needsLoading c frameIdx loadRawData = .LoadingNeeded
                then [OverlayEvent.signalItemChanged true .RECACHE_NONE] else [])
            ++ (if emitSignals = true ∧ playing = true ∧
                  ∃ c ∈ cs, ops.needsLoading c frameIdx loadRawData = .LoadingNeeded ∨
                    ops.needsLoading c frameIdx loadRawData = .LoadingNeededDoubleBuffer
                then [OverlayEvent.signalItemDoubleBufferLoaded] else [])) ∧
      ∀ e ∈ calls, e.isChildLoadFrame = true := by
  classical
  refine ⟨{ ov with children := cs.map (fun c => some
              (if ops.needsLoading c frameIdx loadRawData ≠ .LoadingNotNeeded
               then ops.loadFrame c frameIdx playing loadRawData false else c)) },
          (cs.enum.filter
            (fun p => decide (ops.needsLoading p.2 frameIdx loadRawData ≠ .LoadingNotNeeded))).map
            (fun p => OverlayEvent.childLoadFrame p.1 frameIdx playing loadRawData false), ?_, ?_⟩
  · rw [loadFrame_map_some]
    have hne : ∀ c : σ, (ops.needsLoading c frameIdx loadRawData ≠ .LoadingNotNeeded) ↔
        (ops.needsLoading c frameIdx loadRawData = .LoadingNeeded ∨
          ops.needsLoading c frameIdx loadRawData = .LoadingNeededDoubleBuffer) := by
      intro c; cases ops.needsLoading c frameIdx loadRawData <;> simp
    have c1 : ((emitSignals && cs.any
          (fun c => decide (ops.needsLoading c frameIdx loadRawData = .LoadingNeeded))) = true) ↔
        (emitSignals = true ∧
          ∃ c ∈ cs, ops.needsLoading c frameIdx loadRawData = .LoadingNeeded) := by
      simp [List.any_eq_true]
    have c2 : ((emitSignals && (playing && cs.any
          (fun c => decide (ops.needsLoading c frameIdx loadRawData ≠ .LoadingNotNeeded))))
          = true) ↔
        (emitSignals = true ∧ playing = true ∧
          ∃ c ∈ cs, ops.needsLoading c frameIdx loadRawData = .LoadingNeeded ∨
            ops.needsLoading c frameIdx loadRawData = .LoadingNeededDoubleBuffer) := by
      simp only [Bool.and_eq_true, List.any_eq_true, decide_eq_true_eq, hne]
    simp only [c1, c2]
  · intro e he
    simp only [List.mem_map] at he
    obtain ⟨p, _, rfl⟩ := he
    rfl

end PlaylistItemOverlay

namespace PlaylistItemHEVCNextGenFile

variable {T : ExternalTypes}

/-- C4: `needsLoading` of the HEVC item returns `LoadingNeeded` exactly when the
frame store or the statistics source reports `LoadingNeeded` for the frame;
otherwise it returns `LoadingNeededDoubleBuffer` exactly when the frame store
reports that, and `LoadingNotNeeded` in the remaining case. -/
theorem hevc_needsLoading_rule (E : External T) (it : PlaylistItemHEVCNextGenFile T)
    (frameIdx : Int) (loadRawData : Bool) :
    (needsLoading E it frameIdx loadRawData = .LoadingNeeded ↔
      (E.videoNeedsLoading it.video frameIdx loadRawData = .LoadingNeeded ∨
        E.statNeedsLoading it.statSource frameIdx = .LoadingNeeded)) ∧
    (¬ (E.videoNeedsLoading it.video frameIdx loadRawData = .LoadingNeeded ∨
        E.statNeedsLoading it.statSource frameIdx = .LoadingNeeded) →
      (needsLoading E it frameIdx loadRawData = .LoadingNeededDoubleBuffer ↔
        E.videoNeedsLoading it.video frameIdx loadRawData = .LoadingNeededDoubleBuffer) ∧
      (E.videoNeedsLoading it.video frameIdx loadRawData ≠ .LoadingNeededDoubleBuffer →
        needsLoading E it frameIdx loadRawData = .LoadingNotNeeded)) := by
  unfold needsLoading
  cases hv : E.videoNeedsLoading it.video frameIdx loadRawData <;>
    cases hs : E.statNeedsLoading it.statSource frameIdx <;> simp

/-- C7: what `loadYUVData` does to the raw pixel buffer and its frame index.
For a frame index below 0 or above `startEndFrame.second` both are unchanged
and no decoder is asked for a frame; both are also unchanged when the selected
decoder returns an empty buffer; whenever one of them differs after the
call, the call has passed its guards, the index is in range, the selected
decoder has returned a non-empty buffer, and the two members are exactly that
buffer and `frameIdx`.  And a call that passes its two guards with an index in
range asks the selected decoder, and no other, for frame `frameIdx`, once, after
the size and format queries; if the buffer returned is not empty, the two
members become exactly that buffer and `frameIdx`. -/
theorem hevc_loadYUVData_raw_buffer (E : External T) (it : PlaylistItemHEVCNextGenFile T)
    (frameIdx : Int) (caching : Bool) :
    ((frameIdx < 0 ∨ frameIdx > it.startEndFrame.2) →
      (loadYUVData E it frameIdx caching).1.video.rawYUVData = it.video.rawYUVData ∧
      (loadYUVData E it frameIdx caching).1.video.rawYUVData_frameIdx
        = it.video.rawYUVData_frameIdx ∧
      ∀ k, HEVCEvent.loadingDecoder (.loadYUVFrameData k) ∉ (loadYUVData E it frameIdx caching).2 ∧
        HEVCEvent.cachingDecoder (.loadYUVFrameData k) ∉ (loadYUVData E it frameIdx caching).2) ∧
    ((E.loadYUVFrameData (if caching then it.cachingDecoder else it.loadingDecoder) frameIdx).1
        = [] →
      (loadYUVData E it frameIdx caching).1.video.rawYUVData = it.video.rawYUVData ∧
      (loadYUVData E it frameIdx caching).1.video.rawYUVData_frameIdx
        = it.video.rawYUVData_frameIdx) ∧
    (((loadYUVData E it frameIdx caching).1.video.rawYUVData ≠ it.video.rawYUVData ∨
      (loadYUVData E it frameIdx caching).1.video.rawYUVData_frameIdx
        ≠ it.video.rawYUVData_frameIdx) →
      0 ≤ frameIdx ∧ frameIdx ≤ it.startEndFrame.2 ∧
      (E.loadYUVFrameData (if caching then it.cachingDecoder else it.loadingDecoder) frameIdx).1
        ≠ [] ∧
      (loadYUVData E it frameIdx caching).1.video.rawYUVData =
        (E.loadYUVFrameData (if caching then it.cachingDecoder else it.loadingDecoder) frameIdx).1 ∧
      (loadYUVData E it frameIdx caching).1.video.rawYUVData_frameIdx = frameIdx ∧
      ((caching = true ∧
          HEVCEvent.cachingDecoder (.loadYUVFrameData frameIdx)
            ∈ (loadYUVData E it frameIdx caching).2) ∨
        (caching = false ∧
          HEVCEvent.loadingDecoder (.loadYUVFrameData frameIdx)
            ∈ (loadYUVData E it frameIdx caching).2))) ∧
    (¬ (caching = true ∧ it.cachingEnabled = false) →
      ¬ (caching = false ∧ it.fileState ≠ .hevcFileNoError) →
      0 ≤ frameIdx → frameIdx ≤ it.startEndFrame.2 →
      (loadYUVData E it frameIdx caching).2 =
        [.loadingDecoder .getFrameSize, .videoSetFrameSize, .loadingDecoder .getYUVPixelFormat,
          .videoSetYUVPixelFormat, .loadingDecoder .getFrameSize,
          if caching then .cachingDecoder (.loadYUVFrameData frameIdx)
          else .loadingDecoder (.loadYUVFrameData frameIdx)] ∧
      ((E.loadYUVFrameData (if caching then it.cachingDecoder else it.loadingDecoder) frameIdx).1
          ≠ [] →
        (loadYUVData E it frameIdx caching).1.video.rawYUVData =
          (E.loadYUVFrameData (if caching then it.cachingDecoder else it.loadingDecoder)
            frameIdx).1 ∧
        (loadYUVData E it frameIdx caching).1.video.rawYUVData_frameIdx = frameIdx)) := by
  refine ⟨?_, ?_, ?_, ?_⟩
  · intro hrange
    have hr : frameIdx > it.startEndFrame.2 ∨ frameIdx < 0 := by omega
    unfold loadYUVData
    split_ifs <;>
      simp_all [VideoHandlerYUV.setFrameSize, VideoHandlerYUV.setYUVPixelFormat]
  · intro hempty
    unfold loadYUVData
    cases caching <;>
      simp_all [VideoHandlerYUV.setFrameSize, VideoHandlerYUV.setYUVPixelFormat] <;>
      split_ifs <;> simp_all
  · intro hchange
    unfold loadYUVData at hchange ⊢
    cases caching <;>
      simp_all [VideoHandlerYUV.setFrameSize, VideoHandlerYUV.setYUVPixelFormat] <;>
      split_ifs at hchange ⊢ <;> simp_all
  · intro hg1 hg2 hlo hhi
    have hr : ¬ (frameIdx > it.startEndFrame.2 ∨ frameIdx < 0) := by omega
    unfold loadYUVData
    rw [if_neg hg1, if_neg hg2]
    simp only [if_neg hr]
    cases caching <;>
      simp [VideoHandlerYUV.setFrameSize, VideoHandlerYUV.setYUVPixelFormat] <;>
      split_ifs <;> simp_all

/-- The members of the item itself (not its collaborators) that `loadYUVData`
leaves alone. -/
theorem loadYUVData_own (E : External T) (it : PlaylistItemHEVCNextGenFile T) (frameIdx : Int)
    (caching : Bool) :
    (loadYUVData E it frameIdx caching).1.cachingEnabled = it.cachingEnabled ∧
    (loadYUVData E it frameIdx caching).1.fileState = it.fileState ∧
    (loadYUVData E it frameIdx caching).1.isFrameLoading = it.isFrameLoading ∧
    (loadYUVData E it frameIdx caching).1.isFrameLoadingDoubleBuffer
      = it.isFrameLoadingDoubleBuffer ∧
    (loadYUVData E it frameIdx caching).1.startEndFrame = it.startEndFrame := by
  unfold loadYUVData
  cases caching <;> simp <;> split_ifs <;> simp

/-- The first block of `loadFrame` keeps the members of the item itself, leaves
`isFrameLoading` false if it was, and makes only calls for the current frame. -/
theorem loadFrameCurrent_own (E : External T) (it : PlaylistItemHEVCNextGenFile T)
    (frameIdx : Int) (emitSignals : Bool) (stateYUV stateStat : ItemLoadingState) :
    (loadFrameCurrent E it frameIdx emitSignals stateYUV stateStat).1.cachingEnabled
      = it.cachingEnabled ∧
    (loadFrameCurrent E it frameIdx emitSignals stateYUV stateStat).1.fileState = it.fileState ∧
    (loadFrameCurrent E it frameIdx emitSignals stateYUV stateStat).1.startEndFrame
      = it.startEndFrame ∧
    (loadFrameCurrent E it frameIdx emitSignals stateYUV stateStat).1.isFrameLoadingDoubleBuffer
      = it.isFrameLoadingDoubleBuffer ∧
    (it.isFrameLoading = false →
      (loadFrameCurrent E it frameIdx emitSignals stateYUV stateStat).1.isFrameLoading = false) ∧
    (∀ e ∈ (loadFrameCurrent E it frameIdx emitSignals stateYUV stateStat).2,
      e = .videoLoadFrame frameIdx false ∨ e = .statLoadStatistics frameIdx ∨
        (emitSignals = true ∧ e = .signalItemChanged true false)) := by
  unfold loadFrameCurrent
  cases stateYUV <;> cases stateStat <;> cases emitSignals <;> simp [withParts]

/-- The second block of `loadFrame`: its calls in closed form, and the members
of the item itself it keeps. -/
theorem loadFrameDoubleBuffer_own (E : External T) (it : PlaylistItemHEVCNextGenFile T)
    (frameIdx : Int) (playing emitSignals : Bool) (stateYUV : ItemLoadingState) :
    (loadFrameDoubleBuffer E it frameIdx playing emitSignals stateYUV).1.cachingEnabled
      = it.cachingEnabled ∧
    (loadFrameDoubleBuffer E it frameIdx playing emitSignals stateYUV).1.fileState
      = it.fileState ∧
    (loadFrameDoubleBuffer E it frameIdx playing emitSignals stateYUV).1.isFrameLoading
      = it.isFrameLoading ∧
    (it.isFrameLoadingDoubleBuffer = false →
      (loadFrameDoubleBuffer E it frameIdx playing emitSignals stateYUV).1.isFrameLoadingDoubleBuffer
        = false) ∧
    (loadFrameDoubleBuffer E it frameIdx playing emitSignals stateYUV).2 =
      (if playing = true ∧
          (stateYUV = .LoadingNeeded ∨ stateYUV = .LoadingNeededDoubleBuffer) ∧
          frameIdx + 1 ≤ it.startEndFrame.2
       then HEVCEvent.videoLoadFrame (frameIdx + 1) true ::
          (if emitSignals then [HEVCEvent.signalItemDoubleBufferLoaded] else [])
       else []) := by
  unfold loadFrameDoubleBuffer
  by_cases h : frameIdx + 1 ≤ it.startEndFrame.2 <;>
    cases stateYUV <;> cases playing <;> cases emitSignals <;> simp [withParts, h]

/-- No member function changes `cachingEnabled` or `fileState`, and each leaves
the two busy flags false if they were false when it was called. -/
theorem runOperation_own (E : External T) (it : PlaylistItemHEVCNextGenFile T) (op : Operation) :
    (runOperation E it op).1.cachingEnabled = it.cachingEnabled ∧
    (runOperation E it op).1.fileState = it.fileState ∧
    (it.isFrameLoading = false → (runOperation E it op).1.isFrameLoading = false) ∧
    (it.isFrameLoadingDoubleBuffer = false →
      (runOperation E it op).1.isFrameLoadingDoubleBuffer = false) := by
  cases op with
  | loadYUVData frameIdx caching =>
    obtain ⟨h1, h2, h3, h4, _⟩ := loadYUVData_own E it frameIdx caching
    simp only [runOperation]
    exact ⟨h1, h2, fun h => h3.trans h, fun h => h4.trans h⟩
  | loadFrame frameIdx playing loadRawdata emitSignals =>
    simp only [runOperation, loadFrame]
    obtain ⟨a1, a2, _, a4, a5, _⟩ := loadFrameCurrent_own E it frameIdx emitSignals
      (E.videoNeedsLoading it.video frameIdx loadRawdata) (E.statNeedsLoading it.statSource frameIdx)
    obtain ⟨b1, b2, b3, b4, _⟩ := loadFrameDoubleBuffer_own E
      (loadFrameCurrent E it frameIdx emitSignals
        (E.videoNeedsLoading it.video frameIdx loadRawdata)
        (E.statNeedsLoading it.statSource frameIdx)).1 frameIdx playing emitSignals
      (E.videoNeedsLoading it.video frameIdx loadRawdata)
    exact ⟨b1.trans a1, b2.trans a2, fun h => b3.trans (a5 h), fun h => b4 (a4.trans h)⟩
  | cacheFrame idx testMode =>
    simp only [runOperation, cacheFrame]
    split_ifs <;> simp [withParts]
  | reloadItemSource =>
    simp only [runOperation, reloadItemSource]
    obtain ⟨h1, h2, h3, h4, _⟩ := loadYUVData_own E
      { it with
        loadingDecoder := E.reloadItemSource it.loadingDecoder
        startEndFrame := E.getStartEndFrameLimits
          { it with loadingDecoder := E.reloadItemSource it.loadingDecoder }.toParts
        video := E.videoInvalidateAllBuffers it.video } 0 false
    exact ⟨h1, h2, fun h => h3.trans h, fun h => h4.trans h⟩
  | displaySignalComboBoxChanged idx =>
    simp only [runOperation, displaySignalComboBoxChanged]
    split_ifs <;> simp
  | loadStatisticToCache frameIdx typeIdx =>
    simp only [runOperation, loadStatisticToCache]
    split_ifs <;> simp
  | drawItem frameIdx drawRawData =>
    simp only [runOperation, drawItem]
    split_ifs <;> simp [withParts]

/-- A sequence of member functions leaves `cachingEnabled` as it was. -/
theorem runOperations_cachingEnabled (E : External T) (ops : List Operation)
    (it : PlaylistItemHEVCNextGenFile T) :
    (runOperations E it ops).cachingEnabled = it.cachingEnabled := by
  induction ops generalizing it with
  | nil => rfl
  | cons op rest ih =>
    simp only [runOperations]
    rw [ih, (runOperation_own E it op).1]

/-- The function `fillStatisticList` changes the statistics source only. -/
theorem fillStatisticList_own (E : External T) (it : PlaylistItemHEVCNextGenFile T) :
    (fillStatisticList E it).1.cachingEnabled = it.cachingEnabled ∧
    (fillStatisticList E it).1.fileState = it.fileState ∧
    (fillStatisticList E it).1.isFrameLoading = it.isFrameLoading ∧
    (fillStatisticList E it).1.isFrameLoadingDoubleBuffer = it.isFrameLoadingDoubleBuffer := by
  unfold fillStatisticList
  split_ifs <;> simp

/-- The constructor after a failed `openFile`: caching is off, the busy flags
are kept. -/
theorem constructOpenFailed_own (E : External T) (it : PlaylistItemHEVCNextGenFile T) :
    (constructOpenFailed E it).1.cachingEnabled = false ∧
    (constructOpenFailed E it).1.isFrameLoading = it.isFrameLoading ∧
    (constructOpenFailed E it).1.isFrameLoadingDoubleBuffer = it.isFrameLoadingDoubleBuffer := by
  unfold constructOpenFailed
  refine ⟨rfl, ?_, ?_⟩ <;> dsimp only <;> split_ifs <;> rfl

/-- The constructor after a successful `openFile`: the file state is
`hevcFileNoError`, the busy flags are kept, and caching stays enabled only if
the caching decoder opened the file as well. -/
theorem constructOpened_own (E : External T) (it : PlaylistItemHEVCNextGenFile T)
    (hevcFilePath : String) :
    (constructOpened E it hevcFilePath).1.fileState = .hevcFileNoError ∧
    (constructOpened E it hevcFilePath).1.isFrameLoading = it.isFrameLoading ∧
    (constructOpened E it hevcFilePath).1.isFrameLoadingDoubleBuffer
      = it.isFrameLoadingDoubleBuffer ∧
    ((constructOpened E it hevcFilePath).1.cachingEnabled = true →
      (E.openFileShared it.cachingDecoder hevcFilePath it.loadingDecoder).1 = true) := by
  unfold constructOpened
  dsimp only
  generalize hit4 :
    (if (E.openFileShared it.cachingDecoder hevcFilePath it.loadingDecoder).1 = false then
      ({ it with fileState := .hevcFileNoError,
                 cachingDecoder :=
                  (E.openFileShared it.cachingDecoder hevcFilePath it.loadingDecoder).2,
                 cachingEnabled := false } : PlaylistItemHEVCNextGenFile T)
    else
      { it with fileState := .hevcFileNoError,
                cachingDecoder :=
                  (E.openFileShared it.cachingDecoder hevcFilePath it.loadingDecoder).2 }) = it4
  have h4 : it4.fileState = .hevcFileNoError ∧ it4.isFrameLoading = it.isFrameLoading ∧
      it4.isFrameLoadingDoubleBuffer = it.isFrameLoadingDoubleBuffer ∧
      (it4.cachingEnabled = true →
        (E.openFileShared it.cachingDecoder hevcFilePath it.loadingDecoder).1 = true) := by
    subst hit4
    split_ifs with h <;> simp_all
  obtain ⟨f1, f2, f3, f4⟩ := fillStatisticList_own E it4
  rcases hf : fillStatisticList E it4 with ⟨filled, calls⟩
  rw [hf] at f1 f2 f3 f4
  simp only at f1 f2 f3 f4 ⊢
  obtain ⟨l1, l2, l3, l4, _⟩ := loadYUVData_own E
    { filled with startEndFrame := E.getStartEndFrameLimits filled.toParts } 0 false
  split_ifs
  · simp only [f1, f2, f3, f4]
    exact h4
  · rw [l1, l2, l3, l4]
    simp only [f1, f2, f3, f4]
    exact h4

/-- The constructed item: the busy flags are false, and caching is enabled only
if the file state is `hevcFileNoError` and both decoders opened the file. -/
theorem construct_own (E : External T) (hevcFilePath : String) (displayComponent : Int) :
    (construct E hevcFilePath displayComponent).1.isFrameLoading = false ∧
    (construct E hevcFilePath displayComponent).1.isFrameLoadingDoubleBuffer = false ∧
    ((construct E hevcFilePath displayComponent).1.cachingEnabled = true →
      (construct E hevcFilePath displayComponent).1.fileState = .hevcFileNoError ∧
      (E.openFile (E.newDecoder (if displayComponent < 0 then 0 else displayComponent) false)
        hevcFilePath).1 = true ∧
      (E.openFileShared (E.newDecoder (if displayComponent < 0 then 0 else displayComponent) true)
        hevcFilePath
        (E.openFile (E.newDecoder (if displayComponent < 0 then 0 else displayComponent) false)
          hevcFilePath).2).1 = true) := by
  unfold construct
  dsimp only
  by_cases hopen : (E.openFile (constructMembers E displayComponent).loadingDecoder
      hevcFilePath).1 = false
  · rw [if_pos hopen]
    obtain ⟨c1, c2, c3⟩ := constructOpenFailed_own E
      { constructMembers E displayComponent with
        loadingDecoder := (E.openFile (constructMembers E displayComponent).loadingDecoder
          hevcFilePath).2 }
    refine ⟨c2, c3, ?_⟩
    intro h
    rw [c1] at h
    exact absurd h (by decide)
  · rw [if_neg hopen]
    obtain ⟨c1, c2, c3, c4⟩ := constructOpened_own E
      { constructMembers E displayComponent with
        loadingDecoder := (E.openFile (constructMembers E displayComponent).loadingDecoder
          hevcFilePath).2 } hevcFilePath
    refine ⟨c2, c3, ?_⟩
    intro h
    exact ⟨c1, by simpa using hopen, c4 h⟩

/-- In every reachable state the two busy flags are false, and caching is
enabled only if the file state is `hevcFileNoError`. -/
theorem reachable_invariant (E : External T) (it : PlaylistItemHEVCNextGenFile T)
    (h : Reachable E it) :
    it.isFrameLoading = false ∧ it.isFrameLoadingDoubleBuffer = false ∧
      (it.cachingEnabled = true → it.fileState = .hevcFileNoError) := by
  induction h with
  | construct hevcFilePath displayComponent =>
    obtain ⟨c1, c2, c3⟩ := construct_own E hevcFilePath displayComponent
    exact ⟨c1, c2, fun hc => (c3 hc).1⟩
  | step it op _ ih =>
    obtain ⟨o1, o2, o3, o4⟩ := runOperation_own E it op
    exact ⟨o3 ih.1, o4 ih.2.1, fun hc => o2.trans (ih.2.2 (o1 ▸ hc))⟩
  | collaborators it p _ ih => exact ih

/-- C5 (as amended): for every `loadFrame` call with `playing = true` in which
the frame store reports (`video->needsLoading(frameIdx, loadRawData)` at
entry) `LoadingNeeded` or `LoadingNeededDoubleBuffer`, frame `frameIdx + 1` is
loaded into the double buffer whenever `frameIdx + 1 <= startEndFrame.second`;
and when `frameIdx + 1 > startEndFrame.second`, nothing is loaded into the
double buffer and `signalItemDoubleBufferLoaded` is not emitted. -/
theorem hevc_loadFrame_prefetch (E : External T) (it : PlaylistItemHEVCNextGenFile T)
    (frameIdx : Int) (loadRawdata emitSignals : Bool)
    (hstate : E.videoNeedsLoading it.video frameIdx loadRawdata = .LoadingNeeded ∨
      E.videoNeedsLoading it.video frameIdx loadRawdata = .LoadingNeededDoubleBuffer) :
    (frameIdx + 1 ≤ it.startEndFrame.2 →
      HEVCEvent.videoLoadFrame (frameIdx + 1) true
        ∈ (loadFrame E it frameIdx true loadRawdata emitSignals).2) ∧
    (it.startEndFrame.2 < frameIdx + 1 →
      (∀ k, HEVCEvent.videoLoadFrame k true
        ∉ (loadFrame E it frameIdx true loadRawdata emitSignals).2) ∧
      HEVCEvent.signalItemDoubleBufferLoaded
        ∉ (loadFrame E it frameIdx true loadRawdata emitSignals).2) := by
  obtain ⟨_, _, a3, _, _, a6⟩ := loadFrameCurrent_own E it frameIdx emitSignals
    (E.videoNeedsLoading it.video frameIdx loadRawdata) (E.statNeedsLoading it.statSource frameIdx)
  obtain ⟨_, _, _, _, b5⟩ := loadFrameDoubleBuffer_own E
    (loadFrameCurrent E it frameIdx emitSignals
      (E.videoNeedsLoading it.video frameIdx loadRawdata)
      (E.statNeedsLoading it.statSource frameIdx)).1 frameIdx true emitSignals
    (E.videoNeedsLoading it.video frameIdx loadRawdata)
  rw [a3] at b5
  refine ⟨?_, ?_⟩
  · intro hle
    simp only [loadFrame, b5, hstate, hle, true_and, and_self, if_true]
    simp
  · intro hgt
    have hnot : ¬ (frameIdx + 1 ≤ it.startEndFrame.2) := by omega
    simp only [loadFrame, b5, hnot, and_false, if_false, List.append_nil]
    refine ⟨?_, ?_⟩
    · intro k hk
      simp only [List.mem_append, List.mem_cons, List.mem_singleton, List.not_mem_nil,
        or_false] at hk
      rcases hk with (hk | hk) | hk
      · cases hk
      · cases hk
      · rcases a6 _ hk with h | h | ⟨_, h⟩ <;> cases h
    · intro hk
      simp only [List.mem_append, List.mem_cons, List.mem_singleton, List.not_mem_nil,
        or_false] at hk
      rcases hk with (hk | hk) | hk
      · cases hk
      · cases hk
      · rcases a6 _ hk with h | h | ⟨_, h⟩ <;> cases h

/-- C6: the trace of one `loadFrame` call on a reachable item consists of the
two state queries, then the loads of the current frame and of its statistics
and the `signalItemChanged(true, false)` notification, then the double buffer
part, which is empty or is the load of `frameIdx + 1` into the double buffer
followed, if at all, by `signalItemDoubleBufferLoaded`.  With `playing = false`
the double buffer part is empty; with `emitSignals = false` the trace holds no
signal; and both busy flags are false when the call returns. -/
theorem hevc_loadFrame_ordering (E : External T) (it : PlaylistItemHEVCNextGenFile T)
    (frameIdx : Int) (playing loadRawdata emitSignals : Bool) (hreach : Reachable E it) :
    ∃ current doubleBuffer : List HEVCEvent,
      (loadFrame E it frameIdx playing loadRawdata emitSignals).2 =
        [.videoNeedsLoading frameIdx loadRawdata, .statNeedsLoading frameIdx]
          ++ current ++ doubleBuffer ∧
      (∀ e ∈ current, e = .videoLoadFrame frameIdx false ∨ e = .statLoadStatistics frameIdx ∨
        e = .signalItemChanged true false) ∧
      (doubleBuffer = [] ∨ doubleBuffer = [.videoLoadFrame (frameIdx + 1) true] ∨
        doubleBuffer = [.videoLoadFrame (frameIdx + 1) true, .signalItemDoubleBufferLoaded]) ∧
      (playing = false → doubleBuffer = []) ∧
      (emitSignals = false →
        ∀ e ∈ (loadFrame E it frameIdx playing loadRawdata emitSignals).2,
          e ≠ .signalItemDoubleBufferLoaded ∧ ∀ redraw recache, e ≠ .signalItemChanged redraw recache) ∧
      (loadFrame E it frameIdx playing loadRawdata emitSignals).1.isFrameLoading = false ∧
      (loadFrame E it frameIdx playing loadRawdata emitSignals).1.isFrameLoadingDoubleBuffer
        = false := by
  obtain ⟨hf1, hf2, _⟩ := reachable_invariant E it hreach
  obtain ⟨_, _, a3, a4, a5, a6⟩ := loadFrameCurrent_own E it frameIdx emitSignals
    (E.videoNeedsLoading it.video frameIdx loadRawdata) (E.statNeedsLoading it.statSource frameIdx)
  obtain ⟨_, _, b3, b4, b5⟩ := loadFrameDoubleBuffer_own E
    (loadFrameCurrent E it frameIdx emitSignals
      (E.videoNeedsLoading it.video frameIdx loadRawdata)
      (E.statNeedsLoading it.statSource frameIdx)).1 frameIdx playing emitSignals
    (E.videoNeedsLoading it.video frameIdx loadRawdata)
  refine ⟨(loadFrameCurrent E it frameIdx emitSignals
      (E.videoNeedsLoading it.video frameIdx loadRawdata)
      (E.statNeedsLoading it.statSource frameIdx)).2,
    (loadFrameDoubleBuffer E (loadFrameCurrent E it frameIdx emitSignals
      (E.videoNeedsLoading it.video frameIdx loadRawdata)
      (E.statNeedsLoading it.statSource frameIdx)).1 frameIdx playing emitSignals
      (E.videoNeedsLoading it.video frameIdx loadRawdata)).2, rfl, ?_, ?_, ?_, ?_, ?_, ?_⟩
  · intro e he
    rcases a6 e he with h | h | ⟨_, h⟩
    · exact Or.inl h
    · exact Or.inr (Or.inl h)
    · exact Or.inr (Or.inr h)
  · rw [b5]
    split_ifs
    · right; right; rfl
    · right; left; rfl
    · left; rfl
  · intro hp
    rw [b5]
    simp [hp]
  · intro hemit e he
    simp only [loadFrame, List.mem_append, List.mem_cons, List.mem_singleton, List.not_mem_nil,
      or_false] at he
    rcases he with (he | he) | he
    · rcases he with he | he <;> subst he <;> simp
    · rcases a6 e he with h | h | ⟨h, _⟩
      · subst h; simp
      · subst h; simp
      · rw [hemit] at h; cases h
    · rw [b5, hemit] at he
      simp only [Bool.false_eq_true, if_false] at he
      split_ifs at he
      · rw [List.mem_singleton] at he
        subst he
        simp
      · cases he
  · simp only [loadFrame]
    exact b3.trans (a5 hf1)
  · simp only [loadFrame]
    exact b4 (a4.trans hf2)

/-- C8: caching is switched off for good when a decoder cannot open the file.
If `openFile` of the loading decoder fails, or it succeeds and `openFile` of the
caching decoder fails, the constructed item has `cachingEnabled = false`; no
sequence of member functions sets it back to `true`; and while it is `false`,
`cacheFrame(idx, testMode)` and `loadYUVData(frameIdx, true)` return without
any call on a collaborator and leave the item as it is. -/
theorem hevc_caching_disabled_permanently (E : External T) :
    (∀ (hevcFilePath : String) (displayComponent : Int),
      ((E.openFile (E.newDecoder (if displayComponent < 0 then 0 else displayComponent) false)
          hevcFilePath).1 = false ∨
        (E.openFileShared
          (E.newDecoder (if displayComponent < 0 then 0 else displayComponent) true) hevcFilePath
          (E.openFile (E.newDecoder (if displayComponent < 0 then 0 else displayComponent) false)
            hevcFilePath).2).1 = false) →
      (construct E hevcFilePath displayComponent).1.cachingEnabled = false) ∧
    (∀ (it : PlaylistItemHEVCNextGenFile T) (ops : List Operation),
      it.cachingEnabled = false → (runOperations E it ops).cachingEnabled = false) ∧
    (∀ (it : PlaylistItemHEVCNextGenFile T), it.cachingEnabled = false →
      ∀ (idx frameIdx : Int) (testMode : Bool),
        cacheFrame E it idx testMode = (it, []) ∧ loadYUVData E it frameIdx true = (it, [])) := by
  refine ⟨?_, ?_, ?_⟩
  · intro hevcFilePath displayComponent hfail
    obtain ⟨_, _, c3⟩ := construct_own E hevcFilePath displayComponent
    cases hc : (construct E hevcFilePath displayComponent).1.cachingEnabled with
    | false => rfl
    | true =>
      obtain ⟨_, o1, o2⟩ := c3 hc
      rcases hfail with h | h
      · rw [o1] at h; cases h
      · rw [o2] at h; cases h
  · intro it ops h
    rw [runOperations_cachingEnabled, h]
  · intro it h idx frameIdx testMode
    exact ⟨by simp [cacheFrame, h], by simp [loadYUVData, h]⟩

/-- C9: in every state reachable from the constructor whose file state is not
`hevcFileNoError`, `drawItem` draws nothing and `loadYUVData` does nothing, for
every frame index and for both values of `caching`: neither makes a call on a
collaborator nor changes the item. -/
theorem hevc_degraded_item_noop (E : External T) (it : PlaylistItemHEVCNextGenFile T)
    (hreach : Reachable E it) (hstate : it.fileState ≠ .hevcFileNoError)
    (frameIdx : Int) (caching drawRawData : Bool) :
    drawItem E it frameIdx drawRawData = (it, []) ∧
    loadYUVData E it frameIdx caching = (it, []) := by
  obtain ⟨_, _, hinv⟩ := reachable_invariant E it hreach
  have hc : it.cachingEnabled = false := by
    cases h : it.cachingEnabled with
    | false => rfl
    | true => exact absurd (hinv h) hstate
  refine ⟨by simp [drawItem, hstate], ?_⟩
  cases caching <;> simp [loadYUVData, hc, hstate]

/-- C14 (as amended): for every frame index outside `[0, startEndFrame.second]`,
`loadYUVData(frameIdx, caching)` requests no frame from either decoder: it
makes no call on the caching decoder and at most the queries `getFrameSize`
and `getYUVPixelFormat` on the loading decoder, and it leaves both decoders,
the raw buffer, the buffer frame index, the other state of the frame store and
the statistics cache unchanged.  When one of its two guards rejects the call
nothing happens at all; otherwise the frame size, the pixel format and the
statistics frame size are set to what the loading decoder reports, before the
range check. -/
theorem hevc_loadYUVData_out_of_range (E : External T) (it : PlaylistItemHEVCNextGenFile T)
    (frameIdx : Int) (caching : Bool)
    (hrange : frameIdx < 0 ∨ frameIdx > it.startEndFrame.2) :
    (∀ e ∈ (loadYUVData E it frameIdx caching).2,
      e = .loadingDecoder .getFrameSize ∨ e = .loadingDecoder .getYUVPixelFormat ∨
        e = .videoSetFrameSize ∨ e = .videoSetYUVPixelFormat) ∧
    (loadYUVData E it frameIdx caching).1.loadingDecoder = it.loadingDecoder ∧
    (loadYUVData E it frameIdx caching).1.cachingDecoder = it.cachingDecoder ∧
    (loadYUVData E it frameIdx caching).1.video.rawYUVData = it.video.rawYUVData ∧
    (loadYUVData E it frameIdx caching).1.video.rawYUVData_frameIdx
      = it.video.rawYUVData_frameIdx ∧
    (loadYUVData E it frameIdx caching).1.video.internals = it.video.internals ∧
    (loadYUVData E it frameIdx caching).1.statSource.statsCache = it.statSource.statsCache ∧
    (loadYUVData E it frameIdx caching).1.statSource.internals = it.statSource.internals ∧
    (((caching = true ∧ it.cachingEnabled = false) ∨
        (caching = false ∧ it.fileState ≠ .hevcFileNoError)) →
      loadYUVData E it frameIdx caching = (it, [])) ∧
    (¬ ((caching = true ∧ it.cachingEnabled = false) ∨
        (caching = false ∧ it.fileState ≠ .hevcFileNoError)) →
      (loadYUVData E it frameIdx caching).2 =
        [.loadingDecoder .getFrameSize, .videoSetFrameSize, .loadingDecoder .getYUVPixelFormat,
          .videoSetYUVPixelFormat, .loadingDecoder .getFrameSize] ∧
      (loadYUVData E it frameIdx caching).1.video.frameSize = E.getFrameSize it.loadingDecoder ∧
      (loadYUVData E it frameIdx caching).1.video.srcPixelFormat
        = E.getYUVPixelFormat it.loadingDecoder ∧
      (loadYUVData E it frameIdx caching).1.statSource.statFrameSize
        = E.getFrameSize it.loadingDecoder) := by
  have hr : frameIdx > it.startEndFrame.2 ∨ frameIdx < 0 := by omega
  unfold loadYUVData
  cases caching <;>
    split_ifs <;>
    simp_all [VideoHandlerYUV.setFrameSize, VideoHandlerYUV.setYUVPixelFormat]

end PlaylistItemHEVCNextGenFile

namespace PlaylistItemOverlay

variable {σ : Type}

/-- For a mode from 0 to 8 the alignment step succeeds. -/
theorem alignRect_isSome (alignmentMode : Int) (firstItemRect targetRect : QRect)
    (h0 : 0 ≤ alignmentMode) (h8 : alignmentMode ≤ 8) :
    ∃ r, alignRect alignmentMode firstItemRect targetRect = some r := by
  unfold alignRect
  split_ifs
  all_goals first | exact ⟨_, rfl⟩ | omega

/-- For a mode from 0 to 8 the placement loop, started at an index above 0,
runs to its end and leaves entry 0 of the placement list as it was. -/
theorem alignLoop_keeps_anchor (ops : PlaylistItemOps σ) (alignmentMode : Int)
    (manualAlignment : QPoint) (firstItemRect : QRect)
    (h0 : 0 ≤ alignmentMode) (h8 : alignmentMode ≤ 8) (rest : List (Option σ)) :
    ∀ (i : Nat) (childItems : List QRect) (boundingRect : QRect), 1 ≤ i →
      ∃ r, alignLoop ops alignmentMode manualAlignment firstItemRect i rest childItems
          boundingRect = some r ∧ r.1[0]? = childItems[0]? ∧
        (rest = [] → r.2 = boundingRect) := by
  induction rest with
  | nil =>
    intro i childItems boundingRect _
    exact ⟨_, rfl, rfl, fun _ => rfl⟩
  | cons c rest ih =>
    intro i childItems boundingRect hi
    cases c with
    | none =>
      obtain ⟨r, hr, hr0, _⟩ := ih (i + 1) childItems boundingRect (by omega)
      exact ⟨r, by simpa [alignLoop] using hr, hr0, fun h => by cases h⟩
    | some childItem =>
      obtain ⟨a, ha⟩ := alignRect_isSome alignmentMode firstItemRect
        ((QRect.null.setSize (ops.getSize childItem)).moveCenter ⟨0, 0⟩) h0 h8
      obtain ⟨r, hr, hr0, _⟩ := ih (i + 1) (childItems.set i (a.translate manualAlignment))
        (boundingRect.united (a.translate manualAlignment)) (by omega)
      refine ⟨r, by simp only [alignLoop, ha]; exact hr, ?_, fun h => by cases h⟩
      rw [hr0]
      have : i ≠ 0 := by omega
      simp [List.getElem?_set, this]

/-- The update of nested overlays keeps the number of children. -/
theorem updateChildOverlays_length (ops : PlaylistItemOps σ) (children : List (Option σ)) :
    ∀ children', updateChildOverlays ops children = some children' →
      children'.length = children.length := by
  induction children with
  | nil =>
    intro children' h
    simp only [updateChildOverlays, Option.some.injEq] at h
    subst h; rfl
  | cons c rest ih =>
    intro children' h
    cases c with
    | none =>
      simp only [updateChildOverlays] at h
      cases hr : updateChildOverlays ops rest with
      | none => rw [hr] at h; cases h
      | some rest' =>
        rw [hr] at h
        simp only [Option.some.injEq] at h
        subst h
        simp [ih rest' hr]
    | some c =>
      simp only [updateChildOverlays] at h
      cases hc : ops.updateLayout c with
      | none => rw [hc] at h; cases h
      | some c' =>
        rw [hc] at h
        cases hr : updateChildOverlays ops rest with
        | none => rw [hr] at h; cases h
        | some rest' =>
          rw [hr] at h
          simp only [Option.some.injEq] at h
          subst h
          simp [ih rest' hr]

/-- The anchor rectangle: a rectangle of size `(w, h)` with `w, h >= 1`, moved
so that its centre is the origin, whatever its position was before. -/
theorem anchor_rect (r : QRect) (w h : Int) (hw : 1 ≤ w) (hh : 1 ≤ h) :
    (r.setSize ⟨w, h⟩).moveCenter ⟨0, 0⟩ =
      ⟨-((w - 1) / 2), -((h - 1) / 2), -((w - 1) / 2) + (w - 1), -((h - 1) / 2) + (h - 1)⟩ := by
  have e1 : Int.tdiv (w + r.x1 - 1 - r.x1) 2 = (w - 1) / 2 := by
    rw [Int.tdiv_eq_ediv (by omega) (by decide)]
    congr 1; omega
  have e2 : Int.tdiv (h + r.y1 - 1 - r.y1) 2 = (h - 1) / 2 := by
    rw [Int.tdiv_eq_ediv (by omega) (by decide)]
    congr 1; omega
  simp only [QRect.setSize, QRect.moveCenter, e1, e2, QRect.mk.injEq]
  refine ⟨by omega, by omega, by omega, by omega⟩

/-- C10: for an overlay with at least one child whose child 0 reports the size
`(w, h)` with `w, h >= 1` (after the layout of nested overlays has been
updated), and whose effective alignment mode lies in 0..8, `updateLayout(false)`
returns and `childItems[0]` is the rectangle of size `(w, h)` with
`left = -((w-1) div 2)` and `top = -((h-1) div 2)`, whose `center()` is
`(0, 0)`; with exactly one child `boundingRect` is that rectangle and
`getSize()` returns `(w, h)`. -/
theorem overlay_anchor_placement (ops : PlaylistItemOps σ) (ov : PlaylistItemOverlay σ)
    (c0 c0' : σ) (rest rest' : List (Option σ)) (w h : Int)
    (hchildren : ov.children = some c0 :: rest)
    (hnested : updateChildOverlays ops ov.children = some (some c0' :: rest'))
    (hmode : ∀ m, ov.comboBoxAlignment = some m → 0 ≤ m ∧ m ≤ 8)
    (hsize : ops.getSize c0' = ⟨w, h⟩) (hw : 1 ≤ w) (hh : 1 ≤ h) :
    ∃ ov' anchor,
      updateLayout ops ov false = some ov' ∧
      ov'.childItems[0]? = some anchor ∧
      anchor.size = ⟨w, h⟩ ∧
      anchor.left = -((w - 1) / 2) ∧
      anchor.top = -((h - 1) / 2) ∧
      anchor.center = ⟨0, 0⟩ ∧
      (rest = [] → ov'.boundingRect = anchor ∧
        ∀ containerSize, getSize containerSize ov' = ⟨w, h⟩) := by
  have hcount : ov.childCount = rest.length + 1 := by simp [childCount, hchildren]
  have hanchor := anchor_rect QRect.null w h hw hh
  have hbound := anchor_rect ov.boundingRect w h hw hh
  obtain ⟨m, hm, hm0, hm8⟩ : ∃ m : Int,
      (match ov.comboBoxAlignment with
        | none => 0
        | some currentIndex => currentIndex) = m ∧ 0 ≤ m ∧ m ≤ 8 := by
    cases hcb : ov.comboBoxAlignment with
    | none => exact ⟨0, rfl, by decide, by decide⟩
    | some i => exact ⟨i, rfl, hmode i hcb⟩
  generalize hitems :
    (if ov.childItems.length ≠ ov.childCount then List.replicate ov.childCount QRect.null
      else ov.childItems) = childItems0
  have hlen : childItems0.length = rest.length + 1 := by
    subst hitems
    split_ifs with hne
    · simp [hcount]
    · rw [← hcount]; exact not_not.mp hne
  obtain ⟨r, hr, hr0, hrb⟩ := alignLoop_keeps_anchor ops m ov.manualAlignment
    ((QRect.null.setSize ⟨w, h⟩).moveCenter ⟨0, 0⟩) hm0 hm8 rest' 1
    (childItems0.set 0 ((QRect.null.setSize ⟨w, h⟩).moveCenter ⟨0, 0⟩))
    ((ov.boundingRect.setSize ⟨w, h⟩).moveCenter ⟨0, 0⟩) (le_refl 1)
  have hrun : updateLayout ops ov false =
      some { ov with children := some c0' :: rest', childItems := r.1, boundingRect := r.2 } := by
    unfold updateLayout
    rw [if_neg (by omega), if_neg (by simp)]
    simp only [hnested, hsize, hitems, hm, hr]
  refine ⟨_, (QRect.null.setSize ⟨w, h⟩).moveCenter ⟨0, 0⟩, hrun, ?_, ?_, ?_, ?_, ?_, ?_⟩
  · show r.1[0]? = _
    rw [hr0, List.getElem?_set_self (by omega)]
  · rw [hanchor]
    simp only [QRect.size, QRect.width, QRect.height, QSize.mk.injEq]
    constructor <;> omega
  · rw [hanchor]; rfl
  · rw [hanchor]; rfl
  · rw [hanchor]
    simp only [QRect.center, QPoint.mk.injEq]
    constructor
    · rw [Int.tdiv_eq_ediv (by omega) (by decide)]; omega
    · rw [Int.tdiv_eq_ediv (by omega) (by decide)]; omega
  · intro hrest
    have hrest' : rest' = [] := by
      have := updateChildOverlays_length ops ov.children _ hnested
      rw [hchildren, hrest] at this
      simpa using this
    have hb : r.2 = (QRect.null.setSize ⟨w, h⟩).moveCenter ⟨0, 0⟩ := by
      rw [hrb hrest', hbound, hanchor]
    refine ⟨hb, ?_⟩
    intro containerSize
    have hcc : ¬ (some c0' :: rest').length = 0 := by simp
    simp only [getSize, childCount, if_neg hcc, hb, hanchor, QRect.size, QRect.width,
      QRect.height, QSize.mk.injEq]
    constructor <;> omega

/-- Whatever the rectangle was before, `setSize` followed by `moveCenter` gives
the same rectangle as for a default constructed one. -/
theorem moveCenter_setSize (r : QRect) (s : QSize) (p : QPoint) :
    (r.setSize s).moveCenter p = (QRect.null.setSize s).moveCenter p := by
  have e1 : s.width + r.x1 - 1 - r.x1 = s.width + 0 - 1 - 0 := by ring
  have e2 : s.height + r.y1 - 1 - r.y1 = s.height + 0 - 1 - 0 := by ring
  simp only [QRect.setSize, QRect.moveCenter, QRect.null, e1, e2]

/-- The rectangle built for a child of size `(w, h)` with `w, h >= 1`. -/
theorem originRect_eq (w h : Int) (hw : 1 ≤ w) (hh : 1 ≤ h) :
    originRect ⟨w, h⟩ =
      ⟨-((w - 1) / 2), -((h - 1) / 2), -((w - 1) / 2) + (w - 1), -((h - 1) / 2) + (h - 1)⟩ :=
  anchor_rect QRect.null w h hw hh

/-- The size of the rectangle built for a child is the size of the child. -/
theorem originRect_size (s : QSize) : (originRect s).size = s := by
  cases s with
  | mk w h =>
    simp only [originRect, QRect.setSize, QRect.moveCenter, QRect.null, QRect.size, QRect.width,
      QRect.height, QSize.mk.injEq]
    constructor <;> ring

/-- For a mode from 0 to 8 the placement loop runs to its end.  The placement
list keeps its length, the entries below the start index stay, and the entry
of every non-null child is its rectangle, aligned and shifted by the manual
offset. -/
theorem alignLoop_entries (ops : PlaylistItemOps σ) (alignmentMode : Int)
    (manualAlignment : QPoint) (firstItemRect : QRect)
    (h0 : 0 ≤ alignmentMode) (h8 : alignmentMode ≤ 8) (rest : List (Option σ)) :
    ∀ (i : Nat) (childItems : List QRect) (boundingRect : QRect),
      ∃ r, alignLoop ops alignmentMode manualAlignment firstItemRect i rest childItems
          boundingRect = some r ∧
        r.1.length = childItems.length ∧
        (∀ j, j < i → r.1[j]? = childItems[j]?) ∧
        (∀ k c, rest[k]? = some (some c) → i + k < childItems.length →
          ∃ a, alignRect alignmentMode firstItemRect (originRect (ops.getSize c)) = some a ∧
            r.1[i + k]? = some (a.translate manualAlignment)) := by
  induction rest with
  | nil =>
    intro i childItems boundingRect
    exact ⟨_, rfl, rfl, fun _ _ => rfl, fun k c hk => by simp at hk⟩
  | cons c rest ih =>
    intro i childItems boundingRect
    cases c with
    | none =>
      obtain ⟨r, hr, hlen, hlow, hent⟩ := ih (i + 1) childItems boundingRect
      refine ⟨r, by simpa [alignLoop] using hr, hlen, fun j hj => hlow j (by omega), ?_⟩
      intro k c hk hlt
      cases k with
      | zero => simp at hk
      | succ k =>
        rw [List.getElem?_cons_succ] at hk
        obtain ⟨a, ha, hget⟩ := hent k c hk (by omega)
        exact ⟨a, ha, by rw [← hget]; congr 1; omega⟩
    | some childItem =>
      obtain ⟨a, ha⟩ := alignRect_isSome alignmentMode firstItemRect
        (originRect (ops.getSize childItem)) h0 h8
      obtain ⟨r, hr, hlen, hlow, hent⟩ := ih (i + 1)
        (childItems.set i (a.translate manualAlignment))
        (boundingRect.united (a.translate manualAlignment))
      refine ⟨r, ?_, ?_, ?_, ?_⟩
      · have ha' : alignRect alignmentMode firstItemRect
            ((QRect.null.setSize (ops.getSize childItem)).moveCenter ⟨0, 0⟩) = some a := ha
        simp only [alignLoop, ha']
        exact hr
      · rw [hlen, List.length_set]
      · intro j hj
        rw [hlow j (by omega), List.getElem?_set_ne (by omega)]
      · intro k c hk hlt
        cases k with
        | zero =>
          rw [List.getElem?_cons_zero] at hk
          cases hk
          refine ⟨a, ha, ?_⟩
          have hlt' : i < childItems.length := by simpa using hlt
          have hi : i + 0 = i := Nat.add_zero i
          rw [hi, hlow i (by omega), List.getElem?_set_self hlt']
        | succ k =>
          rw [List.getElem?_cons_succ] at hk
          obtain ⟨a', ha', hget⟩ := hent k c hk (by rw [List.length_set]; omega)
          exact ⟨a', ha', by rw [← hget]; congr 1; omega⟩

/-- When the nested layouts succeed and child 0 is non-null, `updateLayout(false)`
is the placement loop run on the anchor rectangle of child 0. -/
theorem updateLayout_eq_alignLoop (ops : PlaylistItemOps σ) (ov : PlaylistItemOverlay σ)
    (c0' : σ) (rest' : List (Option σ))
    (hnested : updateChildOverlays ops ov.children = some (some c0' :: rest')) :
    updateLayout ops ov false =
      (alignLoop ops (ov.comboBoxAlignment.getD 0) ov.manualAlignment
          (originRect (ops.getSize c0')) 1 rest'
          ((if ov.childItems.length ≠ ov.childCount then
              List.replicate ov.childCount QRect.null
            else ov.childItems).set 0 (originRect (ops.getSize c0')))
          (originRect (ops.getSize c0'))).map
        (fun r => { ov with children := some c0' :: rest', childItems := r.1,
                            boundingRect := r.2 }) := by
  have hlen := updateChildOverlays_length ops ov.children _ hnested
  have hcount : ¬ ov.childCount = 0 := by
    simp only [childCount, ← hlen, List.length_cons]; omega
  have hmode : (match ov.comboBoxAlignment with
      | none => (0 : Int)
      | some currentIndex => currentIndex) = ov.comboBoxAlignment.getD 0 := by
    cases ov.comboBoxAlignment <;> rfl
  unfold updateLayout
  rw [if_neg hcount, if_neg (by simp)]
  simp only [hnested, hmode, moveCenter_setSize ov.boundingRect]
  simp only [originRect]
  cases alignLoop ops (ov.comboBoxAlignment.getD 0) ov.manualAlignment
      ((QRect.null.setSize (ops.getSize c0')).moveCenter ⟨0, 0⟩) 1 rest'
      ((if ov.childItems.length ≠ ov.childCount then
          List.replicate ov.childCount QRect.null
        else ov.childItems).set 0 ((QRect.null.setSize (ops.getSize c0')).moveCenter ⟨0, 0⟩))
      ((QRect.null.setSize (ops.getSize c0')).moveCenter ⟨0, 0⟩) <;> rfl

/-- For an effective mode from 0 to 8, `updateLayout(false)` returns: the
placement list is as long as the child list, entry 0 is the anchor rectangle,
the entry of every further non-null child is its rectangle, aligned with the
anchor and shifted by the manual offset, and the bounding rectangle is the one
the placement loop leaves. -/
theorem updateLayout_entries (ops : PlaylistItemOps σ) (ov : PlaylistItemOverlay σ)
    (c0' : σ) (rest' : List (Option σ))
    (hnested : updateChildOverlays ops ov.children = some (some c0' :: rest'))
    (h0 : 0 ≤ ov.comboBoxAlignment.getD 0) (h8 : ov.comboBoxAlignment.getD 0 ≤ 8) :
    ∃ ov', updateLayout ops ov false = some ov' ∧
      ov'.children = some c0' :: rest' ∧
      ov'.childItems.length = rest'.length + 1 ∧
      ov'.childItems[0]? = some (originRect (ops.getSize c0')) ∧
      (∀ k c, rest'[k]? = some (some c) →
        ∃ a, alignRect (ov.comboBoxAlignment.getD 0) (originRect (ops.getSize c0'))
            (originRect (ops.getSize c)) = some a ∧
          ov'.childItems[k + 1]? = some (a.translate ov.manualAlignment)) ∧
      alignLoop ops (ov.comboBoxAlignment.getD 0) ov.manualAlignment
          (originRect (ops.getSize c0')) 1 rest'
          ((if ov.childItems.length ≠ ov.childCount then
              List.replicate ov.childCount QRect.null
            else ov.childItems).set 0 (originRect (ops.getSize c0')))
          (originRect (ops.getSize c0')) = some (ov'.childItems, ov'.boundingRect) := by
  have hlen := updateChildOverlays_length ops ov.children _ hnested
  have hcount : ov.childCount = rest'.length + 1 := by
    simp only [childCount, ← hlen, List.length_cons]
  generalize hitems :
    (if ov.childItems.length ≠ ov.childCount then List.replicate ov.childCount QRect.null
      else ov.childItems) = childItems0
  have hlen0 : childItems0.length = rest'.length + 1 := by
    subst hitems
    split_ifs with hne
    · simp [hcount]
    · rw [← hcount]; exact not_not.mp hne
  obtain ⟨r, hr, hrlen, hlow, hent⟩ := alignLoop_entries ops (ov.comboBoxAlignment.getD 0)
    ov.manualAlignment (originRect (ops.getSize c0')) h0 h8 rest' 1
    (childItems0.set 0 (originRect (ops.getSize c0'))) (originRect (ops.getSize c0'))
  refine ⟨{ ov with children := some c0' :: rest', childItems := r.1, boundingRect := r.2 },
    ?_, rfl, ?_, ?_, ?_, ?_⟩
  · rw [updateLayout_eq_alignLoop ops ov c0' rest' hnested, hitems, hr]
    rfl
  · show r.1.length = _
    rw [hrlen, List.length_set, hlen0]
  · show r.1[0]? = _
    rw [hlow 0 (by omega), List.getElem?_set_self (by omega)]
  · intro k c hk
    have hklt : k < rest'.length := by
      obtain ⟨h, _⟩ := List.getElem?_eq_some.1 hk
      exact h
    obtain ⟨a, ha, hget⟩ := hent k c hk (by rw [List.length_set, hlen0]; omega)
    refine ⟨a, ha, ?_⟩
    show r.1[k + 1]? = _
    rw [← hget]; congr 1; omega
  · exact hr

/-- Aligning moves a rectangle: its extent in both directions stays. -/
theorem alignRect_extent (alignmentMode : Int) (firstItemRect targetRect a : QRect)
    (h : alignRect alignmentMode firstItemRect targetRect = some a) :
    a.x2 - a.x1 = targetRect.x2 - targetRect.x1 ∧ a.y2 - a.y1 = targetRect.y2 - targetRect.y1 := by
  unfold alignRect at h
  split_ifs at h <;>
    simp only [Option.some.injEq, reduceCtorEq] at h <;>
    subst h <;>
    simp only [QRect.moveTopLeft, QRect.moveTopRight, QRect.moveBottomLeft, QRect.moveBottomRight,
      QRect.moveLeft, QRect.moveRight, QRect.moveTop, QRect.moveBottom] <;>
    constructor <;> first | trivial | omega

/-- C11: for every effective alignment mode `m` in {0,1,2,3,5,6,7,8}, every
manual offset and every non-null child `i = k + 1 >= 1`, after
`updateLayout(false)` the rectangle `childItems[i]` has the size child `i`
reports, and the edges named by the grid cell are the edges of the anchor
rectangle `childItems[0]` shifted by the offset: the top for modes 0, 1, 2, the
bottom for 6, 7, 8, the left for 0, 3, 6, the right for 2, 5, 8; on an axis
without such an edge the rectangle is the origin-centred one shifted by the
offset.  For mode 0 without an offset the top left corners of child `i` and of
child 0 coincide; the anchor is the origin-centred rectangle of child 0,
which does not mention the offset. -/
theorem overlay_grid_alignment (ops : PlaylistItemOps σ) (ov : PlaylistItemOverlay σ)
    (c0' c : σ) (rest' : List (Option σ)) (m : Int) (k : Nat)
    (hnested : updateChildOverlays ops ov.children = some (some c0' :: rest'))
    (hmode : ov.comboBoxAlignment.getD 0 = m)
    (hm : m = 0 ∨ m = 1 ∨ m = 2 ∨ m = 3 ∨ m = 5 ∨ m = 6 ∨ m = 7 ∨ m = 8)
    (hchild : rest'[k]? = some (some c)) :
    ∃ ov' anchor rect,
      updateLayout ops ov false = some ov' ∧
      ov'.childItems[0]? = some anchor ∧
      anchor = originRect (ops.getSize c0') ∧
      ov'.childItems[k + 1]? = some rect ∧
      rect.size = ops.getSize c ∧
      ((m = 0 ∨ m = 1 ∨ m = 2) → rect.top = anchor.top + ov.manualAlignment.y) ∧
      ((m = 6 ∨ m = 7 ∨ m = 8) → rect.bottom = anchor.bottom + ov.manualAlignment.y) ∧
      ((m = 0 ∨ m = 3 ∨ m = 6) → rect.left = anchor.left + ov.manualAlignment.x) ∧
      ((m = 2 ∨ m = 5 ∨ m = 8) → rect.right = anchor.right + ov.manualAlignment.x) ∧
      ((m = 1 ∨ m = 7) →
        rect.left = (originRect (ops.getSize c)).left + ov.manualAlignment.x ∧
        rect.right = (originRect (ops.getSize c)).right + ov.manualAlignment.x) ∧
      ((m = 3 ∨ m = 5) →
        rect.top = (originRect (ops.getSize c)).top + ov.manualAlignment.y ∧
        rect.bottom = (originRect (ops.getSize c)).bottom + ov.manualAlignment.y) ∧
      (m = 0 → ov.manualAlignment = ⟨0, 0⟩ → rect.topLeft = anchor.topLeft) := by
  have h0 : 0 ≤ ov.comboBoxAlignment.getD 0 := by rw [hmode]; omega
  have h8 : ov.comboBoxAlignment.getD 0 ≤ 8 := by rw [hmode]; omega
  obtain ⟨ov', hrun, _, _, hanchor, hent, _⟩ := updateLayout_entries ops ov c0' rest' hnested h0 h8
  obtain ⟨a, ha, hget⟩ := hent k c hchild
  rw [hmode] at ha
  obtain ⟨ex, ey⟩ := alignRect_extent _ _ _ _ ha
  have hsize := originRect_size (ops.getSize c)
  refine ⟨ov', _, _, hrun, hanchor, rfl, hget, ?_, ?_⟩
  · rw [← hsize]
    simp only [QRect.size, QRect.width, QRect.height, QRect.translate, QSize.mk.injEq]
    constructor <;> omega
  · unfold alignRect at ha
    rcases hm with h | h | h | h | h | h | h | h <;> subst h <;>
      simp only [Option.some.injEq, if_true, if_false, OfNat.ofNat_ne_zero, OfNat.ofNat_ne_one,
        OfNat.zero_ne_ofNat, OfNat.one_ne_ofNat, reduceCtorEq] at ha <;>
      norm_num at ha <;>
      subst ha <;>
      simp [QRect.moveTopLeft, QRect.moveTopRight, QRect.moveBottomLeft, QRect.moveBottomRight,
        QRect.moveLeft, QRect.moveRight, QRect.moveTop, QRect.moveBottom, QRect.translate,
        QRect.top, QRect.left, QRect.right, QRect.bottom, QRect.topLeft, QRect.topRight,
        QRect.bottomLeft, QRect.bottomRight]
    intro hd
    rw [hd]
    simp

/-- A rectangle with `x1 <= x2` and `y1 <= y2` contains exactly the points
between its edges. -/
theorem contains_iff (r : QRect) (p : QPoint) (hx : r.x1 ≤ r.x2) (hy : r.y1 ≤ r.y2) :
    r.contains p = true ↔ (r.x1 ≤ p.x ∧ p.x ≤ r.x2 ∧ r.y1 ≤ p.y ∧ p.y ≤ r.y2) := by
  have h1 : ¬ r.x2 < r.x1 - 1 := by omega
  have h2 : ¬ r.y2 < r.y1 - 1 := by omega
  simp only [QRect.contains, if_neg h1, if_neg h2]
  by_cases hpx : p.x < r.x1 ∨ p.x > r.x2
  · rw [if_pos hpx]
    constructor
    · intro h; cases h
    · intro h; omega
  · rw [if_neg hpx]
    by_cases hpy : p.y < r.y1 ∨ p.y > r.y2
    · rw [if_pos hpy]
      constructor
      · intro h; cases h
      · intro h; omega
    · rw [if_neg hpy]
      constructor
      · intro _; omega
      · intro _; rfl

/-- For rectangles with `x1 <= x2` and `y1 <= y2`, `contains(const QRect &)`
compares the edges. -/
theorem containsRect_iff (a r : QRect) (hax : a.x1 ≤ a.x2) (hay : a.y1 ≤ a.y2)
    (hrx : r.x1 ≤ r.x2) (hry : r.y1 ≤ r.y2) :
    a.containsRect r = true ↔ (a.x1 ≤ r.x1 ∧ r.x2 ≤ a.x2 ∧ a.y1 ≤ r.y1 ∧ r.y2 ≤ a.y2) := by
  have ha : a.isNull = false := by
    simp only [QRect.isNull, decide_eq_false_iff_not]; omega
  have hr : r.isNull = false := by
    simp only [QRect.isNull, decide_eq_false_iff_not]; omega
  have h1 : ¬ a.x2 - a.x1 + 1 < 0 := by omega
  have h2 : ¬ a.y2 - a.y1 + 1 < 0 := by omega
  have h3 : ¬ r.x2 - r.x1 + 1 < 0 := by omega
  have h4 : ¬ r.y2 - r.y1 + 1 < 0 := by omega
  simp only [QRect.containsRect, ha, hr, if_neg h1, if_neg h2, if_neg h3, if_neg h4,
    Bool.false_eq_true, or_self, if_false]
  by_cases hx : r.x1 < a.x1 ∨ r.x2 > a.x2
  · rw [if_pos hx]
    constructor
    · intro h; cases h
    · intro h; omega
  · rw [if_neg hx]
    by_cases hy : r.y1 < a.y1 ∨ r.y2 > a.y2
    · rw [if_pos hy]
      constructor
      · intro h; cases h
      · intro h; omega
    · rw [if_neg hy]
      constructor
      · intro _; omega
      · intro _; rfl

/-- C12: for the effective alignment mode 4 and the manual offset `(0, 0)`, for
every non-null child `i = k + 1 >= 1` whose size `(w, h)` satisfies
`1 <= w <= w0` and `1 <= h <= h0`, where `(w0, h0)` is the size of child 0,
after `updateLayout(false)` the rectangle `childItems[i]` lies within
`childItems[0]` (edge by edge, and point by point) and both have the centre
`(0, 0)`.  The two rectangles are the origin-centred rectangles of child 0 and
of child `i`: they have the sizes `(w0, h0)` and `(w, h)`, their left and top
edges are `-((w0 - 1) / 2)`, `-((h0 - 1) / 2)` and `-((w - 1) / 2)`,
`-((h - 1) / 2)`, `childItems[0].contains(childItems[i])` holds, and
`childItems[i]` is not empty: it contains the origin. -/
theorem overlay_centre_alignment (ops : PlaylistItemOps σ) (ov : PlaylistItemOverlay σ)
    (c0' c : σ) (rest' : List (Option σ)) (k : Nat) (w0 h0 w h : Int)
    (hnested : updateChildOverlays ops ov.children = some (some c0' :: rest'))
    (hmode : ov.comboBoxAlignment.getD 0 = 4)
    (hoffset : ov.manualAlignment = ⟨0, 0⟩)
    (hchild : rest'[k]? = some (some c))
    (hsize0 : ops.getSize c0' = ⟨w0, h0⟩) (hsize : ops.getSize c = ⟨w, h⟩)
    (hw : 1 ≤ w) (hww : w ≤ w0) (hh : 1 ≤ h) (hhh : h ≤ h0) :
    ∃ ov' anchor rect,
      updateLayout ops ov false = some ov' ∧
      ov'.childItems[0]? = some anchor ∧
      ov'.childItems[k + 1]? = some rect ∧
      anchor.left ≤ rect.left ∧ rect.right ≤ anchor.right ∧
      anchor.top ≤ rect.top ∧ rect.bottom ≤ anchor.bottom ∧
      (∀ p, rect.contains p = true → anchor.contains p = true) ∧
      rect.center = anchor.center ∧ anchor.center = ⟨0, 0⟩ ∧
      anchor = originRect (ops.getSize c0') ∧ rect = originRect (ops.getSize c) ∧
      anchor.size = ⟨w0, h0⟩ ∧ rect.size = ⟨w, h⟩ ∧
      anchor.left = -((w0 - 1) / 2) ∧ anchor.top = -((h0 - 1) / 2) ∧
      rect.left = -((w - 1) / 2) ∧ rect.top = -((h - 1) / 2) ∧
      anchor.containsRect rect = true ∧
      (∃ p, rect.contains p = true) := by
  have h0' : 0 ≤ ov.comboBoxAlignment.getD 0 := by rw [hmode]; decide
  have h8' : ov.comboBoxAlignment.getD 0 ≤ 8 := by rw [hmode]; decide
  obtain ⟨ov', hrun, _, _, hanchor, hent, _⟩ :=
    updateLayout_entries ops ov c0' rest' hnested h0' h8'
  obtain ⟨a, ha, hget⟩ := hent k c hchild
  have hanchor0 := hanchor
  have hrect0 : ov'.childItems[k + 1]? = some (originRect (ops.getSize c)) := by
    rw [hget, hoffset]
    rw [hmode] at ha
    simp only [alignRect] at ha
    norm_num at ha
    rw [← ha]
    simp [QRect.translate]
  have hs0 := originRect_size (ops.getSize c0')
  have hs := originRect_size (ops.getSize c)
  rw [hsize0] at hs0
  rw [hsize] at hs
  rw [hmode, hsize0, hsize, originRect_eq w0 h0 (by omega) (by omega),
    originRect_eq w h hw hh] at ha
  rw [hsize0, originRect_eq w0 h0 (by omega) (by omega)] at hanchor
  rw [hoffset] at hget
  have ha' : a = ⟨-((w - 1) / 2), -((h - 1) / 2), -((w - 1) / 2) + (w - 1),
      -((h - 1) / 2) + (h - 1)⟩ := by
    simp only [alignRect] at ha
    norm_num at ha
    exact ha.symm
  subst ha'
  have hanchor1 : originRect (ops.getSize c0') = ⟨-((w0 - 1) / 2), -((h0 - 1) / 2),
      -((w0 - 1) / 2) + (w0 - 1), -((h0 - 1) / 2) + (h0 - 1)⟩ := by
    rw [hanchor] at hanchor0
    exact (Option.some.inj hanchor0).symm
  have hrect1 : originRect (ops.getSize c) = QRect.translate ⟨-((w - 1) / 2), -((h - 1) / 2),
      -((w - 1) / 2) + (w - 1), -((h - 1) / 2) + (h - 1)⟩ ⟨0, 0⟩ := by
    rw [hget] at hrect0
    exact (Option.some.inj hrect0).symm
  refine ⟨ov', _, _, hrun, hanchor, hget, ?_, ?_, ?_, ?_, ?_, ?_, ?_, hanchor1.symm, hrect1.symm,
    ?_, ?_, rfl, rfl, ?_, ?_, ?_, ?_⟩
  · simp only [QRect.left, QRect.translate]; omega
  · simp only [QRect.right, QRect.translate]; omega
  · simp only [QRect.top, QRect.translate]; omega
  · simp only [QRect.bottom, QRect.translate]; omega
  · intro p hp
    rw [contains_iff _ _ (by simp only [QRect.translate]; omega)
      (by simp only [QRect.translate]; omega)] at hp
    rw [contains_iff _ _ (by dsimp only; omega) (by dsimp only; omega)]
    simp only [QRect.translate] at hp
    dsimp only
    refine ⟨by omega, by omega, by omega, by omega⟩
  · simp only [QRect.center, QRect.translate, QPoint.mk.injEq]
    constructor
    · rw [Int.tdiv_eq_ediv (by omega) (by decide), Int.tdiv_eq_ediv (by omega) (by decide)]
      omega
    · rw [Int.tdiv_eq_ediv (by omega) (by decide), Int.tdiv_eq_ediv (by omega) (by decide)]
      omega
  · simp only [QRect.center, QPoint.mk.injEq]
    constructor
    · rw [Int.tdiv_eq_ediv (by omega) (by decide)]; omega
    · rw [Int.tdiv_eq_ediv (by omega) (by decide)]; omega
  · rw [← hanchor1, hsize0]; exact hs0
  · rw [← hrect1, hsize]; exact hs
  · simp only [QRect.left, QRect.translate]; omega
  · simp only [QRect.top, QRect.translate]; omega
  · rw [containsRect_iff _ _ (by dsimp only; omega) (by dsimp only; omega)
      (by simp only [QRect.translate]; omega) (by simp only [QRect.translate]; omega)]
    simp only [QRect.translate]
    refine ⟨by omega, by omega, by omega, by omega⟩
  · refine ⟨⟨0, 0⟩, ?_⟩
    rw [contains_iff _ _ (by simp only [QRect.translate]; omega)
      (by simp only [QRect.translate]; omega)]
    simp only [QRect.translate]
    refine ⟨by omega, by omega, by omega, by omega⟩

/-- The union of two rectangles with `x1 <= x2` and `y1 <= y2`. -/
theorem united_valid (a b : QRect) (hax : a.x1 ≤ a.x2) (hay : a.y1 ≤ a.y2)
    (hbx : b.x1 ≤ b.x2) (hby : b.y1 ≤ b.y2) :
    a.united b = ⟨min a.x1 b.x1, min a.y1 b.y1, max a.x2 b.x2, max a.y2 b.y2⟩ := by
  have ha : a.isNull = false := by
    simp only [QRect.isNull, decide_eq_false_iff_not]; omega
  have hb : b.isNull = false := by
    simp only [QRect.isNull, decide_eq_false_iff_not]; omega
  have h1 : ¬ a.x2 - a.x1 + 1 < 0 := by omega
  have h2 : ¬ a.y2 - a.y1 + 1 < 0 := by omega
  have h3 : ¬ b.x2 - b.x1 + 1 < 0 := by omega
  have h4 : ¬ b.y2 - b.y1 + 1 < 0 := by omega
  simp only [QRect.united, ha, hb, if_neg h1, if_neg h2, if_neg h3, if_neg h4,
    Bool.false_eq_true, if_false]

/-- The placement of a child with a positive size: the aligned and shifted
rectangle has `x1 <= x2` and `y1 <= y2`, and its extent is the size less one. -/
theorem placed_valid (ops : PlaylistItemOps σ) (alignmentMode : Int) (manualAlignment : QPoint)
    (firstItemRect a : QRect) (c : σ)
    (ha : alignRect alignmentMode firstItemRect (originRect (ops.getSize c)) = some a) :
    (a.translate manualAlignment).x2 - (a.translate manualAlignment).x1
      = (ops.getSize c).width - 1 ∧
    (a.translate manualAlignment).y2 - (a.translate manualAlignment).y1
      = (ops.getSize c).height - 1 := by
  obtain ⟨ex, ey⟩ := alignRect_extent _ _ _ _ ha
  have hs := originRect_size (ops.getSize c)
  have hw : (originRect (ops.getSize c)).x2 - (originRect (ops.getSize c)).x1 + 1
      = (ops.getSize c).width := congrArg QSize.width hs
  have hh : (originRect (ops.getSize c)).y2 - (originRect (ops.getSize c)).y1 + 1
      = (ops.getSize c).height := congrArg QSize.height hs
  simp only [QRect.translate]
  constructor <;> omega

/-- Truncating division by 2 gives 0 exactly for -1, 0 and 1. -/
theorem tdiv_two_eq_zero (s : Int) : Int.tdiv s 2 = 0 ↔ (-1 ≤ s ∧ s ≤ 1) := by
  by_cases hs : 0 ≤ s
  · rw [Int.tdiv_eq_ediv hs (by decide)]
    omega
  · have e : s = -(-s) := by omega
    rw [e, Int.neg_tdiv, Int.tdiv_eq_ediv (by omega) (by decide)]
    omega

/-- The edges of the placement of a child of size `(w, h)` beside a first child
of size `(w0, h0)`, before the manual offset is added: on each axis the mode
either takes an edge of the anchor rectangle or keeps the origin-centred
position. -/
theorem placed_edges (m w0 h0 w h : Int) (a : QRect)
    (hm0 : 0 ≤ m) (hm8 : m ≤ 8) (hw0 : 1 ≤ w0) (hh0 : 1 ≤ h0) (hw : 1 ≤ w) (hh : 1 ≤ h)
    (ha : alignRect m (originRect ⟨w0, h0⟩) (originRect ⟨w, h⟩) = some a) :
    a.x2 = a.x1 + (w - 1) ∧ a.y2 = a.y1 + (h - 1) ∧
    ((m = 0 ∨ m = 3 ∨ m = 6) → a.x1 = -((w0 - 1) / 2)) ∧
    ((m = 1 ∨ m = 4 ∨ m = 7) → a.x1 = -((w - 1) / 2)) ∧
    ((m = 2 ∨ m = 5 ∨ m = 8) → a.x2 = -((w0 - 1) / 2) + (w0 - 1)) ∧
    ((m = 0 ∨ m = 1 ∨ m = 2) → a.y1 = -((h0 - 1) / 2)) ∧
    ((m = 3 ∨ m = 4 ∨ m = 5) → a.y1 = -((h - 1) / 2)) ∧
    ((m = 6 ∨ m = 7 ∨ m = 8) → a.y2 = -((h0 - 1) / 2) + (h0 - 1)) := by
  rw [originRect_eq w0 h0 hw0 hh0, originRect_eq w h hw hh] at ha
  unfold alignRect at ha
  interval_cases m <;>
    norm_num [QRect.moveTopLeft, QRect.moveTopRight, QRect.moveBottomLeft,
      QRect.moveBottomRight, QRect.moveLeft, QRect.moveRight, QRect.moveTop, QRect.moveBottom,
      QRect.topLeft, QRect.topRight, QRect.bottomLeft, QRect.bottomRight, QRect.left,
      QRect.right, QRect.top, QRect.bottom] at ha <;>
    subst ha <;>
    dsimp only <;>
    omega

/-- What the placement loop does to the bounding rectangle, for non-null
children of positive sizes: the rectangle it leaves contains the one it started
with and the placement of every non-null child, and each of its edges is the
edge of the rectangle it started with or of one of the placements. -/
theorem alignLoop_union (ops : PlaylistItemOps σ) (alignmentMode : Int)
    (manualAlignment : QPoint) (firstItemRect : QRect) (rest : List (Option σ)) :
    (∀ c, some c ∈ rest → 1 ≤ (ops.getSize c).width ∧ 1 ≤ (ops.getSize c).height) →
    ∀ (i : Nat) (childItems : List QRect) (b : QRect) (r : List QRect × QRect),
      alignLoop ops alignmentMode manualAlignment firstItemRect i rest childItems b = some r →
      b.x1 ≤ b.x2 → b.y1 ≤ b.y2 →
      (r.2.x1 ≤ r.2.x2 ∧ r.2.y1 ≤ r.2.y2) ∧
      (r.2.x1 ≤ b.x1 ∧ b.x2 ≤ r.2.x2 ∧ r.2.y1 ≤ b.y1 ∧ b.y2 ≤ r.2.y2) ∧
      (∀ c a, some c ∈ rest →
        alignRect alignmentMode firstItemRect (originRect (ops.getSize c)) = some a →
        r.2.x1 ≤ a.x1 + manualAlignment.x ∧ a.x2 + manualAlignment.x ≤ r.2.x2 ∧
        r.2.y1 ≤ a.y1 + manualAlignment.y ∧ a.y2 + manualAlignment.y ≤ r.2.y2) ∧
      (r.2.x1 = b.x1 ∨ ∃ c a, some c ∈ rest ∧
        alignRect alignmentMode firstItemRect (originRect (ops.getSize c)) = some a ∧
        r.2.x1 = a.x1 + manualAlignment.x) ∧
      (r.2.x2 = b.x2 ∨ ∃ c a, some c ∈ rest ∧
        alignRect alignmentMode firstItemRect (originRect (ops.getSize c)) = some a ∧
        r.2.x2 = a.x2 + manualAlignment.x) ∧
      (r.2.y1 = b.y1 ∨ ∃ c a, some c ∈ rest ∧
        alignRect alignmentMode firstItemRect (originRect (ops.getSize c)) = some a ∧
        r.2.y1 = a.y1 + manualAlignment.y) ∧
      (r.2.y2 = b.y2 ∨ ∃ c a, some c ∈ rest ∧
        alignRect alignmentMode firstItemRect (originRect (ops.getSize c)) = some a ∧
        r.2.y2 = a.y2 + manualAlignment.y) := by
  induction rest with
  | nil =>
    intro _ i childItems b r hr hbx hby
    simp only [alignLoop, Option.some.injEq] at hr
    subst hr
    exact ⟨⟨hbx, hby⟩, ⟨le_refl _, le_refl _, le_refl _, le_refl _⟩,
      fun c a hc => by simp at hc, Or.inl rfl, Or.inl rfl, Or.inl rfl, Or.inl rfl⟩
  | cons c rest ih =>
    intro hpos i childItems b r hr hbx hby
    cases c with
    | none =>
      simp only [alignLoop] at hr
      obtain ⟨hv, hsub, hcov, e1, e2, e3, e4⟩ :=
        ih (fun c hc => hpos c (List.mem_cons_of_mem _ hc)) _ _ _ _ hr hbx hby
      refine ⟨hv, hsub, ?_, ?_, ?_, ?_, ?_⟩
      · intro c a hc ha
        have hc' : some c ∈ rest := by simpa using hc
        exact hcov c a hc' ha
      · rcases e1 with e | ⟨c, a, hc, ha, e⟩
        · exact Or.inl e
        · exact Or.inr ⟨c, a, List.mem_cons_of_mem _ hc, ha, e⟩
      · rcases e2 with e | ⟨c, a, hc, ha, e⟩
        · exact Or.inl e
        · exact Or.inr ⟨c, a, List.mem_cons_of_mem _ hc, ha, e⟩
      · rcases e3 with e | ⟨c, a, hc, ha, e⟩
        · exact Or.inl e
        · exact Or.inr ⟨c, a, List.mem_cons_of_mem _ hc, ha, e⟩
      · rcases e4 with e | ⟨c, a, hc, ha, e⟩
        · exact Or.inl e
        · exact Or.inr ⟨c, a, List.mem_cons_of_mem _ hc, ha, e⟩
    | some childItem =>
      simp only [alignLoop] at hr
      cases ha0 : alignRect alignmentMode firstItemRect
          ((QRect.null.setSize (ops.getSize childItem)).moveCenter ⟨0, 0⟩) with
      | none => rw [ha0] at hr; cases hr
      | some a0 =>
        rw [ha0] at hr
        have ha0' : alignRect alignmentMode firstItemRect (originRect (ops.getSize childItem))
            = some a0 := ha0
        obtain ⟨hw, hh⟩ := hpos childItem (List.mem_cons_self _ _)
        obtain ⟨ex, ey⟩ := placed_valid ops alignmentMode manualAlignment firstItemRect a0
          childItem ha0'
        have hu := united_valid b (a0.translate manualAlignment) hbx hby (by omega) (by omega)
        have hux : (b.united (a0.translate manualAlignment)).x1
            ≤ (b.united (a0.translate manualAlignment)).x2 := by
          rw [hu]; dsimp only; omega
        have huy : (b.united (a0.translate manualAlignment)).y1
            ≤ (b.united (a0.translate manualAlignment)).y2 := by
          rw [hu]; dsimp only; omega
        obtain ⟨hv, hsub, hcov, e1, e2, e3, e4⟩ :=
          ih (fun c hc => hpos c (List.mem_cons_of_mem _ hc)) _ _ _ _ hr hux huy
        have u1 : (b.united (a0.translate manualAlignment)).x1
            = min b.x1 (a0.x1 + manualAlignment.x) := by rw [hu]; rfl
        have u2 : (b.united (a0.translate manualAlignment)).x2
            = max b.x2 (a0.x2 + manualAlignment.x) := by rw [hu]; rfl
        have u3 : (b.united (a0.translate manualAlignment)).y1
            = min b.y1 (a0.y1 + manualAlignment.y) := by rw [hu]; rfl
        have u4 : (b.united (a0.translate manualAlignment)).y2
            = max b.y2 (a0.y2 + manualAlignment.y) := by rw [hu]; rfl
        rw [u1, u2, u3, u4] at hsub
        have hsub' : r.2.x1 ≤ b.x1 ∧ b.x2 ≤ r.2.x2 ∧ r.2.y1 ≤ b.y1 ∧ b.y2 ≤ r.2.y2 := by
          clear e1 e2 e3 e4 hcov
          omega
        have hplaced : r.2.x1 ≤ a0.x1 + manualAlignment.x ∧ a0.x2 + manualAlignment.x ≤ r.2.x2 ∧
            r.2.y1 ≤ a0.y1 + manualAlignment.y ∧ a0.y2 + manualAlignment.y ≤ r.2.y2 := by
          clear e1 e2 e3 e4 hcov
          omega
        refine ⟨hv, hsub', ?_, ?_, ?_, ?_, ?_⟩
        · intro c a hc ha
          rcases List.mem_cons.1 hc with hc | hc
          · cases hc
            rw [ha0'] at ha
            cases ha
            exact hplaced
          · exact hcov c a hc ha
        · clear e2 e3 e4 hcov
          rcases e1 with e | ⟨c, a, hc, ha, e⟩
          · rw [u1] at e
            by_cases hcase : b.x1 ≤ a0.x1 + manualAlignment.x
            · exact Or.inl (by omega)
            · exact Or.inr ⟨childItem, a0, List.mem_cons_self _ _, ha0', by omega⟩
          · exact Or.inr ⟨c, a, List.mem_cons_of_mem _ hc, ha, e⟩
        · clear e1 e3 e4 hcov
          rcases e2 with e | ⟨c, a, hc, ha, e⟩
          · rw [u2] at e
            by_cases hcase : a0.x2 + manualAlignment.x ≤ b.x2
            · exact Or.inl (by omega)
            · exact Or.inr ⟨childItem, a0, List.mem_cons_self _ _, ha0', by omega⟩
          · exact Or.inr ⟨c, a, List.mem_cons_of_mem _ hc, ha, e⟩
        · clear e1 e2 e4 hcov
          rcases e3 with e | ⟨c, a, hc, ha, e⟩
          · rw [u3] at e
            by_cases hcase : b.y1 ≤ a0.y1 + manualAlignment.y
            · exact Or.inl (by omega)
            · exact Or.inr ⟨childItem, a0, List.mem_cons_self _ _, ha0', by omega⟩
          · exact Or.inr ⟨c, a, List.mem_cons_of_mem _ hc, ha, e⟩
        · clear e1 e2 e3 hcov
          rcases e4 with e | ⟨c, a, hc, ha, e⟩
          · rw [u4] at e
            by_cases hcase : a0.y2 + manualAlignment.y ≤ b.y2
            · exact Or.inl (by omega)
            · exact Or.inr ⟨childItem, a0, List.mem_cons_self _ _, ha0', by omega⟩
          · exact Or.inr ⟨c, a, List.mem_cons_of_mem _ hc, ha, e⟩

/-- One axis of the bounding rectangle.  The interval `[L, R]` is the union of
the interval of the first child, of extent `w0` and centred at 0, and of the
intervals `[x1 i, x2 i]` of extent `wd i` of the further children, which all
take the low edge of the first child (`cls = 0`), are all centred at 0
(`cls = 1`), or all take the high edge of the first child (`cls = 2`).  The
truncated midpoint of `[L, R]` is 0 exactly when the children are centred, or
none of them exceeds the first child by more than the rounding of its own
centring allows. -/
theorem axis_centre {ι : Type} (S : ι → Prop) (wd x1 x2 : ι → Int) (w0 L R cls : Int)
    (hcls : cls = 0 ∨ cls = 1 ∨ cls = 2)
    (hwd : ∀ i, S i → 1 ≤ wd i ∧ x2 i = x1 i + (wd i - 1) ∧
      (cls = 0 → x1 i = -((w0 - 1) / 2)) ∧
      (cls = 1 → x1 i = -((wd i - 1) / 2)) ∧
      (cls = 2 → x2 i = -((w0 - 1) / 2) + (w0 - 1)))
    (hsub0 : L ≤ -((w0 - 1) / 2) ∧ -((w0 - 1) / 2) + (w0 - 1) ≤ R)
    (hsub : ∀ i, S i → L ≤ x1 i ∧ x2 i ≤ R)
    (hL : L = -((w0 - 1) / 2) ∨ ∃ i, S i ∧ L = x1 i)
    (hR : R = -((w0 - 1) / 2) + (w0 - 1) ∨ ∃ i, S i ∧ R = x2 i) :
    (-1 ≤ L + R ∧ L + R ≤ 1) ↔
      (cls = 1 ∨ (cls = 0 ∧ ∀ i, S i → wd i ≤ w0 + w0 % 2) ∨
        (cls = 2 ∧ ∀ i, S i → wd i ≤ w0 + 2 - w0 % 2)) := by
  rcases hcls with h | h | h
  · -- low edge
    have hLeq : L = -((w0 - 1) / 2) := by
      rcases hL with e | ⟨i, hi, e⟩
      · exact e
      · have := (hwd i hi).2.2.1 h
        omega
    constructor
    · intro hs
      refine Or.inr (Or.inl ⟨h, fun i hi => ?_⟩)
      have h1 := hwd i hi
      have h2 := hsub i hi
      have h3 := h1.2.2.1 h
      omega
    · rintro (h' | ⟨_, hall⟩ | ⟨h', _⟩)
      · omega
      · rcases hR with e | ⟨j, hj, e⟩
        · omega
        · have h1 := hwd j hj
          have h3 := h1.2.2.1 h
          have h4 := hall j hj
          omega
      · omega
  · -- centred
    constructor
    · intro _
      exact Or.inl h
    · intro _
      rcases hL with eL | ⟨i, hi, eL⟩ <;> rcases hR with eR | ⟨j, hj, eR⟩
      · omega
      · have h1 := hwd j hj
        have h2 := h1.2.2.2.1 h
        have h3 := hsub j hj
        omega
      · have h1 := hwd i hi
        have h2 := h1.2.2.2.1 h
        have h3 := hsub i hi
        omega
      · have h1 := hwd i hi
        have h2 := h1.2.2.2.1 h
        have h3 := hsub i hi
        have h4 := hwd j hj
        have h5 := h4.2.2.2.1 h
        have h6 := hsub j hj
        omega
  · -- high edge
    have hReq : R = -((w0 - 1) / 2) + (w0 - 1) := by
      rcases hR with e | ⟨i, hi, e⟩
      · exact e
      · have := (hwd i hi).2.2.2.2 h
        omega
    constructor
    · intro hs
      refine Or.inr (Or.inr ⟨h, fun i hi => ?_⟩)
      have h1 := hwd i hi
      have h2 := hsub i hi
      have h3 := h1.2.2.2.2 h
      omega
    · rintro (h' | ⟨h', _⟩ | ⟨_, hall⟩)
      · omega
      · omega
      · rcases hL with e | ⟨j, hj, e⟩
        · omega
        · have h1 := hwd j hj
          have h3 := h1.2.2.2.2 h
          have h4 := hall j hj
          omega

/-- C17 (as amended): for every overlay whose child 0, of size `(w0, h0)`, and
further non-null children report positive sizes, every effective alignment
mode `m` in 0..8 and the manual offset `(0, 0)`, `updateLayout(false)` returns
and the centre of `boundingRect` is characterised axis by axis.  Its `x` is 0
exactly when the mode centres the children horizontally (1, 4, 7), or aligns
them to the left (0, 3, 6) and none is wider than `w0 + w0 % 2`, or aligns them
to the right (2, 5, 8) and none is wider than `w0 + 2 - w0 % 2`.  Its `y` is 0
exactly when the mode centres the children vertically (3, 4, 5), or aligns them
to the top (0, 1, 2) and none is higher than `h0 + h0 % 2`, or aligns them to
the bottom (6, 7, 8) and none is higher than `h0 + 2 - h0 % 2`.  In particular
the centre is the origin in mode 4, and in every mode when no further child is
wider or higher than child 0. -/
theorem overlay_boundingRect_centre (ops : PlaylistItemOps σ) (ov : PlaylistItemOverlay σ)
    (c0' : σ) (rest' : List (Option σ)) (m w0 h0 : Int)
    (hnested : updateChildOverlays ops ov.children = some (some c0' :: rest'))
    (hmode : ov.comboBoxAlignment.getD 0 = m) (hm0 : 0 ≤ m) (hm8 : m ≤ 8)
    (hoffset : ov.manualAlignment = ⟨0, 0⟩)
    (hsize0 : ops.getSize c0' = ⟨w0, h0⟩) (hw0 : 1 ≤ w0) (hh0 : 1 ≤ h0)
    (hpos : ∀ c, some c ∈ rest' → 1 ≤ (ops.getSize c).width ∧ 1 ≤ (ops.getSize c).height) :
    ∃ ov', updateLayout ops ov false = some ov' ∧
      (ov'.boundingRect.center.x = 0 ↔
        ((m = 1 ∨ m = 4 ∨ m = 7) ∨
          ((m = 0 ∨ m = 3 ∨ m = 6) ∧
            ∀ c, some c ∈ rest' → (ops.getSize c).width ≤ w0 + w0 % 2) ∨
          ((m = 2 ∨ m = 5 ∨ m = 8) ∧
            ∀ c, some c ∈ rest' → (ops.getSize c).width ≤ w0 + 2 - w0 % 2))) ∧
      (ov'.boundingRect.center.y = 0 ↔
        ((m = 3 ∨ m = 4 ∨ m = 5) ∨
          ((m = 0 ∨ m = 1 ∨ m = 2) ∧
            ∀ c, some c ∈ rest' → (ops.getSize c).height ≤ h0 + h0 % 2) ∨
          ((m = 6 ∨ m = 7 ∨ m = 8) ∧
            ∀ c, some c ∈ rest' → (ops.getSize c).height ≤ h0 + 2 - h0 % 2))) ∧
      (m = 4 → ov'.boundingRect.center = ⟨0, 0⟩) ∧
      ((∀ c, some c ∈ rest' →
          (ops.getSize c).width ≤ w0 ∧ (ops.getSize c).height ≤ h0) →
        ov'.boundingRect.center = ⟨0, 0⟩) := by
  have h0' : 0 ≤ ov.comboBoxAlignment.getD 0 := by rw [hmode]; exact hm0
  have h8' : ov.comboBoxAlignment.getD 0 ≤ 8 := by rw [hmode]; exact hm8
  obtain ⟨ov', hrun, _, _, _, _, hloop⟩ :=
    updateLayout_entries ops ov c0' rest' hnested h0' h8'
  rw [hmode, hoffset, hsize0] at hloop
  have hanchor : originRect ⟨w0, h0⟩ =
      ⟨-((w0 - 1) / 2), -((h0 - 1) / 2), -((w0 - 1) / 2) + (w0 - 1),
        -((h0 - 1) / 2) + (h0 - 1)⟩ := originRect_eq _ _ hw0 hh0
  obtain ⟨_, hsub, hcov, e1, e2, e3, e4⟩ := alignLoop_union ops m ⟨0, 0⟩ (originRect ⟨w0, h0⟩)
    rest' hpos _ _ _ _ hloop (by rw [hanchor]; dsimp only; omega)
    (by rw [hanchor]; dsimp only; omega)
  have hplace : ∀ c, some c ∈ rest' →
      ∃ a, alignRect m (originRect ⟨w0, h0⟩) (originRect (ops.getSize c)) = some a :=
    fun c _ => alignRect_isSome m _ _ hm0 hm8
  have hedges : ∀ (i : σ × QRect),
      (some i.1 ∈ rest' ∧
        alignRect m (originRect ⟨w0, h0⟩) (originRect (ops.getSize i.1)) = some i.2) →
      i.2.x2 = i.2.x1 + ((ops.getSize i.1).width - 1) ∧
      i.2.y2 = i.2.y1 + ((ops.getSize i.1).height - 1) ∧
      ((m = 0 ∨ m = 3 ∨ m = 6) → i.2.x1 = -((w0 - 1) / 2)) ∧
      ((m = 1 ∨ m = 4 ∨ m = 7) → i.2.x1 = -(((ops.getSize i.1).width - 1) / 2)) ∧
      ((m = 2 ∨ m = 5 ∨ m = 8) → i.2.x2 = -((w0 - 1) / 2) + (w0 - 1)) ∧
      ((m = 0 ∨ m = 1 ∨ m = 2) → i.2.y1 = -((h0 - 1) / 2)) ∧
      ((m = 3 ∨ m = 4 ∨ m = 5) → i.2.y1 = -(((ops.getSize i.1).height - 1) / 2)) ∧
      ((m = 6 ∨ m = 7 ∨ m = 8) → i.2.y2 = -((h0 - 1) / 2) + (h0 - 1)) := by
    intro i hi
    exact placed_edges m w0 h0 _ _ i.2 hm0 hm8 hw0 hh0 (hpos i.1 hi.1).1 (hpos i.1 hi.1).2 hi.2
  have ax1 : (originRect ⟨w0, h0⟩).x1 = -((w0 - 1) / 2) := by rw [hanchor]
  have ay1 : (originRect ⟨w0, h0⟩).y1 = -((h0 - 1) / 2) := by rw [hanchor]
  have ax2 : (originRect ⟨w0, h0⟩).x2 = -((w0 - 1) / 2) + (w0 - 1) := by rw [hanchor]
  have ay2 : (originRect ⟨w0, h0⟩).y2 = -((h0 - 1) / 2) + (h0 - 1) := by rw [hanchor]
  rw [ax1, ax2, ay1, ay2] at hsub
  rw [ax1] at e1
  rw [ax2] at e2
  rw [ay1] at e3
  rw [ay2] at e4
  simp only [add_zero] at hcov e1 e2 e3 e4
  have hx := axis_centre
    (fun (i : σ × QRect) => some i.1 ∈ rest' ∧
      alignRect m (originRect ⟨w0, h0⟩) (originRect (ops.getSize i.1)) = some i.2)
    (fun i => (ops.getSize i.1).width) (fun i => i.2.x1) (fun i => i.2.x2) w0
    ov'.boundingRect.x1 ov'.boundingRect.x2 (m % 3) (by omega)
    (fun i hi => by
      obtain ⟨g1, _, g3, g4, g5, _⟩ := hedges i hi
      have := (hpos i.1 hi.1).1
      refine ⟨this, g1, fun hc => g3 (by omega), fun hc => g4 (by omega),
        fun hc => g5 (by omega)⟩)
    ⟨hsub.1, hsub.2.1⟩
    (fun i hi => ⟨(hcov i.1 i.2 hi.1 hi.2).1, (hcov i.1 i.2 hi.1 hi.2).2.1⟩)
    (e1.imp id fun ⟨c, a, hc, ha, e⟩ => ⟨(c, a), ⟨hc, ha⟩, e⟩)
    (e2.imp id fun ⟨c, a, hc, ha, e⟩ => ⟨(c, a), ⟨hc, ha⟩, e⟩)
  have hy := axis_centre
    (fun (i : σ × QRect) => some i.1 ∈ rest' ∧
      alignRect m (originRect ⟨w0, h0⟩) (originRect (ops.getSize i.1)) = some i.2)
    (fun i => (ops.getSize i.1).height) (fun i => i.2.y1) (fun i => i.2.y2) h0
    ov'.boundingRect.y1 ov'.boundingRect.y2 (m / 3) (by omega)
    (fun i hi => by
      obtain ⟨_, g2, _, _, _, g6, g7, g8⟩ := hedges i hi
      have := (hpos i.1 hi.1).2
      refine ⟨this, g2, fun hc => g6 (by omega), fun hc => g7 (by omega),
        fun hc => g8 (by omega)⟩)
    ⟨hsub.2.2.1, hsub.2.2.2⟩
    (fun i hi => ⟨(hcov i.1 i.2 hi.1 hi.2).2.2.1, (hcov i.1 i.2 hi.1 hi.2).2.2.2⟩)
    (e3.imp id fun ⟨c, a, hc, ha, e⟩ => ⟨(c, a), ⟨hc, ha⟩, e⟩)
    (e4.imp id fun ⟨c, a, hc, ha, e⟩ => ⟨(c, a), ⟨hc, ha⟩, e⟩)
  have hall : ∀ (bound : σ → Prop),
      (∀ (i : σ × QRect), (some i.1 ∈ rest' ∧
        alignRect m (originRect ⟨w0, h0⟩) (originRect (ops.getSize i.1)) = some i.2) →
        bound i.1) ↔ (∀ c, some c ∈ rest' → bound c) := by
    intro bound
    constructor
    · intro h c hc
      obtain ⟨a, ha⟩ := hplace c hc
      exact h (c, a) ⟨hc, ha⟩
    · intro h i hi
      exact h i.1 hi.1
  have hxiff : ov'.boundingRect.center.x = 0 ↔
      ((m = 1 ∨ m = 4 ∨ m = 7) ∨
        ((m = 0 ∨ m = 3 ∨ m = 6) ∧
          ∀ c, some c ∈ rest' → (ops.getSize c).width ≤ w0 + w0 % 2) ∨
        ((m = 2 ∨ m = 5 ∨ m = 8) ∧
          ∀ c, some c ∈ rest' → (ops.getSize c).width ≤ w0 + 2 - w0 % 2)) := by
    have e : ov'.boundingRect.center.x
        = Int.tdiv (ov'.boundingRect.x1 + ov'.boundingRect.x2) 2 := rfl
    rw [e, tdiv_two_eq_zero, hx, hall (fun c => (ops.getSize c).width ≤ w0 + w0 % 2),
      hall (fun c => (ops.getSize c).width ≤ w0 + 2 - w0 % 2)]
    have c0 : m % 3 = 0 ↔ (m = 0 ∨ m = 3 ∨ m = 6) := by omega
    have c1 : m % 3 = 1 ↔ (m = 1 ∨ m = 4 ∨ m = 7) := by omega
    have c2 : m % 3 = 2 ↔ (m = 2 ∨ m = 5 ∨ m = 8) := by omega
    rw [c0, c1, c2]
  have hyiff : ov'.boundingRect.center.y = 0 ↔
      ((m = 3 ∨ m = 4 ∨ m = 5) ∨
        ((m = 0 ∨ m = 1 ∨ m = 2) ∧
          ∀ c, some c ∈ rest' → (ops.getSize c).height ≤ h0 + h0 % 2) ∨
        ((m = 6 ∨ m = 7 ∨ m = 8) ∧
          ∀ c, some c ∈ rest' → (ops.getSize c).height ≤ h0 + 2 - h0 % 2)) := by
    have e : ov'.boundingRect.center.y
        = Int.tdiv (ov'.boundingRect.y1 + ov'.boundingRect.y2) 2 := rfl
    rw [e, tdiv_two_eq_zero, hy, hall (fun c => (ops.getSize c).height ≤ h0 + h0 % 2),
      hall (fun c => (ops.getSize c).height ≤ h0 + 2 - h0 % 2)]
    have c0 : m / 3 = 0 ↔ (m = 0 ∨ m = 1 ∨ m = 2) := by omega
    have c1 : m / 3 = 1 ↔ (m = 3 ∨ m = 4 ∨ m = 5) := by omega
    have c2 : m / 3 = 2 ↔ (m = 6 ∨ m = 7 ∨ m = 8) := by omega
    rw [c0, c1, c2]
  have hcentre : ∀ (o : PlaylistItemOverlay σ), o.boundingRect.center.x = 0 →
      o.boundingRect.center.y = 0 → o.boundingRect.center = ⟨0, 0⟩ := by
    intro o hx hy
    cases hc : o.boundingRect.center with
    | mk x y =>
      rw [hc] at hx hy
      simp only at hx hy
      rw [hx, hy]
  refine ⟨ov', hrun, hxiff, hyiff, ?_, ?_⟩
  · intro h4
    exact hcentre ov' (hxiff.2 (Or.inl (Or.inr (Or.inl h4))))
      (hyiff.2 (Or.inl (Or.inr (Or.inl h4))))
  · intro hsmall
    have px : ∀ c, some c ∈ rest' → (ops.getSize c).width ≤ w0 + w0 % 2 := by
      intro c hc
      have := (hsmall c hc).1
      omega
    have px2 : ∀ c, some c ∈ rest' → (ops.getSize c).width ≤ w0 + 2 - w0 % 2 := by
      intro c hc
      have := (hsmall c hc).1
      omega
    have py : ∀ c, some c ∈ rest' → (ops.getSize c).height ≤ h0 + h0 % 2 := by
      intro c hc
      have := (hsmall c hc).2
      omega
    have py2 : ∀ c, some c ∈ rest' → (ops.getSize c).height ≤ h0 + 2 - h0 % 2 := by
      intro c hc
      have := (hsmall c hc).2
      omega
    refine hcentre ov' (hxiff.2 ?_) (hyiff.2 ?_)
    · have hc : (m = 1 ∨ m = 4 ∨ m = 7) ∨ (m = 0 ∨ m = 3 ∨ m = 6) ∨ (m = 2 ∨ m = 5 ∨ m = 8) := by
        omega
      rcases hc with h | h | h
      · exact Or.inl h
      · exact Or.inr (Or.inl ⟨h, px⟩)
      · exact Or.inr (Or.inr ⟨h, px2⟩)
    · have hc : (m = 3 ∨ m = 4 ∨ m = 5) ∨ (m = 0 ∨ m = 1 ∨ m = 2) ∨ (m = 6 ∨ m = 7 ∨ m = 8) := by
        omega
      rcases hc with h | h | h
      · exact Or.inl h
      · exact Or.inr (Or.inl ⟨h, py⟩)
      · exact Or.inr (Or.inr ⟨h, py2⟩)

/-- The loop of `getPixelValues`, when every child index read is an index of
the placement list, in closed form: the labelled sets of the non-null children
whose rectangle contains the point, in the order of the children. -/
theorem getPixelValuesLoop_eq (ops : PlaylistItemOps σ) (childItems : List QRect)
    (relPoint : QPoint) (frameIdx : Int) (children : List (Option σ)) :
    ∀ i, i + children.length ≤ childItems.length →
      getPixelValuesLoop ops childItems relPoint frameIdx i children = some
        (((children.zip (childItems.drop i)).enumFrom i).flatMap fun e =>
          match e.2.1 with
          | none => []
          | some child =>
            if e.2.2.contains relPoint then
              (ops.getPixelValues child
                ⟨relPoint.x - e.2.2.topLeft.x, relPoint.y - e.2.2.topLeft.y⟩ frameIdx).map
                fun s => ("Item " ++ toString e.1 ++ " - " ++ s.1, s.2)
            else []) := by
  induction children with
  | nil => intro i _; rfl
  | cons c rest ih =>
    intro i hlen
    have hi : i < childItems.length := by simp only [List.length_cons] at hlen; omega
    have hrest : i + 1 + rest.length ≤ childItems.length := by
      simp only [List.length_cons] at hlen; omega
    rw [List.drop_eq_getElem_cons hi, List.zip_cons_cons, List.enumFrom_cons,
      List.flatMap_cons]
    cases c with
    | none =>
      simp only [getPixelValuesLoop, ih (i + 1) hrest, List.nil_append]
    | some child =>
      have hget : childItems[i]? = some childItems[i] := List.getElem?_eq_getElem hi
      simp only [getPixelValuesLoop, hget, ih (i + 1) hrest, labelSets]

/-- C13: for every overlay whose placement list is index-aligned with its
children, every `pixelPos` and `frameIdx`, with
`p = boundingRect.topLeft() + pixelPos`, `getPixelValues` returns the
concatenation, in increasing child index `i`, over the non-null children whose
`childItems[i]` contains `p`, of child `i`'s
`getPixelValues(p - childItems[i].topLeft(), frameIdx)` with every title `L`
replaced by `Item i - L`.  Hence a point in no child's rectangle gives the
empty list, and with two children a point in the rectangle of one of them only
gives that child's sets only. -/
theorem overlay_getPixelValues_hit_test (ops : PlaylistItemOps σ) (ov : PlaylistItemOverlay σ)
    (pixelPos : QPoint) (frameIdx : Int)
    (hcurrent : ov.childItems.length = ov.children.length) :
    getPixelValues ops ov pixelPos frameIdx = some
      ((ov.children.zip ov.childItems).enum.flatMap fun e =>
        match e.2.1 with
        | none => []
        | some child =>
          if e.2.2.contains ⟨ov.boundingRect.topLeft.x + pixelPos.x,
              ov.boundingRect.topLeft.y + pixelPos.y⟩ then
            (ops.getPixelValues child
              ⟨ov.boundingRect.topLeft.x + pixelPos.x - e.2.2.topLeft.x,
                ov.boundingRect.topLeft.y + pixelPos.y - e.2.2.topLeft.y⟩ frameIdx).map
              fun s => ("Item " ++ toString e.1 ++ " - " ++ s.1, s.2)
          else []) ∧
    ((∀ r ∈ ov.childItems, r.contains ⟨ov.boundingRect.topLeft.x + pixelPos.x,
        ov.boundingRect.topLeft.y + pixelPos.y⟩ = false) →
      getPixelValues ops ov pixelPos frameIdx = some []) ∧
    (∀ a b ra rb, ov.children = [some a, some b] → ov.childItems = [ra, rb] →
      (ra.contains ⟨ov.boundingRect.topLeft.x + pixelPos.x,
          ov.boundingRect.topLeft.y + pixelPos.y⟩ = true →
        rb.contains ⟨ov.boundingRect.topLeft.x + pixelPos.x,
          ov.boundingRect.topLeft.y + pixelPos.y⟩ = false →
        getPixelValues ops ov pixelPos frameIdx = some
          ((ops.getPixelValues a
            ⟨ov.boundingRect.topLeft.x + pixelPos.x - ra.topLeft.x,
              ov.boundingRect.topLeft.y + pixelPos.y - ra.topLeft.y⟩ frameIdx).map
            fun s => ("Item 0 - " ++ s.1, s.2))) ∧
      (ra.contains ⟨ov.boundingRect.topLeft.x + pixelPos.x,
          ov.boundingRect.topLeft.y + pixelPos.y⟩ = false →
        rb.contains ⟨ov.boundingRect.topLeft.x + pixelPos.x,
          ov.boundingRect.topLeft.y + pixelPos.y⟩ = true →
        getPixelValues ops ov pixelPos frameIdx = some
          ((ops.getPixelValues b
            ⟨ov.boundingRect.topLeft.x + pixelPos.x - rb.topLeft.x,
              ov.boundingRect.topLeft.y + pixelPos.y - rb.topLeft.y⟩ frameIdx).map
            fun s => ("Item 1 - " ++ s.1, s.2)))) := by
  have hmain := getPixelValuesLoop_eq ops ov.childItems
    ⟨ov.boundingRect.topLeft.x + pixelPos.x, ov.boundingRect.topLeft.y + pixelPos.y⟩ frameIdx
    ov.children 0 (by omega)
  rw [List.drop_zero] at hmain
  have hrun : getPixelValues ops ov pixelPos frameIdx =
      getPixelValuesLoop ops ov.childItems
        ⟨ov.boundingRect.topLeft.x + pixelPos.x, ov.boundingRect.topLeft.y + pixelPos.y⟩
        frameIdx 0 ov.children := rfl
  refine ⟨by rw [hrun, hmain]; rfl, ?_, ?_⟩
  · intro hnone
    rw [hrun, hmain]
    congr 1
    rw [List.flatMap_eq_nil_iff]
    intro e he
    have hmem : e.2.2 ∈ ov.childItems := by
      have h1 : e.2 ∈ ov.children.zip ov.childItems := List.snd_mem_of_mem_enumFrom he
      exact (List.of_mem_zip (show (e.2.1, e.2.2) ∈ _ from h1)).2
    cases h : e.2.1 with
    | none => rfl
    | some child => simp only [hnone _ hmem, Bool.false_eq_true, if_false]
  · intro a b ra rb hc hi
    have l0 : "Item " ++ toString (0 : Nat) ++ " - " = "Item 0 - " := by decide
    have l1 : "Item " ++ toString (1 : Nat) ++ " - " = "Item 1 - " := by decide
    rw [hrun, hmain, hc, hi]
    constructor
    · intro h1 h2
      simp [List.enumFrom, List.flatMap, h1, h2, l0]
    · intro h1 h2
      simp [List.enumFrom, List.flatMap, h1, h2, l1]

/-- The result of the loop of `getPixelValues` is made of the results of the
calls listed by `getPixelValuesCallsLoop`, each labelled with its child index:
the two loops describe the same run.  `done` are the children before index
`done.length`, where the loop stands. -/
theorem getPixelValuesLoop_eq_calls (ops : PlaylistItemOps σ) (childItems : List QRect)
    (relPoint : QPoint) (frameIdx : Int) (rest : List (Option σ)) :
    ∀ done : List (Option σ),
      getPixelValuesLoop ops childItems relPoint frameIdx done.length rest =
        (getPixelValuesCallsLoop childItems relPoint done.length rest).map fun calls =>
          calls.flatMap fun call =>
            match (done ++ rest)[call.1]? with
            | some (some child) => labelSets call.1 (ops.getPixelValues child call.2 frameIdx)
            | _ => [] := by
  induction rest with
  | nil => intro done; rfl
  | cons c rest ih =>
    intro done
    have hstep := ih (done ++ [c])
    rw [List.length_append, List.length_singleton, List.append_assoc,
      List.singleton_append] at hstep
    cases c with
    | none =>
      simp only [getPixelValuesLoop, getPixelValuesCallsLoop]
      exact hstep
    | some child =>
      simp only [getPixelValuesLoop, getPixelValuesCallsLoop]
      cases hrect : childItems[done.length]? with
      | none => rfl
      | some rect =>
        dsimp only
        rw [hstep]
        cases getPixelValuesCallsLoop childItems relPoint (done.length + 1) rest with
        | none => rfl
        | some more =>
          simp only [Option.map_some']
          congr 1
          rw [List.flatMap_append]
          congr 1
          by_cases hc : rect.contains relPoint = true
          · simp only [hc, if_true, List.flatMap_cons, List.flatMap_nil, List.append_nil,
              List.getElem?_append_right (Nat.le_refl _), Nat.sub_self, List.getElem?_cons_zero]
          · simp only [hc, if_false, List.flatMap_nil, Bool.false_eq_true]

/-- The calls the loop of `getPixelValues` makes, when every child index read
is an index of the placement list: each call goes to a non-null child whose
rectangle contains the point, with the point relative to the top left corner of
that rectangle. -/
theorem getPixelValuesCallsLoop_spec (childItems : List QRect) (relPoint : QPoint)
    (children : List (Option σ)) :
    ∀ i, i + children.length ≤ childItems.length →
      ∃ calls, getPixelValuesCallsLoop childItems relPoint i children = some calls ∧
        ∀ call ∈ calls, ∃ k c rect, call.1 = i + k ∧ children[k]? = some (some c) ∧
          childItems[i + k]? = some rect ∧ rect.contains relPoint = true ∧
          call.2 = ⟨relPoint.x - rect.topLeft.x, relPoint.y - rect.topLeft.y⟩ := by
  induction children with
  | nil =>
    intro i _
    exact ⟨[], rfl, fun call h => by cases h⟩
  | cons c rest ih =>
    intro i hlen
    have hi : i < childItems.length := by simp only [List.length_cons] at hlen; omega
    have hrest : i + 1 + rest.length ≤ childItems.length := by
      simp only [List.length_cons] at hlen; omega
    obtain ⟨more, hmore, hspec⟩ := ih (i + 1) hrest
    have shift : ∀ call ∈ more, ∃ k c' rect, call.1 = i + k ∧
        (c :: rest)[k]? = some (some c') ∧ childItems[i + k]? = some rect ∧
        rect.contains relPoint = true ∧
        call.2 = ⟨relPoint.x - rect.topLeft.x, relPoint.y - rect.topLeft.y⟩ := by
      intro call hcall
      obtain ⟨k, c', rect, h1, h2, h3, h4, h5⟩ := hspec call hcall
      refine ⟨k + 1, c', rect, by omega, by rw [List.getElem?_cons_succ]; exact h2, ?_, h4, h5⟩
      rw [← h3]; congr 1; omega
    cases c with
    | none =>
      exact ⟨more, by simpa [getPixelValuesCallsLoop] using hmore, shift⟩
    | some child =>
      have hget : childItems[i]? = some childItems[i] := List.getElem?_eq_getElem hi
      by_cases hc : childItems[i].contains relPoint = true
      · refine ⟨(i, ⟨relPoint.x - childItems[i].topLeft.x,
            relPoint.y - childItems[i].topLeft.y⟩) :: more, ?_, ?_⟩
        · simp only [getPixelValuesCallsLoop, hget, hmore, hc, if_true, List.singleton_append]
        · intro call hcall
          rcases List.mem_cons.1 hcall with h | h
          · subst h
            exact ⟨0, child, childItems[i], rfl, List.getElem?_cons_zero, hget, hc, rfl⟩
          · exact shift call h
      · refine ⟨more, ?_, shift⟩
        simp only [getPixelValuesCallsLoop, hget, hmore, hc, if_false, List.nil_append,
          Bool.false_eq_true]

/-- C18: for every overlay laid out by `updateLayout(false)` from children that
report positive sizes, every `pixelPos` and every call
`getPixelValues(childPixelPos, frameIdx)` that the overlay's `getPixelValues`
makes on a child `i`, the position is
`boundingRect.topLeft() + pixelPos - childItems[i].topLeft()` and lies inside
the child: `0 <= x < width_i` and `0 <= y < height_i` for the size
`(width_i, height_i)` child `i` reports. -/
theorem overlay_hit_test_inside_child (ops : PlaylistItemOps σ) (ov : PlaylistItemOverlay σ)
    (c0' : σ) (rest' : List (Option σ)) (pixelPos : QPoint)
    (hnested : updateChildOverlays ops ov.children = some (some c0' :: rest'))
    (h0 : 0 ≤ ov.comboBoxAlignment.getD 0) (h8 : ov.comboBoxAlignment.getD 0 ≤ 8)
    (hpos : ∀ c, some c ∈ some c0' :: rest' →
      1 ≤ (ops.getSize c).width ∧ 1 ≤ (ops.getSize c).height) :
    ∃ ov' calls,
      updateLayout ops ov false = some ov' ∧
      getPixelValuesCalls ov' pixelPos = some calls ∧
      ∀ call ∈ calls, ∃ c rect,
        ov'.children[call.1]? = some (some c) ∧ ov'.childItems[call.1]? = some rect ∧
        call.2 = ⟨ov'.boundingRect.topLeft.x + pixelPos.x - rect.topLeft.x,
          ov'.boundingRect.topLeft.y + pixelPos.y - rect.topLeft.y⟩ ∧
        0 ≤ call.2.x ∧ call.2.x < (ops.getSize c).width ∧
        0 ≤ call.2.y ∧ call.2.y < (ops.getSize c).height := by
  obtain ⟨ov', hrun, hchildren, hlen, hanchor, hent, _⟩ :=
    updateLayout_entries ops ov c0' rest' hnested h0 h8
  obtain ⟨calls, hcalls, hspec⟩ := getPixelValuesCallsLoop_spec ov'.childItems
    ⟨ov'.boundingRect.topLeft.x + pixelPos.x, ov'.boundingRect.topLeft.y + pixelPos.y⟩
    ov'.children 0 (by rw [hlen, hchildren, List.length_cons]; omega)
  refine ⟨ov', calls, hrun, hcalls, ?_⟩
  intro call hcall
  obtain ⟨k, c, rect, h1, h2, h3, h4, h5⟩ := hspec call hcall
  have hk : call.1 = k := by omega
  rw [Nat.zero_add] at h3
  have hmem : some c ∈ some c0' :: rest' := by
    rw [← hchildren]
    exact List.mem_iff_getElem?.2 ⟨k, h2⟩
  obtain ⟨hw, hh⟩ := hpos c hmem
  have hext : rect.x2 - rect.x1 = (ops.getSize c).width - 1 ∧
      rect.y2 - rect.y1 = (ops.getSize c).height - 1 := by
    rw [hchildren] at h2
    cases k with
    | zero =>
      rw [List.getElem?_cons_zero] at h2
      cases h2
      rw [hanchor] at h3
      cases h3
      have hs := originRect_size (ops.getSize c0')
      have e1 : (originRect (ops.getSize c0')).x2 - (originRect (ops.getSize c0')).x1 + 1
          = (ops.getSize c0').width := congrArg QSize.width hs
      have e2 : (originRect (ops.getSize c0')).y2 - (originRect (ops.getSize c0')).y1 + 1
          = (ops.getSize c0').height := congrArg QSize.height hs
      constructor <;> omega
    | succ k =>
      rw [List.getElem?_cons_succ] at h2
      obtain ⟨a, ha, hget⟩ := hent k c h2
      rw [hget] at h3
      cases h3
      exact placed_valid ops _ _ _ a c ha
  rw [contains_iff rect _ (by omega) (by omega)] at h4
  simp only [QRect.topLeft] at h4 h5 ⊢
  refine ⟨c, rect, by rw [hk]; exact h2, by rw [hk]; exact h3, h5, ?_⟩
  rw [h5]
  dsimp only
  omega

/-- The member `alignmentMode` is never read by `updateLayout`: changing it
changes nothing but that member in the result. -/
theorem updateLayout_alignmentMode_unread (ops : PlaylistItemOps σ) (ov : PlaylistItemOverlay σ)
    (checkNumber : Bool) (m : Int) :
    updateLayout ops { ov with alignmentMode := m } checkNumber =
      (updateLayout ops ov checkNumber).map fun o => { o with alignmentMode := m } := by
  unfold updateLayout
  simp only [childCount]
  by_cases h1 : ov.children.length = 0
  · rw [if_pos h1, if_pos h1]; rfl
  rw [if_neg h1, if_neg h1]
  by_cases h2 : checkNumber = true ∧ ov.children.length = ov.childItems.length
  · rw [if_pos h2, if_pos h2]; rfl
  rw [if_neg h2, if_neg h2]
  · cases updateChildOverlays ops ov.children with
    | none => rfl
    | some children =>
      cases children with
      | nil => rfl
      | cons c rest =>
        cases c with
        | none => rfl
        | some firstItem =>
          dsimp only
          generalize alignLoop ops
            (match ov.comboBoxAlignment with
              | none => 0
              | some currentIndex => currentIndex) ov.manualAlignment _ 1 rest _ _ = result
          cases result <;> rfl

end PlaylistItemOverlay

/-! ## The theorems at concrete inputs -/

namespace Demo

open PlaylistItemOverlay PlaylistItemHEVCNextGenFile

/-- C1 at a concrete input: three children reporting `LoadingNotNeeded`,
`LoadingNeededDoubleBuffer` and `LoadingNeeded`, in this order. -/
theorem overlay_needsLoading_precedence_witness :
    PlaylistItemOverlay.needsLoading childOps
      (overlay [⟨.LoadingNotNeeded, ⟨4, 4⟩⟩, ⟨.LoadingNeededDoubleBuffer, ⟨2, 2⟩⟩,
        ⟨.LoadingNeeded, ⟨2, 2⟩⟩]) 0 false = some .LoadingNeeded :=
  (overlay_needsLoading_precedence childOps (overlay [])
    [⟨.LoadingNotNeeded, ⟨4, 4⟩⟩, ⟨.LoadingNeededDoubleBuffer, ⟨2, 2⟩⟩, ⟨.LoadingNeeded, ⟨2, 2⟩⟩]
    0 false).1 ⟨⟨.LoadingNeeded, ⟨2, 2⟩⟩, by simp, rfl⟩

/-- C5, the claim as first stated, fails here: the frame store holds frame 0
and frame 1, the statistics of frame 0 are missing, so `needsLoading(0, false)`
is `LoadingNeeded` and frame 1 is within the frame range, yet `loadFrame` with
`playing = true` loads the statistics only and nothing into the double
buffer. -/
theorem hevc_loadFrame_prefetch_counterexample :
    PlaylistItemHEVCNextGenFile.needsLoading external staleStatisticsItem 0 false
      = .LoadingNeeded ∧
    (0 : Int) + 1 ≤ staleStatisticsItem.startEndFrame.2 ∧
    (PlaylistItemHEVCNextGenFile.loadFrame external staleStatisticsItem 0 true false true).2 =
      [.videoNeedsLoading 0 false, .statNeedsLoading 0, .statLoadStatistics 0,
        .signalItemChanged true false] ∧
    HEVCEvent.videoLoadFrame (0 + 1) true ∉
      (PlaylistItemHEVCNextGenFile.loadFrame external staleStatisticsItem 0 true false true).2 := by
  decide

/-- C5 (as amended) at a concrete input: the item constructed on `good.hevc`,
whose frame store holds no frame yet, playing frame 0. -/
theorem hevc_loadFrame_prefetch_witness :
    (external.videoNeedsLoading (construct external "good.hevc" 0).1.video 0 false
        = .LoadingNeeded ∨
      external.videoNeedsLoading (construct external "good.hevc" 0).1.video 0 false
        = .LoadingNeededDoubleBuffer) ∧
    (0 : Int) + 1 ≤ (construct external "good.hevc" 0).1.startEndFrame.2 ∧
    HEVCEvent.videoLoadFrame (0 + 1) true ∈
      (PlaylistItemHEVCNextGenFile.loadFrame external (construct external "good.hevc" 0).1
        0 true false true).2 :=
  ⟨by decide, by decide,
    (hevc_loadFrame_prefetch external (construct external "good.hevc" 0).1 0 false true
      (by decide)).1 (by decide)⟩

/-- C6 at a concrete input: the item constructed on `good.hevc`, playing
frame 0 with signals. -/
theorem hevc_loadFrame_ordering_witness :
    Reachable external (construct external "good.hevc" 0).1 ∧
    ∃ current doubleBuffer : List HEVCEvent,
      (PlaylistItemHEVCNextGenFile.loadFrame external (construct external "good.hevc" 0).1
          0 true false true).2 =
        [.videoNeedsLoading 0 false, .statNeedsLoading 0] ++ current ++ doubleBuffer ∧
      (∀ e ∈ current, e = .videoLoadFrame 0 false ∨ e = .statLoadStatistics 0 ∨
        e = .signalItemChanged true false) ∧
      (doubleBuffer = [] ∨ doubleBuffer = [.videoLoadFrame (0 + 1) true] ∨
        doubleBuffer = [.videoLoadFrame (0 + 1) true, .signalItemDoubleBufferLoaded]) ∧
      (true = false → doubleBuffer = []) ∧
      (true = false →
        ∀ e ∈ (PlaylistItemHEVCNextGenFile.loadFrame external
            (construct external "good.hevc" 0).1 0 true false true).2,
          e ≠ .signalItemDoubleBufferLoaded ∧
            ∀ redraw recache, e ≠ .signalItemChanged redraw recache) ∧
      (PlaylistItemHEVCNextGenFile.loadFrame external (construct external "good.hevc" 0).1
          0 true false true).1.isFrameLoading = false ∧
      (PlaylistItemHEVCNextGenFile.loadFrame external (construct external "good.hevc" 0).1
          0 true false true).1.isFrameLoadingDoubleBuffer = false :=
  ⟨Reachable.construct "good.hevc" 0,
    hevc_loadFrame_ordering external (construct external "good.hevc" 0).1 0 true false true
      (Reachable.construct "good.hevc" 0)⟩

/-- C7 at concrete inputs, on the item constructed on `good.hevc`, a file of
three pictures whose construction has left frame 0 in the raw buffer: frame 7
is out of range and the raw buffer stays what it was; frame 2 is in range, the
loading decoder returns the two bytes of that frame, and the raw buffer and
its frame index become these bytes and 2. -/
theorem hevc_loadYUVData_raw_buffer_witness :
    (7 : Int) > (construct external "good.hevc" 0).1.startEndFrame.2 ∧
    (loadYUVData external (construct external "good.hevc" 0).1 7 false).1.video.rawYUVData
      = (construct external "good.hevc" 0).1.video.rawYUVData ∧
    (construct external "good.hevc" 0).1.video.rawYUVData = [0, 128] ∧
    (construct external "good.hevc" 0).1.video.rawYUVData_frameIdx = 0 ∧
    (loadYUVData external (construct external "good.hevc" 0).1 2 false).1.video.rawYUVData
      = [2, 128] ∧
    (loadYUVData external (construct external "good.hevc" 0).1 2 false).1.video.rawYUVData_frameIdx
      = 2 :=
  ⟨by decide,
    ((hevc_loadYUVData_raw_buffer external (construct external "good.hevc" 0).1 7 false).1
      (Or.inr (by decide))).1,
    by decide, by decide,
    (((hevc_loadYUVData_raw_buffer external (construct external "good.hevc" 0).1 2 false).2.2.2
      (by decide) (by decide) (by decide) (by decide)).2 (by decide)).1,
    (((hevc_loadYUVData_raw_buffer external (construct external "good.hevc" 0).1 2 false).2.2.2
      (by decide) (by decide) (by decide) (by decide)).2 (by decide)).2⟩

/-- C8 at a concrete input: `nocache.hevc` opens in the loading decoder and not
in the caching decoder, and the constructed item has caching switched off. -/
theorem hevc_caching_disabled_witness :
    (external.openFile (external.newDecoder 0 false) "nocache.hevc").1 = true ∧
    (external.openFileShared (external.newDecoder 0 true) "nocache.hevc"
      (external.openFile (external.newDecoder 0 false) "nocache.hevc").2).1 = false ∧
    (construct external "nocache.hevc" 0).1.cachingEnabled = false :=
  ⟨by decide, by decide,
    (hevc_caching_disabled_permanently external).1 "nocache.hevc" 0 (Or.inr (by decide))⟩

/-- C9 at a concrete input: `broken.hevc` does not parse, the constructed item
is in the file state `hevcFileError`, and neither `drawItem` nor
`loadYUVData` does anything. -/
theorem hevc_degraded_item_noop_witness :
    Reachable external (construct external "broken.hevc" 0).1 ∧
    (construct external "broken.hevc" 0).1.fileState ≠ .hevcFileNoError ∧
    drawItem external (construct external "broken.hevc" 0).1 0 false
      = ((construct external "broken.hevc" 0).1, []) ∧
    loadYUVData external (construct external "broken.hevc" 0).1 0 true
      = ((construct external "broken.hevc" 0).1, []) :=
  ⟨Reachable.construct "broken.hevc" 0, by decide,
    hevc_degraded_item_noop external (construct external "broken.hevc" 0).1
      (Reachable.construct "broken.hevc" 0) (by decide) 0 true false⟩

/-- C10 at a concrete input: an overlay with one child of size 5 x 3. -/
theorem overlay_anchor_placement_witness :
    ∃ ov' anchor,
      updateLayout childOps (overlay [⟨.LoadingNeeded, ⟨5, 3⟩⟩]) false = some ov' ∧
      ov'.childItems[0]? = some anchor ∧
      anchor.size = ⟨5, 3⟩ ∧
      anchor.left = -((5 - 1) / 2) ∧
      anchor.top = -((3 - 1) / 2) ∧
      anchor.center = ⟨0, 0⟩ ∧
      (([] : List (Option Child)) = [] → ov'.boundingRect = anchor ∧
        ∀ containerSize, getSize containerSize ov' = ⟨5, 3⟩) :=
  overlay_anchor_placement childOps (overlay [⟨.LoadingNeeded, ⟨5, 3⟩⟩])
    ⟨.LoadingNeeded, ⟨5, 3⟩⟩ ⟨.LoadingNeeded, ⟨5, 3⟩⟩ [] [] 5 3 rfl rfl
    (fun m hm => by cases hm) rfl (by decide) (by decide)

/-- C11 at a concrete input: children of sizes 4 x 4 and 2 x 2, the combo box
on index 8 (bottom right), the manual offset `(3, -2)`. -/
theorem overlay_grid_alignment_witness :
    ∃ ov' anchor rect,
      updateLayout childOps
        { overlay [⟨.LoadingNeeded, ⟨4, 4⟩⟩, ⟨.LoadingNeeded, ⟨2, 2⟩⟩] with
          comboBoxAlignment := some 8, manualAlignment := ⟨3, -2⟩ } false = some ov' ∧
      ov'.childItems[0]? = some anchor ∧ ov'.childItems[1]? = some rect ∧
      rect.size = ⟨2, 2⟩ ∧ rect.bottom = anchor.bottom + -2 ∧ rect.right = anchor.right + 3 := by
  obtain ⟨ov', anchor, rect, h1, h2, _, h4, h5, _, h7, _, h9, _⟩ :=
    overlay_grid_alignment childOps
      { overlay [⟨.LoadingNeeded, ⟨4, 4⟩⟩, ⟨.LoadingNeeded, ⟨2, 2⟩⟩] with
        comboBoxAlignment := some 8, manualAlignment := ⟨3, -2⟩ }
      ⟨.LoadingNeeded, ⟨4, 4⟩⟩ ⟨.LoadingNeeded, ⟨2, 2⟩⟩ [some ⟨.LoadingNeeded, ⟨2, 2⟩⟩] 8 0
      rfl rfl (by decide) rfl
  exact ⟨ov', anchor, rect, h1, h2, h4, h5, h7 (by decide), h9 (by decide)⟩

/-- C12 at a concrete input: children of sizes 4 x 4 and 2 x 2, the combo box
on index 4 (centre), no manual offset. -/
theorem overlay_centre_alignment_witness :
    ∃ ov' anchor rect,
      updateLayout childOps
        { overlay [⟨.LoadingNeeded, ⟨4, 4⟩⟩, ⟨.LoadingNeeded, ⟨2, 2⟩⟩] with
          comboBoxAlignment := some 4 } false = some ov' ∧
      ov'.childItems[0]? = some anchor ∧
      ov'.childItems[1]? = some rect ∧
      anchor = ⟨-1, -1, 2, 2⟩ ∧ rect = ⟨0, 0, 1, 1⟩ ∧
      anchor.size = ⟨4, 4⟩ ∧ rect.size = ⟨2, 2⟩ ∧
      anchor.containsRect rect = true ∧
      rect.center = anchor.center ∧ anchor.center = ⟨0, 0⟩ := by
  obtain ⟨ov', anchor, rect, h1, h2, h3, _, _, _, _, _, h9, h10, h11, h12, h13, h14, _, _, _, _,
      h19, _⟩ :=
    overlay_centre_alignment childOps
      { overlay [⟨.LoadingNeeded, ⟨4, 4⟩⟩, ⟨.LoadingNeeded, ⟨2, 2⟩⟩] with
        comboBoxAlignment := some 4 }
      ⟨.LoadingNeeded, ⟨4, 4⟩⟩ ⟨.LoadingNeeded, ⟨2, 2⟩⟩ [some ⟨.LoadingNeeded, ⟨2, 2⟩⟩] 0 4 4 2 2
      rfl rfl rfl rfl rfl rfl (by decide) (by decide) (by decide) (by decide)
  exact ⟨ov', anchor, rect, h1, h2, h3, h11.trans (by decide), h12.trans (by decide), h13, h14,
    h19, h9, h10⟩

/-- C13 at a concrete input: two children of size 2 x 2 placed side by side
with a gap; a point in the first rectangle gives the sets of child 0 only, a
point in the gap gives nothing. -/
theorem overlay_getPixelValues_hit_test_witness :
    PlaylistItemOverlay.getPixelValues childOps
      { overlay [⟨.LoadingNeeded, ⟨2, 2⟩⟩, ⟨.LoadingNeeded, ⟨2, 2⟩⟩] with
        childItems := [⟨0, 0, 1, 1⟩, ⟨10, 0, 11, 1⟩], boundingRect := ⟨0, 0, 11, 1⟩ }
      ⟨0, 0⟩ 0 = some [("Item 0 - YUV", [])] ∧
    PlaylistItemOverlay.getPixelValues childOps
      { overlay [⟨.LoadingNeeded, ⟨2, 2⟩⟩, ⟨.LoadingNeeded, ⟨2, 2⟩⟩] with
        childItems := [⟨0, 0, 1, 1⟩, ⟨10, 0, 11, 1⟩], boundingRect := ⟨0, 0, 11, 1⟩ }
      ⟨5, 0⟩ 0 = some [] :=
  ⟨((overlay_getPixelValues_hit_test childOps
      { overlay [⟨.LoadingNeeded, ⟨2, 2⟩⟩, ⟨.LoadingNeeded, ⟨2, 2⟩⟩] with
        childItems := [⟨0, 0, 1, 1⟩, ⟨10, 0, 11, 1⟩], boundingRect := ⟨0, 0, 11, 1⟩ }
      ⟨0, 0⟩ 0 rfl).2.2 _ _ _ _ rfl rfl).1 (by decide) (by decide),
   (overlay_getPixelValues_hit_test childOps
      { overlay [⟨.LoadingNeeded, ⟨2, 2⟩⟩, ⟨.LoadingNeeded, ⟨2, 2⟩⟩] with
        childItems := [⟨0, 0, 1, 1⟩, ⟨10, 0, 11, 1⟩], boundingRect := ⟨0, 0, 11, 1⟩ }
      ⟨5, 0⟩ 0 rfl).2.1 (by decide)⟩

/-- C14, the claim as first stated, fails here: the item constructed on
`empty.hevc` has the frame range `(0, -1)`, so frame 5 is out of range, yet
`loadYUVData(5, false)` asks the loading decoder for the frame size and the
pixel format and changes the frame size of the frame store and of the
statistics source. -/
theorem hevc_loadYUVData_out_of_range_counterexample :
    (construct external "empty.hevc" 0).1.startEndFrame = (0, -1) ∧
    (loadYUVData external (construct external "empty.hevc" 0).1 5 false).2 =
      [.loadingDecoder .getFrameSize, .videoSetFrameSize, .loadingDecoder .getYUVPixelFormat,
        .videoSetYUVPixelFormat, .loadingDecoder .getFrameSize] ∧
    (construct external "empty.hevc" 0).1.video.frameSize = ⟨0, 0⟩ ∧
    (loadYUVData external (construct external "empty.hevc" 0).1 5 false).1.video.frameSize
      = ⟨4, 2⟩ ∧
    (construct external "empty.hevc" 0).1.statSource.statFrameSize = ⟨0, 0⟩ ∧
    (loadYUVData external (construct external "empty.hevc" 0).1 5 false).1.statSource.statFrameSize
      = ⟨4, 2⟩ := by
  decide

/-- C14 (as amended) at a concrete input: frame 7 of the item constructed on
`good.hevc`, which holds three pictures. -/
theorem hevc_loadYUVData_out_of_range_witness :
    (7 : Int) > (construct external "good.hevc" 0).1.startEndFrame.2 ∧
    (∀ e ∈ (loadYUVData external (construct external "good.hevc" 0).1 7 false).2,
      e = .loadingDecoder .getFrameSize ∨ e = .loadingDecoder .getYUVPixelFormat ∨
        e = .videoSetFrameSize ∨ e = .videoSetYUVPixelFormat) ∧
    (loadYUVData external (construct external "good.hevc" 0).1 7 false).1.video.rawYUVData
      = (construct external "good.hevc" 0).1.video.rawYUVData :=
  ⟨by decide,
    (hevc_loadYUVData_out_of_range external (construct external "good.hevc" 0).1 7 false
      (Or.inr (by decide))).1,
    (hevc_loadYUVData_out_of_range external (construct external "good.hevc" 0).1 7 false
      (Or.inr (by decide))).2.2.2.1⟩

/-- C15 at a failing input: an overlay restored from a playlist entry with
`alignmentMode = 8` (bottom right) and no offset, without a properties widget,
with children of sizes 4 x 4 and 2 x 2.  `updateLayout(false)` places child 1 at
the top left corner of child 0, where mode 8 would place it at the bottom
right corner. -/
theorem overlay_alignmentMode_field_ignored :
    (newPlaylistItemOverlay 8 0 0 : PlaylistItemOverlay Child).alignmentMode = 8 ∧
    (updateLayout childOps
        { (newPlaylistItemOverlay 8 0 0 : PlaylistItemOverlay Child) with
          children := [some ⟨.LoadingNeeded, ⟨4, 4⟩⟩, some ⟨.LoadingNeeded, ⟨2, 2⟩⟩] }
        false).map (fun o => o.childItems) = some [⟨-1, -1, 2, 2⟩, ⟨-1, -1, 0, 0⟩] ∧
    alignRect 0 ⟨-1, -1, 2, 2⟩ (originRect ⟨2, 2⟩) = some ⟨-1, -1, 0, 0⟩ ∧
    alignRect 8 ⟨-1, -1, 2, 2⟩ (originRect ⟨2, 2⟩) = some ⟨1, 1, 2, 2⟩ := by
  decide

/-- C17, the claim as first stated, fails here: children of sizes 4 x 4 and
8 x 8, top left alignment (mode 0), no manual offset.  The bounding rectangle
is `(-1, -1)..(6, 6)` and its centre is `(2, 2)`. -/
theorem overlay_boundingRect_centre_counterexample :
    (updateLayout childOps
        (overlay [⟨.LoadingNeeded, ⟨4, 4⟩⟩, ⟨.LoadingNeeded, ⟨8, 8⟩⟩]) false).map
      (fun o => (o.boundingRect, o.boundingRect.center)) = some (⟨-1, -1, 6, 6⟩, ⟨2, 2⟩) ∧
    (overlay [⟨.LoadingNeeded, ⟨4, 4⟩⟩, ⟨.LoadingNeeded, ⟨8, 8⟩⟩]).manualAlignment = ⟨0, 0⟩ ∧
    (overlay [⟨.LoadingNeeded, ⟨4, 4⟩⟩, ⟨.LoadingNeeded, ⟨8, 8⟩⟩]).comboBoxAlignment.getD 0
      = 0 := by
  decide

/-- C17 (as amended) at a concrete input: children of sizes 4 x 4 and 8 x 2,
the combo box on index 1 (top centre), no manual offset.  Child 1 is wider than
child 0, centred horizontally and not higher than child 0: the bounding
rectangle is `(-3, -1)..(4, 2)` and its centre is the origin. -/
theorem overlay_boundingRect_centre_witness :
    ∃ ov',
      updateLayout childOps
        { overlay [⟨.LoadingNeeded, ⟨4, 4⟩⟩, ⟨.LoadingNeeded, ⟨8, 2⟩⟩] with
          comboBoxAlignment := some 1 } false = some ov' ∧
      ov'.boundingRect.center.x = 0 ∧ ov'.boundingRect.center.y = 0 := by
  obtain ⟨ov', h1, hx, hy, _, _⟩ :=
    overlay_boundingRect_centre childOps
      { overlay [⟨.LoadingNeeded, ⟨4, 4⟩⟩, ⟨.LoadingNeeded, ⟨8, 2⟩⟩] with
        comboBoxAlignment := some 1 }
      ⟨.LoadingNeeded, ⟨4, 4⟩⟩ [some ⟨.LoadingNeeded, ⟨8, 2⟩⟩] 1 4 4 rfl rfl (by decide)
      (by decide) rfl rfl (by decide) (by decide)
      (by
        intro c hc
        simp only [List.mem_singleton, Option.some.injEq] at hc
        subst hc
        decide)
  refine ⟨ov', h1, hx.2 (Or.inl (Or.inl rfl)), hy.2 (Or.inr (Or.inl ⟨Or.inr (Or.inl rfl), ?_⟩))⟩
  intro c hc
  simp only [List.mem_singleton, Option.some.injEq] at hc
  subst hc
  decide

/-- C18 at a concrete input: two children of size 2 x 2 side by side, laid out
with the manual offset `(10, 0)`. -/
theorem overlay_hit_test_inside_child_witness :
    ∃ ov' calls,
      updateLayout childOps
        { overlay [⟨.LoadingNeeded, ⟨2, 2⟩⟩, ⟨.LoadingNeeded, ⟨2, 2⟩⟩] with
          manualAlignment := ⟨10, 0⟩ } false = some ov' ∧
      getPixelValuesCalls ov' ⟨10, 1⟩ = some calls ∧
      ∀ call ∈ calls, ∃ c rect,
        ov'.children[call.1]? = some (some c) ∧ ov'.childItems[call.1]? = some rect ∧
        call.2 = ⟨ov'.boundingRect.topLeft.x + 10 - rect.topLeft.x,
          ov'.boundingRect.topLeft.y + 1 - rect.topLeft.y⟩ ∧
        0 ≤ call.2.x ∧ call.2.x < (childOps.getSize c).width ∧
        0 ≤ call.2.y ∧ call.2.y < (childOps.getSize c).height :=
  overlay_hit_test_inside_child childOps
    { overlay [⟨.LoadingNeeded, ⟨2, 2⟩⟩, ⟨.LoadingNeeded, ⟨2, 2⟩⟩] with
      manualAlignment := ⟨10, 0⟩ }
    ⟨.LoadingNeeded, ⟨2, 2⟩⟩ [some ⟨.LoadingNeeded, ⟨2, 2⟩⟩] ⟨10, 1⟩ rfl (by decide) (by decide)
    (by
      intro c hc
      simp only [List.mem_cons, List.mem_singleton, Option.some.injEq, List.not_mem_nil,
        or_false, or_self] at hc
      subst hc
      decide)

end Demo

end YUView
